import Mathlib

/-!
# mcp-vmanomaly: configuration, tool filter and tool handlers

A shallow embedding of `cmd/mcp-vmanomaly/config/config.go`,
`cmd/mcp-vmanomaly/main.go` and the handlers and helpers of `internal/tools`.
The client of `internal/vmanomaly` is not among the sources: its types and the
classification of a backend response follow the specification, and so does the
dispatch of a call by name, which is the MCP server library's.

Conventions of the embedding:
* a Go `string` is a `String`, and the zero value `""` stands for an omitted
  argument;
* a Go `int` is an `Int`;
* a `float64` argument decoded from JSON is a finite number and is embedded as
  a rational, which agrees with the source on every comparison with `0`;
* a Go pointer `*T` that is either `nil` or the address of a value is an
  `Option T`;
* a Go `error` is its message, and a `(value, error)` pair of which exactly one
  is set is an `Except String value`;
* `map[K]V` is an association list read with `List.lookup`, and a possibly
  `nil` map is an `Option` of one;
* `os.Getenv` is a function from variable names to values that gives `""` for
  an unset variable;
* `strings.ToLower`, `time.ParseDuration` and `strconv.ParseBool` are taken as
  given (`GoLib`), while splitting and trimming are embedded on the characters;
* `main` is a machine whose states are the places where `main` blocks or ends,
  moved by the events that it waits for;
* in `truncateResponse`, where `len` and a slice count bytes, the string is the
  list of its bytes, and a slice out of range is an error.
-/

set_option autoImplicit false
set_option maxRecDepth 8192

namespace Vmanomaly

/-! ## Shared data -/

/-- The process environment as `os.Getenv` sees it. -/
abbrev Env := String → String

/-- A decoded JSON value (`any` in the Go source). -/
inductive JSONValue where
  | null : JSONValue
  | bool (b : Bool) : JSONValue
  | number (q : ℚ) : JSONValue
  | string (s : String) : JSONValue
  | array (xs : List JSONValue) : JSONValue
  | object (kvs : List (String × JSONValue)) : JSONValue

/-- A `map[string]any`. -/
abbrev JSONObject := List (String × JSONValue)

/-- The substring relation on strings (`strings.Contains`), on the characters. -/
def strContains (s sub : String) : Prop := sub.data <:+: s.data

instance (s sub : String) : Decidable (strContains s sub) := by
  unfold strContains; infer_instance

/-- Equality of the outcomes of a fallible call is decidable. -/
instance {ε α : Type} [DecidableEq ε] [DecidableEq α] : DecidableEq (Except ε α) :=
  fun a b =>
    match a, b with
    | .ok x, .ok y =>
      if h : x = y then isTrue (by rw [h]) else isFalse (fun h' => h (Except.ok.inj h'))
    | .error x, .error y =>
      if h : x = y then isTrue (by rw [h]) else isFalse (fun h' => h (Except.error.inj h'))
    | .ok _, .error _ => isFalse (fun h' => Except.noConfusion h')
    | .error _, .ok _ => isFalse (fun h' => Except.noConfusion h')

/-! ## The functions of the Go standard library that `config.go` calls

A string of the source is taken to be valid UTF-8, so that its characters are
its runes; a separator or cut set of ASCII characters then splits and trims the
characters as it does the bytes.
-/

namespace unicode

/-- The function `unicode.IsSpace`: the white space of Unicode. -/
def IsSpace (c : Char) : Bool :=
  (9 ≤ c.toNat && c.toNat ≤ 13) || c.toNat == 32 || c.toNat == 0x85 || c.toNat == 0xA0
    || c.toNat == 0x1680 || (0x2000 ≤ c.toNat && c.toNat ≤ 0x200A)
    || c.toNat == 0x2028 || c.toNat == 0x2029 || c.toNat == 0x202F
    || c.toNat == 0x205F || c.toNat == 0x3000

end unicode

namespace strings

/-- The pieces of a list of characters between the occurrences of a separator
character: one more piece than there are separators. -/
def splitChars (sep : Char) : List Char → List (List Char)
  | [] => [[]]
  | c :: cs =>
    if c = sep then [] :: splitChars sep cs
    else
      match splitChars sep cs with
      | piece :: pieces => (c :: piece) :: pieces
      | [] => [[c]]

/-- The function `strings.Split(s, sep)` for a separator of one character. -/
def Split (s : String) (sep : Char) : List String :=
  (splitChars sep s.data).map String.mk

/-- The characters before and after the first occurrence of a separator
character, when there is one. -/
def cutChars (sep : Char) : List Char → Option (List Char × List Char)
  | [] => none
  | c :: cs =>
    if c = sep then some ([], cs)
    else
      match cutChars sep cs with
      | some (before, after) => some (c :: before, after)
      | none => none

/-- The function `strings.SplitN(s, sep, 2)` for a separator of one character:
the string itself when it has no separator, and otherwise the text before the
first separator and the text after it. -/
def SplitN2 (s : String) (sep : Char) : List String :=
  match cutChars sep s.data with
  | some (before, after) => [String.mk before, String.mk after]
  | none => [s]

/-- Removal of the leading and trailing characters that satisfy a predicate. -/
def trimChars (p : Char → Bool) (l : List Char) : List Char :=
  (l.dropWhile p).rdropWhile p

/-- The function `strings.TrimSpace`. -/
def TrimSpace (s : String) : String := String.mk (trimChars unicode.IsSpace s.data)

/-- The function `strings.Trim(s, cutset)`. -/
def Trim (s : String) (cutset : String) : String :=
  String.mk (trimChars (fun c => cutset.data.contains c) s.data)

end strings

namespace time

/-- The value `time.Second`: a `time.Duration` is a number of nanoseconds. -/
def Second : Int := 1000000000

end time

/-- The functions of the standard library that `InitConfig` calls and that are
taken as given rather than embedded: `strings.ToLower`, `time.ParseDuration`
(its result a number of nanoseconds) and `strconv.ParseBool`. -/
structure GoLib where
  ToLower : String → String
  ParseDuration : String → Except String Int
  ParseBool : String → Except String Bool

/-- The assignment `m[key] = value` on a map. -/
def mapSet {β : Type} (m : List (String × β)) (key : String) (value : β) :
    List (String × β) :=
  (key, value) :: m.filter (fun entry => entry.1 != key)

/-! ## config.go -/

namespace config

/-- The struct `Config` of `config.go`; `heartbeatInterval` is a
`time.Duration`, a number of nanoseconds. -/
structure Config where
  vmanomalyEndpoint : String
  serverMode : String
  listenAddr : String
  disabledTools : Option (List (String × Bool))
  heartbeatInterval : Int
  disableResources : Bool
  logLevel : String
  logFile : String
  bearerToken : String
  customHeaders : List (String × String)
  deriving DecidableEq, Repr

/-- The method `(c *Config) IsToolDisabled`. -/
def Config.IsToolDisabled (c : Config) (toolName : String) : Bool :=
  match c.disabledTools with
  | none => false
  | some m =>
    match m.lookup toolName with
    | some disabled => disabled
    | none => false

/-- The body of the loop of `parseCustomHeaders` (lines 31-41): the map after
one comma-separated piece of the header string. -/
def parseCustomHeaders_header (customHeadersMap : List (String × String))
    (header : String) : List (String × String) :=
  let header := strings.TrimSpace header
  if header ≠ "" then
    match strings.SplitN2 header '=' with
    | [part0, part1] =>
      let key := strings.TrimSpace part0
      let value := strings.TrimSpace part1
      if key ≠ "" ∧ value ≠ "" then mapSet customHeadersMap key value
      else customHeadersMap
    | _ => customHeadersMap
  else customHeadersMap

/-- The function `parseCustomHeaders`. -/
def parseCustomHeaders (headersEnv : String) : List (String × String) :=
  let customHeadersMap : List (String × String) := []
  if headersEnv = "" then customHeadersMap
  else (strings.Split headersEnv ',').foldl parseCustomHeaders_header customHeadersMap

/-- The pair that one comma-separated entry of the header string stands for, in
the words of the specification: for an entry containing `=`, the text before
the first `=` and the text after it, each with the surrounding white space
removed, provided both are non-empty; no pair otherwise. -/
def headerEntrySpec (entry : String) : Option (String × String) :=
  match strings.cutChars '=' entry.data with
  | some (before, after) =>
    let key := strings.TrimSpace (String.mk before)
    let value := strings.TrimSpace (String.mk after)
    if key ≠ "" ∧ value ≠ "" then some (key, value) else none
  | none => none

/-- The value that the header map holds under a key, in the words of the
specification: that of the last comma-separated entry whose pair has the key. -/
def parseCustomHeadersSpec (headersEnv : String) (key : String) : Option String :=
  (((strings.Split headersEnv ',').filterMap headerEntrySpec).reverse).lookup key

/-- The map `disabledToolsMap` of `InitConfig` (lines 48-58). -/
def InitConfig_disabledToolsMap (env : Env) : List (String × Bool) :=
  let disabledTools := env "MCP_DISABLED_TOOLS"
  let disabledToolsMap : List (String × Bool) := []
  if disabledTools ≠ "" then
    (strings.Split disabledTools ',').foldl
      (fun disabledToolsMap tool =>
        let tool := strings.Trim tool " ,"
        if tool ≠ "" then mapSet disabledToolsMap tool true else disabledToolsMap)
      disabledToolsMap
  else disabledToolsMap

/-- The heartbeat interval of `InitConfig` (lines 60-72), or the error it
returns. -/
def InitConfig_heartbeatInterval (lib : GoLib) (env : Env) : Except String Int :=
  let heartbeatInterval := 30 * time.Second
  let heartbeatIntervalStr := env "MCP_HEARTBEAT_INTERVAL"
  if heartbeatIntervalStr ≠ "" then
    match lib.ParseDuration heartbeatIntervalStr with
    | .error err => .error ("failed to parse MCP_HEARTBEAT_INTERVAL: " ++ err)
    | .ok interval =>
      if interval < 0 then .error "MCP_HEARTBEAT_INTERVAL must be non-negative"
      else .ok interval
  else .ok heartbeatInterval

/-- The flag `disableResources` of `InitConfig` (lines 74-83), or the error it
returns. -/
def InitConfig_disableResources (lib : GoLib) (env : Env) : Except String Bool :=
  let disableResources := false
  let disableResourcesStr := env "MCP_DISABLE_RESOURCES"
  if disableResourcesStr ≠ "" then
    match lib.ParseBool disableResourcesStr with
    | .error err => .error ("failed to parse MCP_DISABLE_RESOURCES: " ++ err)
    | .ok parsed => .ok parsed
  else .ok disableResources

/-- The function `InitConfig`. -/
def InitConfig (lib : GoLib) (env : Env) : Except String Config :=
  let disabledToolsMap := InitConfig_disabledToolsMap env
  match InitConfig_heartbeatInterval lib env with
  | .error err => .error err
  | .ok heartbeatInterval =>
    match InitConfig_disableResources lib env with
    | .error err => .error err
    | .ok disableResources =>
      let customHeadersMap := parseCustomHeaders (env "VMANOMALY_HEADERS")
      let result : Config :=
        { vmanomalyEndpoint := env "VMANOMALY_ENDPOINT"
          serverMode := lib.ToLower (env "MCP_SERVER_MODE")
          listenAddr := env "MCP_LISTEN_ADDR"
          disabledTools := some disabledToolsMap
          heartbeatInterval := heartbeatInterval
          disableResources := disableResources
          logLevel := lib.ToLower (env "MCP_LOG_LEVEL")
          logFile := env "MCP_LOG_FILE"
          bearerToken := env "VMANOMALY_BEARER_TOKEN"
          customHeaders := customHeadersMap }
      if result.vmanomalyEndpoint = "" then .error "VMANOMALY_ENDPOINT is required"
      else if result.serverMode ≠ "" ∧ result.serverMode ≠ "stdio"
          ∧ result.serverMode ≠ "http" then
        .error "MCP_SERVER_MODE must be 'stdio' or 'http'"
      else if result.logLevel ≠ "" ∧ result.logLevel ≠ "debug" ∧ result.logLevel ≠ "info"
          ∧ result.logLevel ≠ "warn" ∧ result.logLevel ≠ "error" then
        .error "MCP_LOG_LEVEL must be 'debug', 'info', 'warn', or 'error'"
      else
        let result :=
          if result.serverMode = "" then { result with serverMode := "stdio" } else result
        let result :=
          if result.listenAddr = "" then { result with listenAddr := "localhost:8080" }
          else result
        let result :=
          if result.logLevel = "" then { result with logLevel := "info" } else result
        .ok result

/-- The method `(c *Config) VmanomalyEndpoint`. -/
def Config.VmanomalyEndpoint (c : Config) : String := c.vmanomalyEndpoint

/-- The method `(c *Config) ServerMode`. -/
def Config.ServerMode (c : Config) : String := c.serverMode

/-- The method `(c *Config) IsStdio`. -/
def Config.IsStdio (c : Config) : Bool := c.serverMode == "stdio"

/-- The method `(c *Config) IsHTTP`. -/
def Config.IsHTTP (c : Config) : Bool := c.serverMode == "http"

/-- The method `(c *Config) ListenAddr`. -/
def Config.ListenAddr (c : Config) : String := c.listenAddr

/-- The method `(c *Config) HeartbeatInterval`. -/
def Config.HeartbeatInterval (c : Config) : Int := c.heartbeatInterval

/-- The method `(c *Config) LogLevel`. -/
def Config.LogLevel (c : Config) : String := c.logLevel

/-- The method `(c *Config) LogFile`. -/
def Config.LogFile (c : Config) : String := c.logFile

/-- The method `(c *Config) BearerToken`. -/
def Config.BearerToken (c : Config) : String := c.bearerToken

/-- The method `(c *Config) CustomHeaders`. -/
def Config.CustomHeaders (c : Config) : List (String × String) := c.customHeaders

/-- The method `(c *Config) IsResourcesDisabled`. -/
def Config.IsResourcesDisabled (c : Config) : Bool := c.disableResources

end config

/-! ## The parts of the MCP library that `main.go` and `internal/tools` use -/

namespace mcp

/-- The type `mcp.Tool`: the name under which a tool is listed and called, and
its description. -/
structure Tool where
  Name : String
  Description : String
  deriving DecidableEq, Repr

/-- One item of a tool result. -/
inductive Content where
  | TextContent (Text : String) : Content
  | EmbeddedResource (Resource : String) : Content
  deriving DecidableEq, Repr

/-- The type `mcp.CallToolResult`. -/
structure CallToolResult where
  Content : List Content
  IsError : Bool
  deriving DecidableEq, Repr

/-- The constructor `mcp.NewToolResultText`. -/
def NewToolResultText (text : String) : CallToolResult :=
  { Content := [Content.TextContent text], IsError := false }

/-- The constructor `mcp.NewToolResultError`. -/
def NewToolResultError (text : String) : CallToolResult :=
  { Content := [Content.TextContent text], IsError := true }

/-- The function `mcp.NewStructuredToolHandler` of the MCP library, with which
`RegisterCompatibilityTools` makes the tool handler that it registers
(compatibility.go:40), on arguments that are already decoded: `handler` is what
the structured handler returns. An error of the structured handler is no error
of the tool handler but a tool result marked as an error, with the text
`tool execution failed: ` followed by the message; a value becomes the
structured result that the library makes of it (`structured`). -/
def NewStructuredToolHandler {α : Type} (structured : α → CallToolResult)
    (handler : Except String α) : Except String CallToolResult :=
  match handler with
  | .error err => .ok (NewToolResultError ("tool execution failed: " ++ err))
  | .ok result => .ok (structured result)

end mcp

/-! ## internal/vmanomaly: the client as the tool handlers see it -/

namespace vmanomaly

/-- Modelled from the spec: the request type `AnomalyDetectionTaskRequest` is
declared in `internal/vmanomaly/client.go`, which is not among the sources. Its
fields are those that `handleCreateDetectionTask` and the tests assign
("required {query, model spec}, optional timing/threshold/datasource overrides,
boolean exact batch-mode flag, boolean forward auth header flag"). -/
structure AnomalyDetectionTaskRequest where
  Query : String
  ModelSpec : JSONObject
  Step : String
  FitWindow : String
  FitEvery : String
  StartInferS : Option ℚ
  EndInferS : Option ℚ
  InferEvery : Option String
  Exact : Bool
  AnomalyThreshold : ℚ
  DatasourceURL : Option String
  DatasourceType : String
  TenantID : Option String
  PassAuthHeaders : Bool

/-- Modelled from the spec: the response type `AnomalyDetectionTaskResponse` of
the missing `client.go` ("{task id, initial status}"). -/
structure AnomalyDetectionTaskResponse where
  TaskID : String
  Status : String

/-- Modelled from the spec: the type `AnomalyDetectionTaskStatus` of the missing
`client.go` ("{task id, status, integer progress, message, last-update
timestamp, metrics object}"). -/
structure AnomalyDetectionTaskStatus where
  TaskID : String
  Status : String
  Progress : Int
  Message : String
  UpdatedAt : String
  Metrics : JSONObject

/-- Modelled from the spec: the type `AnomalyDetectionTaskListItem` of the
missing `client.go`, one task summary of a listing. -/
structure AnomalyDetectionTaskListItem where
  TaskID : String
  Status : String
  Progress : Int
  Message : String
  UpdatedAt : String
  Metrics : JSONObject

/-- Modelled from the spec: the type `AnomalyDetectionTaskListResponse` of the
missing `client.go` ("ordered list of task summaries"). -/
structure AnomalyDetectionTaskListResponse where
  Tasks : List AnomalyDetectionTaskListItem

/-- Modelled from the spec: the type `AnomalyDetectionLimitsResponse` of the
missing `client.go` ("{max concurrent, currently running, available}"). -/
structure AnomalyDetectionLimitsResponse where
  MaxConcurrent : Int
  Running : Int
  Available : Int

/-- Modelled from the spec: the request type `QueryRequest` of the missing
`client.go`; its fields are those that `handleQueryMetrics` assigns. -/
structure QueryRequest where
  Query : String
  Start : Option ℚ
  End : Option ℚ
  Step : String
  DatasourceType : String
  DatasourceURL : Option String
  TenantID : Option String
  NoCache : Option String
  PassAuthHeaders : Bool

/-- Modelled from the spec: the type `ModelsListResponse` of the missing
`client.go` ("ordered list of model identifiers"). -/
structure ModelsListResponse where
  Models : List String

/-- Modelled from the spec: the type `ModelValidationResponse` of the missing
`client.go` ("{valid: boolean, normalized-or-error spec}"). -/
structure ModelValidationResponse where
  Valid : Bool
  ModelSpec : JSONObject

/-- Modelled from the spec: the result type of `Client.ValidateConfig` in the
missing `client.go` ("{valid: boolean, normalized config or error list}"); the
handler reads its field `IsValid`. -/
structure ConfigValidationResponse where
  IsValid : Bool
  Body : JSONObject

/-- Modelled from the spec: the request type `AlertRuleRequest` of the missing
`client.go`; its fields are those that `handleGenerateAlertRule` assigns. -/
structure AlertRuleRequest where
  Step : String
  Query : String
  AnomalyThreshold : Option ℚ
  RuleName : Option String
  GroupName : Option String
  RuleDescription : Option String
  InferEvery : Option String

/-- Modelled from the spec: the global verdict of a compatibility response in
the missing `client.go` ("{has state, is compatible, must drop everything,
optional reason}"). -/
structure GlobalCompatibilityCheck where
  HasState : Bool
  IsCompatible : Bool
  DropEverything : Bool
  Reason : Option String

/-- Modelled from the spec: the per-component assessment of a compatibility
response in the missing `client.go`; the handler reads the models requiring
purge and whether reader data requires purge, the issues are carried as decoded
JSON. -/
structure ComponentAssessment where
  ModelsToPurge : List String
  ShouldPurgeReaderData : Bool
  Issues : List JSONValue

/-- Modelled from the spec: the result type of `Client.Compatibility` in the
missing `client.go` ("{runtime version, optional stored-state version, global
compatibility verdict, optional per-component assessment}"). -/
structure CompatibilityCheckResponse where
  RuntimeVersion : String
  StoredVersion : Option String
  GlobalCheck : GlobalCompatibilityCheck
  ComponentAssessment : Option ComponentAssessment

/-- Modelled from the spec: the methods of `vmanomaly.Client` (declared in the
missing `client.go`) that the tool handlers call, each as the function from its
arguments to its result or error. `Metrics` is the call `Metrics(ctx, nil)`, the
only one the handlers make. -/
structure Client where
  GetHealth : Except String JSONObject
  GetBuildInfo : Except String JSONObject
  Metrics : Except String String
  ListModels : Except String ModelsListResponse
  GetModelSchema : String → Except String JSONObject
  ValidateModel : JSONObject → Except String ModelValidationResponse
  ValidateConfig : JSONObject → Except String ConfigValidationResponse
  GenerateAlertRule : AlertRuleRequest → Except String String
  CreateDetectionTask :
    AnomalyDetectionTaskRequest → Except String AnomalyDetectionTaskResponse
  GetTaskStatus : String → Except String AnomalyDetectionTaskStatus
  ListTasks : Int → Option String → Except String AnomalyDetectionTaskListResponse
  CancelTask : String → Except String (List (String × Bool))
  GetDetectionLimits : Except String AnomalyDetectionLimitsResponse
  Query : QueryRequest → Except String JSONObject
  Compatibility : Option String → Except String CompatibilityCheckResponse

end vmanomaly

/-- The library call `json.MarshalIndent(v, "", "  ")` on values of one type:
the text, or the error. -/
abbrev MarshalIndent (α : Type) := α → Except String String

/-! ## internal/tools -/

namespace tools

open mcp vmanomaly

/-- The result pair `(*mcp.CallToolResult, error)` of a tool handler. -/
abbrev ToolReturn := Except String CallToolResult

/-- Rendering of `%d` for an `int`. -/
def fmtInt (n : Int) : String := toString n

/-! ### tools.go, models.go, config.go, info.go, alerts.go -/

/-- The handler `handleHealthCheck` of `tools.go`. -/
def handleHealthCheck (client : Client) (marshalIndent : MarshalIndent JSONObject) :
    ToolReturn :=
  match client.GetHealth with
  | .error err => .ok (NewToolResultError ("Health check failed: " ++ err))
  | .ok health =>
    match marshalIndent health with
    | .error err => .ok (NewToolResultError ("Failed to format response: " ++ err))
    | .ok responseJSON => .ok (NewToolResultText responseJSON)

/-- The struct `GetModelSchemaArgs`. -/
structure GetModelSchemaArgs where
  ModelClass : String

/-- The struct `ValidateModelConfigArgs`. -/
structure ValidateModelConfigArgs where
  ModelSpec : JSONObject

/-- The handler `handleListModels` of `models.go`. -/
def handleListModels (client : Client) (marshalIndent : MarshalIndent ModelsListResponse) :
    ToolReturn :=
  match client.ListModels with
  | .error err => .ok (NewToolResultError ("Failed to list models: " ++ err))
  | .ok models =>
    match marshalIndent models with
    | .error err => .ok (NewToolResultError ("Failed to format response: " ++ err))
    | .ok responseJSON => .ok (NewToolResultText responseJSON)

/-- The handler `handleGetModelSchema` of `models.go`. -/
def handleGetModelSchema (client : Client) (marshalIndent : MarshalIndent JSONObject)
    (args : GetModelSchemaArgs) : ToolReturn :=
  match client.GetModelSchema args.ModelClass with
  | .error err => .ok (NewToolResultError ("Failed to get model schema: " ++ err))
  | .ok schema =>
    match marshalIndent schema with
    | .error err => .ok (NewToolResultError ("Failed to format response: " ++ err))
    | .ok responseJSON => .ok (NewToolResultText responseJSON)

/-- The handler `handleValidateModelConfig` of `models.go`. -/
def handleValidateModelConfig (client : Client)
    (marshalIndent : MarshalIndent ModelValidationResponse)
    (args : ValidateModelConfigArgs) : ToolReturn :=
  match client.ValidateModel args.ModelSpec with
  | .error err => .ok (NewToolResultError ("Model validation failed: " ++ err))
  | .ok validation =>
    match marshalIndent validation with
    | .error err => .ok (NewToolResultError ("Failed to format response: " ++ err))
    | .ok responseJSON =>
      let resultMsg := "Validation Result:\n" ++ responseJSON ++ "\n\n"
      if validation.Valid then
        .ok (NewToolResultText (resultMsg ++ "✓ Model configuration is valid and ready to use!"))
      else
        .ok (NewToolResultText
          (resultMsg ++ "✗ Model configuration is invalid. Check the errors above."))

/-- The struct `ValidateConfigArgs`. -/
structure ValidateConfigArgs where
  Config : JSONObject

/-- The handler `handleValidateConfig` of `config.go`. -/
def handleValidateConfig (client : Client)
    (marshalIndent : MarshalIndent ConfigValidationResponse)
    (args : ValidateConfigArgs) : ToolReturn :=
  match client.ValidateConfig args.Config with
  | .error err => .ok (NewToolResultError ("Config validation failed: " ++ err))
  | .ok validation =>
    match marshalIndent validation with
    | .error err => .ok (NewToolResultError ("Failed to format response: " ++ err))
    | .ok responseJSON =>
      let resultMsg := "Validation Result:\n" ++ responseJSON ++ "\n\n"
      if validation.IsValid then
        .ok (NewToolResultText (resultMsg ++ "Configuration is valid and ready to use!"))
      else
        .ok (NewToolResultText
          (resultMsg ++ "Configuration is invalid. Check the errors above."))

/-- The handler `handleGetBuildinfo` of `info.go`. -/
def handleGetBuildinfo (client : Client) (marshalIndent : MarshalIndent JSONObject) :
    ToolReturn :=
  match client.GetBuildInfo with
  | .error err => .ok (NewToolResultError ("Failed to get build info: " ++ err))
  | .ok buildInfo =>
    match marshalIndent buildInfo with
    | .error err => .ok (NewToolResultError ("Failed to format response: " ++ err))
    | .ok responseJSON =>
      .ok (NewToolResultText ("vmanomaly Build Information:\n\n" ++ responseJSON))

/-- The handler `handleGetMetrics` of `info.go`. -/
def handleGetMetrics (client : Client) : ToolReturn :=
  match client.Metrics with
  | .error err => .ok (NewToolResultError ("Failed to get metrics: " ++ err))
  | .ok metrics => .ok (NewToolResultText ("vmanomaly Prometheus Metrics:\n\n" ++ metrics))

/-- The struct `GenerateAlertRuleArgs`. -/
structure GenerateAlertRuleArgs where
  Step : String
  Query : String
  AnomalyThreshold : ℚ
  RuleName : String
  GroupName : String
  RuleDescription : String
  InferEvery : String

/-- The request that `handleGenerateAlertRule` builds before the client call. -/
def alertRuleRequest (args : GenerateAlertRuleArgs) : AlertRuleRequest :=
  { Step := args.Step
    Query := args.Query
    AnomalyThreshold := if args.AnomalyThreshold > 0 then some args.AnomalyThreshold else none
    RuleName := if args.RuleName ≠ "" then some args.RuleName else none
    GroupName := if args.GroupName ≠ "" then some args.GroupName else none
    RuleDescription := if args.RuleDescription ≠ "" then some args.RuleDescription else none
    InferEvery := if args.InferEvery ≠ "" then some args.InferEvery else none }

/-- The handler `handleGenerateAlertRule` of `alerts.go`. -/
def handleGenerateAlertRule (client : Client) (args : GenerateAlertRuleArgs) : ToolReturn :=
  match client.GenerateAlertRule (alertRuleRequest args) with
  | .error err => .ok (NewToolResultError ("Failed to generate alert rule: " ++ err))
  | .ok yamlConfig =>
    .ok (NewToolResultText
      ("Generated VMAlert Rule:\n\n```yaml\n" ++ yamlConfig
        ++ "\n```\n\nSave this to a .yaml file and configure vmalert to load it."))

/-! ### tasks.go -/

/-- The struct `CreateDetectionTaskArgs`. -/
structure CreateDetectionTaskArgs where
  Query : String
  ModelSpec : JSONObject
  Step : String
  FitWindow : String
  FitEvery : String
  StartInferS : ℚ
  EndInferS : ℚ
  InferEvery : String
  Exact : Bool
  AnomalyThreshold : ℚ
  DatasourceURL : String
  DatasourceType : String
  TenantID : String
  PassAuthHeaders : Bool

/-- The struct `GetTaskStatusArgs`. -/
structure GetTaskStatusArgs where
  TaskID : String

/-- The struct `ListTasksArgs`. -/
structure ListTasksArgs where
  Limit : Int
  Status : String

/-- The struct `CancelTaskArgs`. -/
structure CancelTaskArgs where
  TaskID : String

/-- The request `taskReq` that `handleCreateDetectionTask` hands to
`client.CreateDetectionTask` (lines 106-156): the literal with the defaults,
then the overrides in the order of the source. -/
def handleCreateDetectionTask_taskReq (env : Env) (args : CreateDetectionTaskArgs) :
    AnomalyDetectionTaskRequest :=
  let taskReq : AnomalyDetectionTaskRequest :=
    { Query := args.Query
      ModelSpec := args.ModelSpec
      Step := "1s"
      FitWindow := "1d"
      FitEvery := "1d"
      StartInferS := none
      EndInferS := none
      InferEvery := none
      Exact := args.Exact
      AnomalyThreshold := 1
      DatasourceURL := none
      DatasourceType := "vm"
      TenantID := none
      PassAuthHeaders := false }
  let taskReq := if args.Step ≠ "" then { taskReq with Step := args.Step } else taskReq
  let taskReq :=
    if args.FitWindow ≠ "" then { taskReq with FitWindow := args.FitWindow } else taskReq
  let taskReq :=
    if args.FitEvery ≠ "" then { taskReq with FitEvery := args.FitEvery } else taskReq
  let taskReq :=
    if args.AnomalyThreshold > 0 then
      { taskReq with AnomalyThreshold := args.AnomalyThreshold }
    else taskReq
  let taskReq :=
    if args.DatasourceType ≠ "" then
      { taskReq with DatasourceType := args.DatasourceType }
    else taskReq
  let taskReq :=
    if args.StartInferS > 0 then { taskReq with StartInferS := some args.StartInferS }
    else taskReq
  let taskReq :=
    if args.EndInferS > 0 then { taskReq with EndInferS := some args.EndInferS }
    else taskReq
  let taskReq :=
    if args.InferEvery ≠ "" then { taskReq with InferEvery := some args.InferEvery }
    else taskReq
  let taskReq :=
    if args.TenantID ≠ "" then { taskReq with TenantID := some args.TenantID } else taskReq
  if args.DatasourceURL ≠ "" then
    { taskReq with DatasourceURL := some args.DatasourceURL }
  else
    let envURL := env "VMANOMALY_ENDPOINT"
    if envURL ≠ "" then { taskReq with DatasourceURL := some envURL } else taskReq

/-- The handler `handleCreateDetectionTask`. -/
def handleCreateDetectionTask (client : Client)
    (marshalIndent : MarshalIndent AnomalyDetectionTaskResponse)
    (env : Env) (args : CreateDetectionTaskArgs) : ToolReturn :=
  match client.CreateDetectionTask (handleCreateDetectionTask_taskReq env args) with
  | .error err => .ok (NewToolResultError ("Failed to create detection task: " ++ err))
  | .ok response =>
    match marshalIndent response with
    | .error err => .ok (NewToolResultError ("Failed to format response: " ++ err))
    | .ok responseJSON =>
      .ok (NewToolResultText
        ("Anomaly Detection Task Created:\n\n" ++ responseJSON
          ++ "\n\nUse get_task_status with task_id '" ++ response.TaskID
          ++ "' to monitor progress."))

/-- The handler `handleGetTaskStatus`. -/
def handleGetTaskStatus (client : Client)
    (marshalIndent : MarshalIndent AnomalyDetectionTaskStatus)
    (args : GetTaskStatusArgs) : ToolReturn :=
  match client.GetTaskStatus args.TaskID with
  | .error err => .ok (NewToolResultError ("Failed to get task status: " ++ err))
  | .ok status =>
    match marshalIndent status with
    | .error err => .ok (NewToolResultError ("Failed to format response: " ++ err))
    | .ok responseJSON =>
      let statusIcon :=
        if status.Status = "done" then "✓"
        else if status.Status = "error" then "✗"
        else if status.Status = "canceled" then "⊘"
        else "⏳"
      .ok (NewToolResultText
        (statusIcon ++ " Task Status (" ++ status.Status ++ "):\n\n" ++ responseJSON))

/-- The limit that `handleListTasks` passes to the client (lines 210-213). -/
def handleListTasks_limit (args : ListTasksArgs) : Int :=
  let limit := 20
  if args.Limit > 0 then args.Limit else limit

/-- The status filter that `handleListTasks` passes to the client
(lines 215-218). -/
def handleListTasks_statusFilter (args : ListTasksArgs) : Option String :=
  if args.Status ≠ "" then some args.Status else none

/-- The handler `handleListTasks`. -/
def handleListTasks (client : Client)
    (marshalIndent : MarshalIndent AnomalyDetectionTaskListResponse)
    (args : ListTasksArgs) : ToolReturn :=
  match client.ListTasks (handleListTasks_limit args) (handleListTasks_statusFilter args) with
  | .error err => .ok (NewToolResultError ("Failed to list tasks: " ++ err))
  | .ok tasks =>
    match marshalIndent tasks with
    | .error err => .ok (NewToolResultError ("Failed to format response: " ++ err))
    | .ok responseJSON =>
      .ok (NewToolResultText
        ("Anomaly Detection Tasks (found " ++ fmtInt (tasks.Tasks.length : Int) ++ "):\n\n"
          ++ responseJSON))

/-- The handler `handleCancelTask`. -/
def handleCancelTask (client : Client)
    (marshalIndent : MarshalIndent (List (String × Bool)))
    (args : CancelTaskArgs) : ToolReturn :=
  match client.CancelTask args.TaskID with
  | .error err => .ok (NewToolResultError ("Failed to cancel task: " ++ err))
  | .ok result =>
    match marshalIndent result with
    | .error err => .ok (NewToolResultError ("Failed to format response: " ++ err))
    | .ok responseJSON =>
      .ok (NewToolResultText
        ("Task Canceled:\n\n" ++ responseJSON ++ "\n\nTask '" ++ args.TaskID
          ++ "' has been canceled successfully."))

/-- The value of a 64-bit signed `int` computation: the mathematical result
wrapped into the range of the type. -/
def wrapInt64 (x : Int) : Int := (x + 2 ^ 63) % 2 ^ 64 - 2 ^ 63

/-- The capacity percentage of `handleGetDetectionLimits` (lines 273-276); the
division of Go truncates towards zero. -/
def capacityPct (limits : AnomalyDetectionLimitsResponse) : Int :=
  if limits.MaxConcurrent > 0 then
    Int.tdiv (wrapInt64 (limits.Running * 100)) limits.MaxConcurrent
  else 0

/-- The handler `handleGetDetectionLimits`. -/
def handleGetDetectionLimits (client : Client)
    (marshalIndent : MarshalIndent AnomalyDetectionLimitsResponse) : ToolReturn :=
  match client.GetDetectionLimits with
  | .error err => .ok (NewToolResultError ("Failed to get detection limits: " ++ err))
  | .ok limits =>
    match marshalIndent limits with
    | .error err => .ok (NewToolResultError ("Failed to format response: " ++ err))
    | .ok responseJSON =>
      .ok (NewToolResultText
        ("Anomaly Detection System Limits:\n\n" ++ responseJSON
          ++ "\n\nCapacity Usage: " ++ fmtInt (capacityPct limits) ++ "% ("
          ++ fmtInt limits.Running ++ "/" ++ fmtInt limits.MaxConcurrent
          ++ " tasks running)"))

/-! ### query.go -/

/-- The struct `QueryMetricsArgs`. -/
structure QueryMetricsArgs where
  Query : String
  Start : ℚ
  End : ℚ
  Step : String
  DatasourceType : String
  DatasourceURL : String
  TenantID : String
  NoCache : String
  PassAuthHeaders : Bool

/-- The request `queryReq` that `handleQueryMetrics` hands to `client.Query`
(lines 53-89): the literal with the defaults, then the overrides in the order
of the source. -/
def handleQueryMetrics_queryReq (env : Env) (args : QueryMetricsArgs) : QueryRequest :=
  let queryReq : QueryRequest :=
    { Query := args.Query
      Start := none
      End := none
      Step := "1s"
      DatasourceType := "vm"
      DatasourceURL := none
      TenantID := none
      NoCache := none
      PassAuthHeaders := false }
  let queryReq := if args.Step ≠ "" then { queryReq with Step := args.Step } else queryReq
  let queryReq :=
    if args.DatasourceType ≠ "" then
      { queryReq with DatasourceType := args.DatasourceType }
    else queryReq
  let queryReq :=
    if args.Start > 0 then { queryReq with Start := some args.Start } else queryReq
  let queryReq := if args.End > 0 then { queryReq with End := some args.End } else queryReq
  let queryReq :=
    if args.TenantID ≠ "" then { queryReq with TenantID := some args.TenantID }
    else queryReq
  let queryReq :=
    if args.NoCache ≠ "" then { queryReq with NoCache := some args.NoCache } else queryReq
  if args.DatasourceURL ≠ "" then
    { queryReq with DatasourceURL := some args.DatasourceURL }
  else
    let envURL := env "VMANOMALY_ENDPOINT"
    if envURL ≠ "" then { queryReq with DatasourceURL := some envURL } else queryReq

/-- The handler `handleQueryMetrics`. -/
def handleQueryMetrics (client : Client) (marshalIndent : MarshalIndent JSONObject)
    (env : Env) (args : QueryMetricsArgs) : ToolReturn :=
  match client.Query (handleQueryMetrics_queryReq env args) with
  | .error err => .ok (NewToolResultError ("Query failed: " ++ err))
  | .ok result =>
    match marshalIndent result with
    | .error err => .ok (NewToolResultError ("Failed to format response: " ++ err))
    | .ok responseJSON => .ok (NewToolResultText ("Query Result:\n\n" ++ responseJSON))

/-! ### compatibility.go -/

/-- The struct `CheckCompatibilityArgs`. -/
structure CheckCompatibilityArgs where
  VersionTo : String

/-- The struct `CheckCompatibilityResponse`. -/
structure CheckCompatibilityResponse where
  Summary : String
  Status : String
  RuntimeVersion : String
  StoredVersion : Option String
  HasState : Bool
  IsCompatible : Bool
  DropEverything : Bool
  ModelsToPurge : List String
  PurgeReaderData : Bool
  Reason : Option String

/-- The function `buildCompatibilitySummary`: the text written to the string
builder, case by case on the status. -/
def buildCompatibilitySummary (r : CheckCompatibilityResponse) : String :=
  let sb := ""
  if r.Status = "no_state" then
    let sb := sb ++ "No persisted state found (fresh install). "
    sb ++ "System is ready to use with any configuration."
  else if r.Status = "compatible" then
    let sb := sb ++ ("State is COMPATIBLE with runtime " ++ r.RuntimeVersion ++ ". ")
    sb ++ "No migration actions required."
  else if r.Status = "incompatible" then
    let sb := sb ++ ("State is INCOMPATIBLE with runtime " ++ r.RuntimeVersion ++ ". ")
    let sb :=
      if r.DropEverything then
        sb ++ "CRITICAL: All persisted state must be dropped before upgrade. "
      else
        let actions : List String := []
        let actions :=
          if r.ModelsToPurge.length > 0 then
            actions ++ ["purge models: " ++ String.intercalate ", " r.ModelsToPurge]
          else actions
        let actions :=
          if r.PurgeReaderData then actions ++ ["purge reader data"] else actions
        if actions.length > 0 then
          sb ++ ("Required actions: " ++ String.intercalate "; " actions ++ ". ")
        else sb
    match r.Reason with
    | some reason => sb ++ ("Reason: " ++ reason)
    | none => sb
  else sb

/-- The response that `handleCheckCompatibility` builds from a successful
client result (lines 55-81). -/
def handleCheckCompatibility_resp (result : CompatibilityCheckResponse) :
    CheckCompatibilityResponse :=
  let resp : CheckCompatibilityResponse :=
    { Summary := ""
      Status := ""
      RuntimeVersion := result.RuntimeVersion
      StoredVersion := result.StoredVersion
      HasState := result.GlobalCheck.HasState
      IsCompatible := result.GlobalCheck.IsCompatible
      DropEverything := result.GlobalCheck.DropEverything
      ModelsToPurge := []
      PurgeReaderData := false
      Reason := result.GlobalCheck.Reason }
  let resp :=
    match result.ComponentAssessment with
    | some assessment =>
      { resp with
        ModelsToPurge := assessment.ModelsToPurge
        PurgeReaderData := assessment.ShouldPurgeReaderData }
    | none => resp
  let resp :=
    if !resp.HasState then { resp with Status := "no_state" }
    else if resp.IsCompatible then { resp with Status := "compatible" }
    else { resp with Status := "incompatible" }
  { resp with Summary := buildCompatibilitySummary resp }

/-- The handler `handleCheckCompatibility`, a structured handler: its result
pair is `(CheckCompatibilityResponse, error)`. -/
def handleCheckCompatibility (client : Client) (args : CheckCompatibilityArgs) :
    Except String CheckCompatibilityResponse :=
  let versionTo := if args.VersionTo ≠ "" then some args.VersionTo else none
  match client.Compatibility versionTo with
  | .error err => .error ("compatibility check failed: " ++ err)
  | .ok result => .ok (handleCheckCompatibility_resp result)

end tools

/-! ## Registration of the tools on the MCP server

The server type and its methods belong to the MCP server library that the
repository depends on (`github.com/mark3labs/mcp-go/server`). What follows keeps
of it the tool table that `AddTool` fills, the tool filters given at
construction, the listing of the catalog, the lookup of a name in the tool
table and the dispatch of a call by name.
-/

namespace server

open mcp

/-- The handlers that this repository registers on the server; the server keeps
a handler as a function value `server.ToolHandlerFunc`, kept here by the name of
the function of `internal/tools` that made it. -/
inductive ToolHandlerFunc where
  | handleHealthCheck
  | handleListModels
  | handleGetModelSchema
  | handleValidateModelConfig
  | handleValidateConfig
  | handleGetBuildinfo
  | handleGetMetrics
  | handleCheckCompatibility
  | handleGenerateAlertRule
  | handleSearchDocs
  | handleCreateDetectionTask
  | handleGetTaskStatus
  | handleListTasks
  | handleCancelTask
  | handleGetDetectionLimits
  | handleQueryMetrics
  deriving DecidableEq, Repr

/-- The type `server.ServerTool`: a tool with its handler. -/
structure ServerTool where
  Tool : Tool
  Handler : ToolHandlerFunc
  deriving DecidableEq, Repr

/-- The part of `server.MCPServer` that `main.go` and `RegisterTools` set: the
tool table (one entry per tool name) and the tool filters given as options. -/
structure MCPServer where
  tools : List ServerTool
  toolFilters : List (List Tool → List Tool)

/-- The constructor `server.NewMCPServer` with the given `WithToolFilter`
options: no tool is registered yet. -/
def NewMCPServer (toolFilters : List (List Tool → List Tool)) : MCPServer :=
  { tools := [], toolFilters := toolFilters }

/-- The method `(s *MCPServer) AddTool`: the table entry under the name of the
tool becomes the given tool and handler. -/
def MCPServer.AddTool (s : MCPServer) (tool : Tool) (handler : ToolHandlerFunc) :
    MCPServer :=
  { s with
    tools := s.tools.filter (fun t => t.Tool.Name != tool.Name)
      ++ [{ Tool := tool, Handler := handler }] }

/-- The catalog that the server answers to a listing request (the library's
handling of `tools/list`): the tools of the table, ordered by name, passed
through every tool filter in turn. -/
def MCPServer.ListTools (s : MCPServer) : List Tool :=
  s.toolFilters.foldl (fun toolsList filter => filter toolsList)
    ((s.tools.map (fun t => t.Tool)).insertionSort (fun a b => a.Name ≤ b.Name))

/-- The lookup of a name in the tool table that `AddTool` fills, with which
the dispatch of a call starts: the handler of the table entry with that name, or
the report that the table has no such entry. The tool filters take no part in
it; the dispatch of a call, which reads them, is `handleToolCall`. -/
def MCPServer.CallTool (s : MCPServer) (name : String) : Except String ToolHandlerFunc :=
  match s.tools.find? (fun t => t.Tool.Name == name) with
  | some t => .ok t.Handler
  | none => .error ("tool '" ++ name ++ "' not found")

/-- Modelled from the spec: the dispatch of a call by name (`tools/call`, the
function `handleToolCall` of the MCP server library), which is not among the
sources and whose version no file of the sources fixes ("a filtered-out tool is
unreachable even if invoked by name"; "a tool named in D never appears in the
tool catalog and any direct invocation attempt by that name is rejected"). The
name is looked up in the tool table, and the handler of the entry is reached
only when the catalog that the server lists, after the tool filters, has a tool
of that name; a name without an entry, or one that the filters leave out, is
rejected with the error `tool not found` of the library. -/
def MCPServer.handleToolCall (s : MCPServer) (name : String) :
    Except String ToolHandlerFunc :=
  match s.tools.find? (fun t => t.Tool.Name == name) with
  | some t =>
    if s.ListTools.any (fun tool => tool.Name == name) then .ok t.Handler
    else .error ("tool '" ++ name ++ "' not found: tool not found")
  | none => .error ("tool '" ++ name ++ "' not found: tool not found")

end server

namespace tools

open mcp server

/-- The function `RegisterModelTools` of `models.go`. -/
def RegisterModelTools (s : MCPServer) : MCPServer :=
  let s := s.AddTool
    { Name := "vmanomaly_list_models"
      Description := "List all available anomaly detection model types supported by vmanomaly. Returns model names that can be used in model configurations. Use this as the first step when selecting a model, then call vmanomaly_get_model_schema to see parameters for your chosen model." }
    ToolHandlerFunc.handleListModels
  let s := s.AddTool
    { Name := "vmanomaly_get_model_schema"
      Description := "Get the complete JSON schema for a specific anomaly detection model type. Returns all configuration parameters, types, validation rules, default values, and descriptions. Use this after vmanomaly_list_models to understand how to configure a specific model before calling vmanomaly_validate_model_config or vmanomaly_create_detection_task." }
    ToolHandlerFunc.handleGetModelSchema
  s.AddTool
    { Name := "vmanomaly_validate_model_config"
      Description := "Validate an anomaly detection model configuration before using it. Returns validation result with the normalized/validated configuration or detailed error messages if invalid. Use this after building your model config to catch configuration errors before creating a detection task with vmanomaly_create_detection_task." }
    ToolHandlerFunc.handleValidateModelConfig

/-- The function `RegisterConfigTools` of `config.go`. -/
def RegisterConfigTools (s : MCPServer) : MCPServer :=
  s.AddTool
    { Name := "vmanomaly_validate_config"
      Description := "Validate a complete vmanomaly YAML configuration. Takes a full configuration object (with reader, scheduler, model, writer sections) and returns validation result with normalized config or error details. Use this to verify a complete config before deployment." }
    ToolHandlerFunc.handleValidateConfig

/-- The function `RegisterInfoTools` of `info.go`. -/
def RegisterInfoTools (s : MCPServer) : MCPServer :=
  let s := s.AddTool
    { Name := "vmanomaly_get_buildinfo"
      Description := "Get vmanomaly server build information including version number, build timestamp, and Go version. Use this to verify server version, check compatibility, or troubleshoot issues by confirming which version is running." }
    ToolHandlerFunc.handleGetBuildinfo
  s.AddTool
    { Name := "vmanomaly_get_metrics"
      Description := "Get currently instant Prometheus-formatted self-monitoring metrics from vmanomaly server. Returns operational metrics including reader/writer performance, model execution stats, system info, and resource usage. Output is in standard Prometheus text exposition format suitable for scraping or monitoring analysis." }
    ToolHandlerFunc.handleGetMetrics

/-- The function `RegisterCompatibilityTools` of `compatibility.go`. -/
def RegisterCompatibilityTools (s : MCPServer) : MCPServer :=
  s.AddTool
    { Name := "vmanomaly_check_compatibility"
      Description := "Check if persisted vmanomaly state is compatible with the current or target runtime version. Returns compatibility status and required migration actions." }
    ToolHandlerFunc.handleCheckCompatibility

/-- The function `RegisterAlertTools` of `alerts.go`. -/
def RegisterAlertTools (s : MCPServer) : MCPServer :=
  s.AddTool
    { Name := "vmanomaly_generate_alert_rule"
      Description := "Generate a VMAlert rule YAML configuration for anomaly score alerting. Creates a production-ready vmalert rule that triggers when anomaly_score exceeds the threshold. Use this to set up alerting for anomalies detected by vmanomaly." }
    ToolHandlerFunc.handleGenerateAlertRule

/-- The function `RegisterDocsTool` of `docs.go`. -/
def RegisterDocsTool (s : MCPServer) : MCPServer :=
  s.AddTool
    { Name := "vmanomaly_search_docs"
      Description := "Search vmanomaly documentation using full-text search with fuzzy matching. Returns relevant documentation resources that can help answer questions about anomaly detection, models, configuration, and vmanomaly features. Use this when you need information about model parameters, configuration syntax, troubleshooting, or feature explanations." }
    ToolHandlerFunc.handleSearchDocs

/-- The function `RegisterTaskTools` of `tasks.go`. -/
def RegisterTaskTools (s : MCPServer) : MCPServer :=
  let s := s.AddTool
    { Name := "vmanomaly_create_detection_task"
      Description := "Create and start a new anomaly detection task. The task runs asynchronously to detect anomalies in the specified query data. Returns a task_id for monitoring progress with vmanomaly_get_task_status. Before creating validate your model with vmanomaly_validate_model_config and test your query with vmanomaly_query_metrics." }
    ToolHandlerFunc.handleCreateDetectionTask
  let s := s.AddTool
    { Name := "vmanomaly_get_task_status"
      Description := "Get detailed status of a specific anomaly detection task including current state (pending running done error canceled) progress percentage timestamps metrics and results. Poll this periodically to monitor long-running tasks. When status is 'done' the response includes detected anomalies." }
    ToolHandlerFunc.handleGetTaskStatus
  let s := s.AddTool
    { Name := "vmanomaly_list_tasks"
      Description := "List anomaly detection tasks with optional filtering by status. Returns summary information for each task including task_id status progress and timestamps. Use this to see all active tasks find tasks by status or get an overview of system activity. Combine with vmanomaly_get_task_status for detailed task information." }
    ToolHandlerFunc.handleListTasks
  let s := s.AddTool
    { Name := "vmanomaly_cancel_task"
      Description := "Cancel a running or pending anomaly detection task. The task will be stopped gracefully and its status will change to 'canceled'. Use this to stop long-running tasks or tasks started by mistake. Cannot cancel tasks that are already 'done' or 'error' state. Check task status with vmanomaly_get_task_status first." }
    ToolHandlerFunc.handleCancelTask
  s.AddTool
    { Name := "vmanomaly_get_detection_limits"
      Description := "Get current system capacity and resource limits for anomaly detection tasks. Returns maximum concurrent tasks allowed currently running task count and available slots. Use this before creating new tasks to check if system has capacity especially when running many parallel detection jobs." }
    ToolHandlerFunc.handleGetDetectionLimits

/-- The function `RegisterQueryTools` of `query.go`. -/
def RegisterQueryTools (s : MCPServer) : MCPServer :=
  s.AddTool
    { Name := "vmanomaly_query_metrics"
      Description := "Execute a PromQL query against VictoriaMetrics or LogsQL query against VictoriaLogs. Returns time-series data that can be used for analysis, testing queries before creating detection tasks with vmanomaly_create_detection_task, or exploring available metrics. Use this to validate your query syntax and understand the data before setting up anomaly detection." }
    ToolHandlerFunc.handleQueryMetrics

/-- The function `RegisterTools` of `tools.go`: the health tool, then the calls
of the source in their order. -/
def RegisterTools (s : MCPServer) : MCPServer :=
  let s := s.AddTool
    { Name := "vmanomaly_health_check"
      Description := "Check the health status of the vmanomaly server" }
    ToolHandlerFunc.handleHealthCheck
  let s := RegisterModelTools s
  let s := RegisterConfigTools s
  let s := RegisterInfoTools s
  let s := RegisterCompatibilityTools s
  let s := RegisterAlertTools s
  RegisterDocsTool s

/-- A handler outcome that is no Go error but a tool result marked as an error,
with one text item that contains the message. -/
def isErrorResultWith (r : ToolReturn) (msg : String) : Bool :=
  match r with
  | .ok { Content := [Content.TextContent text], IsError := true } =>
    decide (strContains text msg)
  | _ => false

/-- The arguments of a task creation with every optional field omitted. -/
def createArgsOmitted (query : String) (modelSpec : JSONObject) : CreateDetectionTaskArgs :=
  { Query := query
    ModelSpec := modelSpec
    Step := ""
    FitWindow := ""
    FitEvery := ""
    StartInferS := 0
    EndInferS := 0
    InferEvery := ""
    Exact := false
    AnomalyThreshold := 0
    DatasourceURL := ""
    DatasourceType := ""
    TenantID := ""
    PassAuthHeaders := false }

/-- The arguments of a query with every optional field omitted. -/
def queryArgsOmitted (query : String) : QueryMetricsArgs :=
  { Query := query
    Start := 0
    End := 0
    Step := ""
    DatasourceType := ""
    DatasourceURL := ""
    TenantID := ""
    NoCache := ""
    PassAuthHeaders := false }

/-- An environment in which no variable is set. -/
def emptyEnv : Env := fun _ => ""

/-- A client on which every call fails with `not implemented`, as every method
of the zero `MockClient` of `mock_client_test.go` does. -/
def notImplementedClient : vmanomaly.Client :=
  { GetHealth := .error "not implemented"
    GetBuildInfo := .error "not implemented"
    Metrics := .error "not implemented"
    ListModels := .error "not implemented"
    GetModelSchema := fun _ => .error "not implemented"
    ValidateModel := fun _ => .error "not implemented"
    ValidateConfig := fun _ => .error "not implemented"
    GenerateAlertRule := fun _ => .error "not implemented"
    CreateDetectionTask := fun _ => .error "not implemented"
    GetTaskStatus := fun _ => .error "not implemented"
    ListTasks := fun _ _ => .error "not implemented"
    CancelTask := fun _ => .error "not implemented"
    GetDetectionLimits := .error "not implemented"
    Query := fun _ => .error "not implemented"
    Compatibility := fun _ => .error "not implemented" }

end tools

/-! ## main.go: the tool filter -/

namespace main

open config mcp

/-- The closure given to `server.WithToolFilter` in `main` (lines 84-92): the
loop appends to `filtered` every tool that the configuration does not disable. -/
def toolFilter (c : Config) (toolsList : List Tool) : List Tool :=
  toolsList.foldl
    (fun filtered tool =>
      if !c.IsToolDisabled tool.Name then filtered ++ [tool] else filtered)
    []

/-- The server that `main` builds (lines 94-120): the tool filter is its only
filter option, and `tools.RegisterTools` then registers the tools. The client
that the handlers close over plays no part in the table. -/
def mcpServer (c : Config) : server.MCPServer :=
  tools.RegisterTools (server.NewMCPServer [toolFilter c])

/-- A configuration, as `InitConfig` gives it for the endpoint
`http://localhost:8490` and `MCP_DISABLED_TOOLS=vmanomaly_health_check`. -/
def healthCheckDisabled : Config :=
  { vmanomalyEndpoint := "http://localhost:8490"
    serverMode := "stdio"
    listenAddr := "localhost:8080"
    disabledTools := some [("vmanomaly_health_check", true)]
    heartbeatInterval := 30000000000
    disableResources := false
    logLevel := "info"
    logFile := ""
    bearerToken := ""
    customHeaders := [] }

end main

/-! ## main.go: the health endpoints and the lifecycle -/

namespace http

/-- The state of an `http.ResponseWriter`: the status code once written, the
header map and the body written so far. -/
structure ResponseWriter where
  status : Option Nat
  header : List (String × String)
  body : String
  deriving DecidableEq, Repr

/-- The writer that a handler is given. -/
def newResponseWriter : ResponseWriter := { status := none, header := [], body := "" }

/-- The method `WriteHeader`: the first status written stands. -/
def ResponseWriter.WriteHeader (w : ResponseWriter) (code : Nat) : ResponseWriter :=
  match w.status with
  | none => { w with status := some code }
  | some _ => w

/-- The call `w.Header().Set(key, value)`. -/
def ResponseWriter.HeaderSet (w : ResponseWriter) (key value : String) : ResponseWriter :=
  { w with header := mapSet w.header key value }

/-- The method `Write`: the status is 200 when none was written before. -/
def ResponseWriter.Write (w : ResponseWriter) (data : String) : ResponseWriter :=
  let w := w.WriteHeader 200
  { w with body := w.body ++ data }

/-- The function `http.Error`: a plain text reply with the given status whose
body is the message and a line end. -/
def Error (w : ResponseWriter) (error : String) (code : Nat) : ResponseWriter :=
  let w := w.HeaderSet "Content-Type" "text/plain; charset=utf-8"
  let w := w.HeaderSet "X-Content-Type-Options" "nosniff"
  let w := w.WriteHeader code
  w.Write (error ++ "\n")

/-- The value `http.StatusOK`. -/
def StatusOK : Nat := 200

/-- The value `http.StatusServiceUnavailable`. -/
def StatusServiceUnavailable : Nat := 503

end http

namespace main

open config http

/-- The handler of `/health/liveness` (lines 152-157). -/
def livenessHandler (w : ResponseWriter) : ResponseWriter :=
  let w := w.WriteHeader StatusOK
  let w := w.HeaderSet "Content-Type" "text/plain; charset=utf-8"
  let w := w.HeaderSet "X-Content-Type-Options" "nosniff"
  w.Write "OK\n"

/-- The handler of `/health/readiness` (lines 158-167); `isReady` is the value
that `isReady.Load()` gives. -/
def readinessHandler (isReady : Bool) (w : ResponseWriter) : ResponseWriter :=
  if !isReady then Error w "Not ready" StatusServiceUnavailable
  else
    let w := w.WriteHeader StatusOK
    let w := w.HeaderSet "Content-Type" "text/plain; charset=utf-8"
    let w := w.HeaderSet "X-Content-Type-Options" "nosniff"
    w.Write "Ready\n"

/-- The health endpoints of the mux of `main`, for a request to a path while the
readiness flag has the given value; the metrics endpoint and the endpoints of
the server mode are served by other packages. -/
def healthMux (isReady : Bool) (path : String) : Option ResponseWriter :=
  if path = "/health/liveness" then some (livenessHandler newResponseWriter)
  else if path = "/health/readiness" then some (readinessHandler isReady newResponseWriter)
  else none

/-! ### The lifecycle of the process -/

/-- The constant `shutdownPeriod`. -/
def shutdownPeriod : Int := 15 * time.Second

/-- The constant `shutdownHardPeriod`. -/
def shutdownHardPeriod : Int := 3 * time.Second

/-- The constant `readinessDrainDelay`. -/
def readinessDrainDelay : Int := 3 * time.Second

/-- The branch that the mode selection of `main` takes (lines 128-184): the
test of `IsStdio`, then the switch on `ServerMode`. -/
inductive ModeBranch where
  | stdio
  | sse
  | http
  | unknownMode
  deriving DecidableEq, Repr

/-- The mode selection of `main`. -/
def modeBranch (c : Config) : ModeBranch :=
  if c.IsStdio then ModeBranch.stdio
  else if c.ServerMode = "sse" then ModeBranch.sse
  else if c.ServerMode = "http" then ModeBranch.http
  else ModeBranch.unknownMode

/-- The place where `main` is blocked, or has ended with an exit status:
`Listening` is the wait for the termination signal, `Draining` the sleep of
`readinessDrainDelay`, `ShuttingDown` the call of `hs.Shutdown`, `HardCutoff`
the sleep of `shutdownHardPeriod`. A return from `main` is exit status 0 and
`os.Exit(1)` is exit status 1. -/
inductive Pc where
  | Starting
  | ServingStdio
  | Listening
  | Draining
  | ShuttingDown
  | HardCutoff
  | Stopped (exitStatus : Nat)
  deriving DecidableEq, Repr

/-- What `main` does to the outside, in the order of execution. -/
inductive Action where
  | printf (text : String)
  | serveStdio
  | listen (addr : String)
  | serve
  | storeReady (value : Bool)
  | stopSignals
  | sleep (duration : Int)
  | shutdown (timeout : Int)
  | stopOngoingGracefully
  deriving DecidableEq, Repr

/-- The state of the process: where `main` is, the value of the flag `isReady`,
and what `main` has done so far. -/
structure ProcState where
  pc : Pc
  isReady : Bool
  actions : List Action
  deriving DecidableEq, Repr

/-- What lets `main` go on from where it is blocked: the start of the process
(with the error of `net.Listen`, if any, for when it is called), the return of
`server.ServeStdio`, the termination signal, the end of the current sleep, the
return of `hs.Shutdown`, and a failure of `hs.Serve` in its goroutine with an
error other than `http.ErrServerClosed`. -/
inductive Event where
  | start (listenErr : Option String)
  | stdioReturned (err : Option String)
  | signal
  | elapsed
  | shutdownReturned (err : Option String)
  | serveFailed

/-- The process before `main` runs; the zero value of `isReady` is false. -/
def initialState : ProcState := { pc := Pc.Starting, isReady := false, actions := [] }

/-- The run of `main` from its entry to the first place where it blocks or
ends (lines 41-210). The opening of the log file and the logging are left
out. -/
def startup (lib : GoLib) (env : Env) (listenErr : Option String) (st : ProcState) :
    ProcState :=
  match InitConfig lib env with
  | .error err =>
    { st with
      pc := Pc.Stopped 0
      actions := st.actions ++ [Action.printf ("Error initializing config: " ++ err ++ "\n")] }
  | .ok c =>
    match modeBranch c with
    | ModeBranch.stdio =>
      { st with pc := Pc.ServingStdio, actions := st.actions ++ [Action.serveStdio] }
    | ModeBranch.unknownMode => { st with pc := Pc.Stopped 1 }
    | _ =>
      match listenErr with
      | some _ =>
        { st with pc := Pc.Stopped 1, actions := st.actions ++ [Action.listen c.ListenAddr] }
      | none =>
        { pc := Pc.Listening
          isReady := true
          actions := st.actions
            ++ [Action.listen c.ListenAddr, Action.serve, Action.storeReady true] }

/-- One step of the process: `main` runs from the place where it is blocked to
the next one (lines 128-135 and 209-228), or the process ends. An event that
the place does not wait for changes nothing. -/
def step (lib : GoLib) (env : Env) (st : ProcState) (ev : Event) : ProcState :=
  match st.pc, ev with
  | Pc.Starting, Event.start listenErr => startup lib env listenErr st
  | Pc.ServingStdio, Event.stdioReturned (some _) => { st with pc := Pc.Stopped 1 }
  | Pc.ServingStdio, Event.stdioReturned none => { st with pc := Pc.Stopped 0 }
  | Pc.Listening, Event.signal =>
    { pc := Pc.Draining
      isReady := false
      actions := st.actions
        ++ [Action.stopSignals, Action.storeReady false, Action.sleep readinessDrainDelay] }
  | Pc.Draining, Event.elapsed =>
    { st with
      pc := Pc.ShuttingDown
      actions := st.actions ++ [Action.shutdown shutdownPeriod] }
  | Pc.ShuttingDown, Event.shutdownReturned (some _) =>
    { st with
      pc := Pc.HardCutoff
      actions := st.actions
        ++ [Action.stopOngoingGracefully, Action.sleep shutdownHardPeriod] }
  | Pc.ShuttingDown, Event.shutdownReturned none =>
    { st with
      pc := Pc.Stopped 0
      actions := st.actions ++ [Action.stopOngoingGracefully] }
  | Pc.HardCutoff, Event.elapsed => { st with pc := Pc.Stopped 0 }
  | Pc.Listening, Event.serveFailed => { st with pc := Pc.Stopped 1 }
  | Pc.Draining, Event.serveFailed => { st with pc := Pc.Stopped 1 }
  | _, _ => st

/-- The states that the process goes through on a sequence of events, the
first one included. -/
def trace (lib : GoLib) (env : Env) : ProcState → List Event → List ProcState
  | st, [] => [st]
  | st, ev :: evs => st :: trace lib env (step lib env st ev) evs

/-- The position of a place in the order Starting, Listening, Draining,
ShuttingDown, Stopped of the server states; the stdio session comes between
Starting and Listening, the hard cutoff between ShuttingDown and Stopped. -/
def Pc.rank : Pc → Nat
  | Pc.Starting => 0
  | Pc.ServingStdio => 1
  | Pc.Listening => 2
  | Pc.Draining => 3
  | Pc.ShuttingDown => 4
  | Pc.HardCutoff => 5
  | Pc.Stopped _ => 6

/-- The class of a state by its readiness flag: not yet ready (0), ready (1),
no longer ready (2). -/
def ProcState.readinessClass (st : ProcState) : Nat :=
  if st.isReady then 1 else if st.pc.rank ≤ 1 then 0 else 2

/-! ### Inputs of the examples -/

/-- A stand-in for the standard library on the inputs of the examples:
lower-casing of the ASCII letters, durations written as digits followed by `s`
(whole seconds), and the words that `strconv.ParseBool` accepts. -/
def exampleLib : GoLib :=
  { ToLower := fun s => String.mk (s.data.map Char.toLower)
    ParseDuration := fun s =>
      match s.data.reverse with
      | 's' :: digits =>
        if digits ≠ [] ∧ digits.all Char.isDigit then
          .ok ((digits.reverse.foldl (fun n c => 10 * n + (c.toNat - 48)) 0 : Nat) * time.Second)
        else .error ("time: invalid duration " ++ s)
      | _ => .error ("time: invalid duration " ++ s)
    ParseBool := fun s =>
      if s ∈ ["1", "t", "T", "true", "TRUE", "True"] then .ok true
      else if s ∈ ["0", "f", "F", "false", "FALSE", "False"] then .ok false
      else .error ("strconv.ParseBool: parsing " ++ s ++ ": invalid syntax") }

/-- An environment given by the list of its variables that are set. -/
def envOf (vars : List (String × String)) : Env :=
  fun name => (vars.lookup name).getD ""

/-- The environment of the test `Default values`: the endpoint and nothing
else. -/
def defaultsEnv : Env := envOf [("VMANOMALY_ENDPOINT", "http://localhost:8490")]

/-- The environment of the test `Valid configuration`. -/
def validEnv : Env :=
  envOf
    [("VMANOMALY_ENDPOINT", "http://localhost:8490"),
     ("MCP_SERVER_MODE", "http"),
     ("MCP_LISTEN_ADDR", "localhost:9090"),
     ("MCP_LOG_LEVEL", "debug"),
     ("MCP_LOG_FILE", "/tmp/test.log"),
     ("VMANOMALY_BEARER_TOKEN", "test-token"),
     ("VMANOMALY_HEADERS", "X-Custom=value"),
     ("MCP_DISABLED_TOOLS", "tool1,tool2"),
     ("MCP_HEARTBEAT_INTERVAL", "60s"),
     ("MCP_DISABLE_RESOURCES", "true")]

/-- The configuration that `InitConfig` returns on `validEnv`. -/
def validConfig : Config :=
  { vmanomalyEndpoint := "http://localhost:8490"
    serverMode := "http"
    listenAddr := "localhost:9090"
    disabledTools := some [("tool2", true), ("tool1", true)]
    heartbeatInterval := 60000000000
    disableResources := true
    logLevel := "debug"
    logFile := "/tmp/test.log"
    bearerToken := "test-token"
    customHeaders := [("X-Custom", "value")] }

/-- The environment that asks for the SSE mode. -/
def sseEnv : Env :=
  envOf [("VMANOMALY_ENDPOINT", "http://localhost:8490"), ("MCP_SERVER_MODE", "sse")]

end main

/-! ## internal/vmanomaly: the outcome of a call to the backend -/

namespace vmanomaly

/-- Modelled from the spec: the type of the failures of a call, declared in
`internal/vmanomaly/client.go`, which is not among the sources ("UpstreamError:
tagged result representing any failure of a call — variants: NetworkFailure,
CancelledOrDeadlineExceeded, HTTPStatusFailure(status code, raw body),
DecodeFailure(raw body, decode error)"). -/
inductive UpstreamError where
  | NetworkFailure (message : String)
  | CancelledOrDeadlineExceeded
  | HTTPStatusFailure (statusCode : Int) (body : String)
  | DecodeFailure (body : String) (decodeError : String)
  deriving DecidableEq, Repr

/-- The response of the backend as a client method reads it: the status code
and the raw body. -/
structure BackendResponse where
  StatusCode : Int
  Body : String
  deriving DecidableEq, Repr

/-- What sending a request gives: a failure of the transport before any
response is read, the end of the caller's context, or a response. -/
inductive SendOutcome where
  | networkFailure (message : String)
  | contextEnded
  | response (resp : BackendResponse)
  deriving DecidableEq, Repr

/-- Modelled from the spec: the classification of the outcome of a call, which
every method of the client of the missing `client.go` applies with the decoding
of the shape that it expects ("a transport-level failure (including caller
cancellation or deadline expiry) becomes NetworkFailure /
CancelledOrDeadlineExceeded before any response is read; a non-2xx status
becomes HTTPStatusFailure carrying the raw response body; a 2xx response that
fails structural decoding into the expected shape becomes DecodeFailure; only a
2xx response that decodes cleanly is returned as success"). -/
def classifyOutcome {α : Type} (decode : String → Except String α)
    (outcome : SendOutcome) : Except UpstreamError α :=
  match outcome with
  | SendOutcome.networkFailure message => .error (UpstreamError.NetworkFailure message)
  | SendOutcome.contextEnded => .error UpstreamError.CancelledOrDeadlineExceeded
  | SendOutcome.response resp =>
    if 200 ≤ resp.StatusCode ∧ resp.StatusCode ≤ 299 then
      match decode resp.Body with
      | .ok value => .ok value
      | .error decodeError => .error (UpstreamError.DecodeFailure resp.Body decodeError)
    else .error (UpstreamError.HTTPStatusFailure resp.StatusCode resp.Body)

end vmanomaly

/-! ## internal/tools/utils.go -/

namespace tools

/-- The constant `CHARACTER_LIMIT`. -/
def CHARACTER_LIMIT : Int := 25000

/-- The bytes of a text of ASCII characters, one byte for each character. -/
def asciiBytes (s : String) : List UInt8 := s.data.map (fun c => c.toNat.toUInt8)

/-- The slice expression `s[:high]` on the bytes of a string: it fails at run
time unless `high` lies between 0 and the length. -/
def sliceTo (s : List UInt8) (high : Int) : Except String (List UInt8) :=
  if 0 ≤ high ∧ high ≤ s.length then .ok (s.take high.toNat)
  else
    .error ("runtime error: slice bounds out of range [:" ++ fmtInt high ++ "] with length "
      ++ fmtInt s.length)

/-- The message `truncationMsg` of `truncateResponse` (lines 27-34) for a limit
and a content length; the format and the decimal numbers are ASCII. -/
def truncateResponse_truncationMsg (limit : Int) (contentLen : Int) : List UInt8 :=
  asciiBytes
    ("\n\n...[Response truncated]\n\n"
      ++ "Response exceeded " ++ fmtInt limit ++ " character limit (was " ++ fmtInt contentLen
      ++ " characters). "
      ++ "To see more results:\n"
      ++ "- Use filters to narrow results\n"
      ++ "- Increase character_limit parameter\n"
      ++ "- Request specific items by ID\n")

/-- The function `truncateResponse`. The content is kept as the bytes of the
string, which are what `len` counts and what the slice cuts. -/
def truncateResponse (content : List UInt8) (limit : Int) : Except String (List UInt8) :=
  if limit ≤ 0 then .ok content
  else if (content.length : Int) ≤ limit then .ok content
  else
    let truncationMsg := truncateResponse_truncationMsg limit content.length
    let truncateAt : Int := limit - truncationMsg.length
    let truncateAt := if truncateAt < 100 then 100 else truncateAt
    match sliceTo content truncateAt with
    | .error err => .error err
    | .ok head => .ok (head ++ truncationMsg)

end tools

/-! ## Header maps written as header strings -/

namespace config

/-- The text `key=value` of one header. -/
def headerEntry (kv : String × String) : String := kv.1 ++ "=" ++ kv.2

/-- The header string of a list of headers: the texts `key=value` joined with
commas. -/
def joinHeaders (headers : List (String × String)) : String :=
  String.intercalate "," (headers.map headerEntry)

/-- A header name or value that is not empty, has no white space at its start
or at its end, and contains no comma. -/
def plainText (s : String) : Prop :=
  s ≠ "" ∧ (∀ c ∈ s.data.head?, unicode.IsSpace c = false)
    ∧ (∀ c ∈ s.data.getLast?, unicode.IsSpace c = false)
    ∧ ',' ∉ s.data

instance (s : String) : Decidable (plainText s) := by
  unfold plainText; infer_instance

end config

/-! ## Theorems -/

open config mcp vmanomaly server tools

theorem toolFilter_loop (c : Config) (toolsList acc : List Tool) :
    toolsList.foldl
        (fun filtered tool =>
          if !c.IsToolDisabled tool.Name then filtered ++ [tool] else filtered)
        acc
      = acc ++ toolsList.filter (fun tool => !c.IsToolDisabled tool.Name) := by
  induction toolsList generalizing acc with
  | nil => simp
  | cons t ts ih =>
    simp only [List.foldl_cons, ih, List.filter_cons]
    by_cases h : c.IsToolDisabled t.Name = true
    · simp [h]
    · simp [h]

theorem toolFilter_eq_filter (c : Config) (toolsList : List Tool) :
    main.toolFilter c toolsList
      = toolsList.filter (fun tool => !c.IsToolDisabled tool.Name) := by
  unfold main.toolFilter
  rw [toolFilter_loop]
  simp

/-- C1: for every configuration and every list of registered tools, the tool
filter installed in `main` returns exactly the tools whose name is not disabled
(`IsToolDisabled` false), in their original order, so a tool is in the catalog
exactly when it was registered and is not disabled, and no disabled tool is in
the catalog. -/
theorem toolFilter_spec (c : Config) (toolsList : List Tool) :
    main.toolFilter c toolsList
        = toolsList.filter (fun tool => !c.IsToolDisabled tool.Name)
      ∧ List.Sublist (main.toolFilter c toolsList) toolsList
      ∧ (∀ tool, tool ∈ main.toolFilter c toolsList ↔
          tool ∈ toolsList ∧ c.IsToolDisabled tool.Name = false)
      ∧ (∀ tool ∈ main.toolFilter c toolsList, c.IsToolDisabled tool.Name = false) := by
  have h := toolFilter_eq_filter c toolsList
  refine ⟨h, ?_, ?_, ?_⟩
  · rw [h]; exact List.filter_sublist _
  · intro tool; rw [h]; simp [List.mem_filter]
  · intro tool ht; rw [h] at ht; simpa using (List.mem_filter.mp ht).2

/-- Witness of C1: with the health check tool disabled, the filter keeps the
two other tools of a list of three, in their order. -/
theorem toolFilter_spec_witness :
    main.toolFilter main.healthCheckDisabled
        [{ Name := "vmanomaly_list_models", Description := "" },
         { Name := "vmanomaly_health_check", Description := "" },
         { Name := "vmanomaly_get_metrics", Description := "" }]
      = [{ Name := "vmanomaly_list_models", Description := "" },
         { Name := "vmanomaly_get_metrics", Description := "" }] :=
  (toolFilter_spec main.healthCheckDisabled _).1.trans (by decide)

/-! ### Requests built by the task and query handlers -/

theorem taskReq_Step (env : Env) (args : CreateDetectionTaskArgs) :
    (handleCreateDetectionTask_taskReq env args).Step
      = if args.Step ≠ "" then args.Step else "1s" := by
  simp only [handleCreateDetectionTask_taskReq,
    apply_ite AnomalyDetectionTaskRequest.Step, ite_self]

theorem taskReq_FitWindow (env : Env) (args : CreateDetectionTaskArgs) :
    (handleCreateDetectionTask_taskReq env args).FitWindow
      = if args.FitWindow ≠ "" then args.FitWindow else "1d" := by
  simp only [handleCreateDetectionTask_taskReq,
    apply_ite AnomalyDetectionTaskRequest.FitWindow, ite_self]

theorem taskReq_FitEvery (env : Env) (args : CreateDetectionTaskArgs) :
    (handleCreateDetectionTask_taskReq env args).FitEvery
      = if args.FitEvery ≠ "" then args.FitEvery else "1d" := by
  simp only [handleCreateDetectionTask_taskReq,
    apply_ite AnomalyDetectionTaskRequest.FitEvery, ite_self]

theorem taskReq_DatasourceType (env : Env) (args : CreateDetectionTaskArgs) :
    (handleCreateDetectionTask_taskReq env args).DatasourceType
      = if args.DatasourceType ≠ "" then args.DatasourceType else "vm" := by
  simp only [handleCreateDetectionTask_taskReq,
    apply_ite AnomalyDetectionTaskRequest.DatasourceType, ite_self]

theorem taskReq_AnomalyThreshold (env : Env) (args : CreateDetectionTaskArgs) :
    (handleCreateDetectionTask_taskReq env args).AnomalyThreshold
      = if args.AnomalyThreshold > 0 then args.AnomalyThreshold else 1 := by
  simp only [handleCreateDetectionTask_taskReq,
    apply_ite AnomalyDetectionTaskRequest.AnomalyThreshold, ite_self]

theorem taskReq_Query (env : Env) (args : CreateDetectionTaskArgs) :
    (handleCreateDetectionTask_taskReq env args).Query = args.Query := by
  simp only [handleCreateDetectionTask_taskReq,
    apply_ite AnomalyDetectionTaskRequest.Query, ite_self]

theorem taskReq_ModelSpec (env : Env) (args : CreateDetectionTaskArgs) :
    (handleCreateDetectionTask_taskReq env args).ModelSpec = args.ModelSpec := by
  simp only [handleCreateDetectionTask_taskReq,
    apply_ite AnomalyDetectionTaskRequest.ModelSpec, ite_self]

theorem taskReq_PassAuthHeaders (env : Env) (args : CreateDetectionTaskArgs) :
    (handleCreateDetectionTask_taskReq env args).PassAuthHeaders = false := by
  simp only [handleCreateDetectionTask_taskReq,
    apply_ite AnomalyDetectionTaskRequest.PassAuthHeaders, ite_self]

theorem taskReq_DatasourceURL (env : Env) (args : CreateDetectionTaskArgs) :
    (handleCreateDetectionTask_taskReq env args).DatasourceURL
      = if args.DatasourceURL ≠ "" then some args.DatasourceURL
        else if env "VMANOMALY_ENDPOINT" ≠ "" then some (env "VMANOMALY_ENDPOINT")
        else none := by
  simp only [handleCreateDetectionTask_taskReq,
    apply_ite AnomalyDetectionTaskRequest.DatasourceURL, ite_self]

theorem queryReq_Query (env : Env) (args : QueryMetricsArgs) :
    (handleQueryMetrics_queryReq env args).Query = args.Query := by
  simp only [handleQueryMetrics_queryReq, apply_ite QueryRequest.Query, ite_self]

theorem queryReq_Step (env : Env) (args : QueryMetricsArgs) :
    (handleQueryMetrics_queryReq env args).Step
      = if args.Step ≠ "" then args.Step else "1s" := by
  simp only [handleQueryMetrics_queryReq, apply_ite QueryRequest.Step, ite_self]

theorem queryReq_DatasourceType (env : Env) (args : QueryMetricsArgs) :
    (handleQueryMetrics_queryReq env args).DatasourceType
      = if args.DatasourceType ≠ "" then args.DatasourceType else "vm" := by
  simp only [handleQueryMetrics_queryReq, apply_ite QueryRequest.DatasourceType, ite_self]

theorem queryReq_Start (env : Env) (args : QueryMetricsArgs) :
    (handleQueryMetrics_queryReq env args).Start
      = if args.Start > 0 then some args.Start else none := by
  simp only [handleQueryMetrics_queryReq, apply_ite QueryRequest.Start, ite_self]

theorem queryReq_End (env : Env) (args : QueryMetricsArgs) :
    (handleQueryMetrics_queryReq env args).End
      = if args.End > 0 then some args.End else none := by
  simp only [handleQueryMetrics_queryReq, apply_ite QueryRequest.End, ite_self]

theorem queryReq_TenantID (env : Env) (args : QueryMetricsArgs) :
    (handleQueryMetrics_queryReq env args).TenantID
      = if args.TenantID ≠ "" then some args.TenantID else none := by
  simp only [handleQueryMetrics_queryReq, apply_ite QueryRequest.TenantID, ite_self]

theorem queryReq_NoCache (env : Env) (args : QueryMetricsArgs) :
    (handleQueryMetrics_queryReq env args).NoCache
      = if args.NoCache ≠ "" then some args.NoCache else none := by
  simp only [handleQueryMetrics_queryReq, apply_ite QueryRequest.NoCache, ite_self]

theorem queryReq_PassAuthHeaders (env : Env) (args : QueryMetricsArgs) :
    (handleQueryMetrics_queryReq env args).PassAuthHeaders = false := by
  simp only [handleQueryMetrics_queryReq, apply_ite QueryRequest.PassAuthHeaders, ite_self]

theorem queryReq_DatasourceURL (env : Env) (args : QueryMetricsArgs) :
    (handleQueryMetrics_queryReq env args).DatasourceURL
      = if args.DatasourceURL ≠ "" then some args.DatasourceURL
        else if env "VMANOMALY_ENDPOINT" ≠ "" then some (env "VMANOMALY_ENDPOINT")
        else none := by
  simp only [handleQueryMetrics_queryReq, apply_ite QueryRequest.DatasourceURL, ite_self]

/-- The outcome of `handleCreateDetectionTask` depends on the client only
through its answer to the request `taskReq`. -/
theorem handleCreateDetectionTask_congr (client₁ client₂ : Client)
    (marshalIndent : MarshalIndent AnomalyDetectionTaskResponse)
    (env : Env) (args : CreateDetectionTaskArgs)
    (h : client₁.CreateDetectionTask (handleCreateDetectionTask_taskReq env args)
      = client₂.CreateDetectionTask (handleCreateDetectionTask_taskReq env args)) :
    handleCreateDetectionTask client₁ marshalIndent env args
      = handleCreateDetectionTask client₂ marshalIndent env args := by
  simp only [handleCreateDetectionTask, h]

/-- The outcome of `handleQueryMetrics` depends on the client only through its
answer to the request `queryReq`. -/
theorem handleQueryMetrics_congr (client₁ client₂ : Client)
    (marshalIndent : MarshalIndent JSONObject) (env : Env) (args : QueryMetricsArgs)
    (h : client₁.Query (handleQueryMetrics_queryReq env args)
      = client₂.Query (handleQueryMetrics_queryReq env args)) :
    handleQueryMetrics client₁ marshalIndent env args
      = handleQueryMetrics client₂ marshalIndent env args := by
  simp only [handleQueryMetrics, h]

/-- C3: for every argument set given to `handleCreateDetectionTask`, the handler
passes to the client a request that has step, fit_window, fit_every and
datasource_type equal to the argument when it is non-empty and to "1s", "1d",
"1d" and "vm" otherwise, anomaly_threshold equal to the argument when it is
positive and 1.0 otherwise (so also when omitted), and query and model_spec
unchanged: for every client, what the handler returns is made from the answer
of the client to that very request, the error result with the message of the
client when the client fails on it, and the text with the formatted response
and its task id when the client answers it. With all optional fields omitted
the request has step "1s", fit_window "1d", fit_every "1d", anomaly_threshold
1.0 and datasource_type "vm". -/
theorem createDetectionTask_request_defaults (env : Env) (args : CreateDetectionTaskArgs) :
    (handleCreateDetectionTask_taskReq env args).Step
        = (if args.Step ≠ "" then args.Step else "1s")
      ∧ (handleCreateDetectionTask_taskReq env args).FitWindow
        = (if args.FitWindow ≠ "" then args.FitWindow else "1d")
      ∧ (handleCreateDetectionTask_taskReq env args).FitEvery
        = (if args.FitEvery ≠ "" then args.FitEvery else "1d")
      ∧ (handleCreateDetectionTask_taskReq env args).DatasourceType
        = (if args.DatasourceType ≠ "" then args.DatasourceType else "vm")
      ∧ (handleCreateDetectionTask_taskReq env args).AnomalyThreshold
        = (if args.AnomalyThreshold > 0 then args.AnomalyThreshold else 1)
      ∧ (handleCreateDetectionTask_taskReq env args).Query = args.Query
      ∧ (handleCreateDetectionTask_taskReq env args).ModelSpec = args.ModelSpec
      ∧ (∀ (client : Client) (marshalIndent : MarshalIndent AnomalyDetectionTaskResponse)
          (err : String),
          client.CreateDetectionTask (handleCreateDetectionTask_taskReq env args)
            = .error err →
          handleCreateDetectionTask client marshalIndent env args
            = .ok (NewToolResultError ("Failed to create detection task: " ++ err)))
      ∧ (∀ (client : Client) (marshalIndent : MarshalIndent AnomalyDetectionTaskResponse)
          (response : AnomalyDetectionTaskResponse) (responseJSON : String),
          client.CreateDetectionTask (handleCreateDetectionTask_taskReq env args)
            = .ok response →
          marshalIndent response = .ok responseJSON →
          handleCreateDetectionTask client marshalIndent env args
            = .ok (NewToolResultText
                ("Anomaly Detection Task Created:\n\n" ++ responseJSON
                  ++ "\n\nUse get_task_status with task_id '" ++ response.TaskID
                  ++ "' to monitor progress.")))
      ∧ (∀ (client₁ client₂ : Client)
          (marshalIndent : MarshalIndent AnomalyDetectionTaskResponse),
          client₁.CreateDetectionTask (handleCreateDetectionTask_taskReq env args)
            = client₂.CreateDetectionTask (handleCreateDetectionTask_taskReq env args) →
          handleCreateDetectionTask client₁ marshalIndent env args
            = handleCreateDetectionTask client₂ marshalIndent env args)
      ∧ (∀ (query : String) (modelSpec : JSONObject),
          (handleCreateDetectionTask_taskReq env (createArgsOmitted query modelSpec)).Step
              = "1s"
            ∧ (handleCreateDetectionTask_taskReq env
                (createArgsOmitted query modelSpec)).FitWindow = "1d"
            ∧ (handleCreateDetectionTask_taskReq env
                (createArgsOmitted query modelSpec)).FitEvery = "1d"
            ∧ (handleCreateDetectionTask_taskReq env
                (createArgsOmitted query modelSpec)).AnomalyThreshold = 1
            ∧ (handleCreateDetectionTask_taskReq env
                (createArgsOmitted query modelSpec)).DatasourceType = "vm") := by
  refine ⟨taskReq_Step env args, taskReq_FitWindow env args, taskReq_FitEvery env args,
    taskReq_DatasourceType env args, taskReq_AnomalyThreshold env args,
    taskReq_Query env args, taskReq_ModelSpec env args, ?_, ?_, ?_, ?_⟩
  · intro client marshalIndent err h
    simp only [handleCreateDetectionTask, h]
  · intro client marshalIndent response responseJSON h hjson
    simp only [handleCreateDetectionTask, h, hjson]
  · intro client₁ client₂ marshalIndent h
    exact handleCreateDetectionTask_congr client₁ client₂ marshalIndent env args h
  · intro query modelSpec
    rw [taskReq_Step, taskReq_FitWindow, taskReq_FitEvery, taskReq_AnomalyThreshold,
      taskReq_DatasourceType]
    simp [createArgsOmitted]

/-- Witness of C3: the scenario of the spec, query "up" with model class zscore
and nothing else, on a client that creates the task only for a request with the
defaults and fails on any other request: the task is created. -/
theorem createDetectionTask_request_defaults_witness :
    handleCreateDetectionTask
        { notImplementedClient with
          CreateDetectionTask := fun req =>
            if req.Query = "up" ∧ req.Step = "1s" ∧ req.FitWindow = "1d" ∧ req.FitEvery = "1d"
                ∧ req.AnomalyThreshold = 1 ∧ req.DatasourceType = "vm" then
              .ok { TaskID := "task-123", Status := "pending" }
            else .error "unexpected request" }
        (fun _ => .ok "\x7b\"task_id\":\"task-123\",\"status\":\"pending\"\x7d")
        emptyEnv (createArgsOmitted "up" [("class", JSONValue.string "zscore")])
      = .ok (NewToolResultText
          ("Anomaly Detection Task Created:\n\n"
            ++ "\x7b\"task_id\":\"task-123\",\"status\":\"pending\"\x7d"
            ++ "\n\nUse get_task_status with task_id '" ++ "task-123"
            ++ "' to monitor progress.")) :=
  (createDetectionTask_request_defaults emptyEnv
    (createArgsOmitted "up" [("class", JSONValue.string "zscore")])).2.2.2.2.2.2.2.2.1
      _ _ { TaskID := "task-123", Status := "pending" } _
      (by
        simp [taskReq_Step, taskReq_FitWindow, taskReq_FitEvery, taskReq_AnomalyThreshold,
          taskReq_DatasourceType, taskReq_Query, taskReq_ModelSpec, createArgsOmitted,
          notImplementedClient])
      rfl

/-- C4: the code at the failing input. With `pass_auth_headers` true and every
other optional field omitted, the requests that `handleCreateDetectionTask` and
`handleQueryMetrics` hand to the client have `PassAuthHeaders` false: the flag
of the request is the constant false of the literal and the argument is never
read. -/
theorem passAuthHeaders_not_forwarded :
    (handleCreateDetectionTask_taskReq emptyEnv
        { createArgsOmitted "up" [("class", JSONValue.string "zscore")] with
          PassAuthHeaders := true }).PassAuthHeaders = false
      ∧ (handleQueryMetrics_queryReq emptyEnv
        { queryArgsOmitted "up" with PassAuthHeaders := true }).PassAuthHeaders = false
      ∧ (∀ (env : Env) (args : CreateDetectionTaskArgs),
          (handleCreateDetectionTask_taskReq env args).PassAuthHeaders = false)
      ∧ (∀ (env : Env) (args : QueryMetricsArgs),
          (handleQueryMetrics_queryReq env args).PassAuthHeaders = false) :=
  ⟨taskReq_PassAuthHeaders _ _, queryReq_PassAuthHeaders _ _,
    taskReq_PassAuthHeaders, queryReq_PassAuthHeaders⟩

/-- C5: the request that `handleCreateDetectionTask` and `handleQueryMetrics`
pass to the client has as its datasource URL the `datasource_url` argument when
it is non-empty, whatever the environment holds; otherwise the value of
`VMANOMALY_ENDPOINT` when that is non-empty; otherwise none. For every client,
what each handler returns is made from the answer of the client to that very
request: the error result with the message of the client when the client fails
on it, and the text with the formatted response when the client answers it. -/
theorem request_datasourceURL (env : Env) (taskArgs : CreateDetectionTaskArgs)
    (queryArgs : QueryMetricsArgs) :
    (handleCreateDetectionTask_taskReq env taskArgs).DatasourceURL
        = (if taskArgs.DatasourceURL ≠ "" then some taskArgs.DatasourceURL
          else if env "VMANOMALY_ENDPOINT" ≠ "" then some (env "VMANOMALY_ENDPOINT")
          else none)
      ∧ (handleQueryMetrics_queryReq env queryArgs).DatasourceURL
        = (if queryArgs.DatasourceURL ≠ "" then some queryArgs.DatasourceURL
          else if env "VMANOMALY_ENDPOINT" ≠ "" then some (env "VMANOMALY_ENDPOINT")
          else none)
      ∧ (∀ (client : Client) (marshalIndent : MarshalIndent AnomalyDetectionTaskResponse)
          (err : String),
          client.CreateDetectionTask (handleCreateDetectionTask_taskReq env taskArgs)
            = .error err →
          handleCreateDetectionTask client marshalIndent env taskArgs
            = .ok (NewToolResultError ("Failed to create detection task: " ++ err)))
      ∧ (∀ (client : Client) (marshalIndent : MarshalIndent AnomalyDetectionTaskResponse)
          (response : AnomalyDetectionTaskResponse) (responseJSON : String),
          client.CreateDetectionTask (handleCreateDetectionTask_taskReq env taskArgs)
            = .ok response →
          marshalIndent response = .ok responseJSON →
          handleCreateDetectionTask client marshalIndent env taskArgs
            = .ok (NewToolResultText
                ("Anomaly Detection Task Created:\n\n" ++ responseJSON
                  ++ "\n\nUse get_task_status with task_id '" ++ response.TaskID
                  ++ "' to monitor progress.")))
      ∧ (∀ (client : Client) (marshalIndent : MarshalIndent JSONObject) (err : String),
          client.Query (handleQueryMetrics_queryReq env queryArgs) = .error err →
          handleQueryMetrics client marshalIndent env queryArgs
            = .ok (NewToolResultError ("Query failed: " ++ err)))
      ∧ (∀ (client : Client) (marshalIndent : MarshalIndent JSONObject)
          (result : JSONObject) (responseJSON : String),
          client.Query (handleQueryMetrics_queryReq env queryArgs) = .ok result →
          marshalIndent result = .ok responseJSON →
          handleQueryMetrics client marshalIndent env queryArgs
            = .ok (NewToolResultText ("Query Result:\n\n" ++ responseJSON))) :=
  ⟨taskReq_DatasourceURL env taskArgs, queryReq_DatasourceURL env queryArgs,
    fun client marshalIndent err h => by simp only [handleCreateDetectionTask, h],
    fun client marshalIndent response responseJSON h hjson => by
      simp only [handleCreateDetectionTask, h, hjson],
    fun client marshalIndent err h => by simp only [handleQueryMetrics, h],
    fun client marshalIndent result responseJSON h hjson => by
      simp only [handleQueryMetrics, h, hjson]⟩

/-- Witness of C5: with `VMANOMALY_ENDPOINT` set, a client that fails exactly on
a request with the datasource URL of the argument receives that request from
`handleCreateDetectionTask`, and with the argument omitted a client that fails
exactly on a request with the endpoint of the environment receives that request
from `handleQueryMetrics`. -/
theorem request_datasourceURL_witness :
    handleCreateDetectionTask
        { notImplementedClient with
          CreateDetectionTask := fun req =>
            if req.DatasourceURL = some "http://custom:8428" then
              .error "custom datasource received"
            else .ok { TaskID := "", Status := "" } }
        (fun _ => .ok "")
        (main.envOf [("VMANOMALY_ENDPOINT", "http://localhost:8490")])
        { createArgsOmitted "up" [("class", JSONValue.string "zscore")] with
          DatasourceURL := "http://custom:8428" }
        = .ok (NewToolResultError
            ("Failed to create detection task: " ++ "custom datasource received"))
      ∧ handleQueryMetrics
          { notImplementedClient with
            Query := fun req =>
              if req.DatasourceURL = some "http://localhost:8490" then
                .error "endpoint of the environment received"
              else .ok [] }
          (fun _ => .ok "")
          (main.envOf [("VMANOMALY_ENDPOINT", "http://localhost:8490")])
          (queryArgsOmitted "up")
        = .ok (NewToolResultError
            ("Query failed: " ++ "endpoint of the environment received")) :=
  ⟨(request_datasourceURL (main.envOf [("VMANOMALY_ENDPOINT", "http://localhost:8490")])
      { createArgsOmitted "up" [("class", JSONValue.string "zscore")] with
        DatasourceURL := "http://custom:8428" } (queryArgsOmitted "up")).2.2.1 _ _ _
      (by simp [taskReq_DatasourceURL, createArgsOmitted, notImplementedClient]),
    (request_datasourceURL (main.envOf [("VMANOMALY_ENDPOINT", "http://localhost:8490")])
      (createArgsOmitted "up" [("class", JSONValue.string "zscore")])
      (queryArgsOmitted "up")).2.2.2.2.1 _ _ _
      (by simp [queryReq_DatasourceURL, queryArgsOmitted, notImplementedClient, main.envOf])⟩

/-- C6: for every argument set given to `handleQueryMetrics`, the handler passes
to the client a request that carries the query text unchanged, step equal to
the argument when non-empty and "1s" otherwise, datasource type equal to the
argument when non-empty and "vm" otherwise, start and end present exactly when
the argument is positive, tenant id and nocache present exactly when the
argument is non-empty, and each of them then equal to the argument: for every
client, what the handler returns is made from the answer of the client to that
very request, the error result with the message of the client when the client
fails on it, and the text with the formatted result when the client answers
it. -/
theorem queryMetrics_request (env : Env) (args : QueryMetricsArgs) :
    (handleQueryMetrics_queryReq env args).Query = args.Query
      ∧ (handleQueryMetrics_queryReq env args).Step
        = (if args.Step ≠ "" then args.Step else "1s")
      ∧ (handleQueryMetrics_queryReq env args).DatasourceType
        = (if args.DatasourceType ≠ "" then args.DatasourceType else "vm")
      ∧ (handleQueryMetrics_queryReq env args).Start
        = (if args.Start > 0 then some args.Start else none)
      ∧ (handleQueryMetrics_queryReq env args).End
        = (if args.End > 0 then some args.End else none)
      ∧ (handleQueryMetrics_queryReq env args).TenantID
        = (if args.TenantID ≠ "" then some args.TenantID else none)
      ∧ (handleQueryMetrics_queryReq env args).NoCache
        = (if args.NoCache ≠ "" then some args.NoCache else none)
      ∧ (∀ (client : Client) (marshalIndent : MarshalIndent JSONObject) (err : String),
          client.Query (handleQueryMetrics_queryReq env args) = .error err →
          handleQueryMetrics client marshalIndent env args
            = .ok (NewToolResultError ("Query failed: " ++ err)))
      ∧ (∀ (client : Client) (marshalIndent : MarshalIndent JSONObject)
          (result : JSONObject) (responseJSON : String),
          client.Query (handleQueryMetrics_queryReq env args) = .ok result →
          marshalIndent result = .ok responseJSON →
          handleQueryMetrics client marshalIndent env args
            = .ok (NewToolResultText ("Query Result:\n\n" ++ responseJSON)))
      ∧ (∀ (client₁ client₂ : Client) (marshalIndent : MarshalIndent JSONObject),
          client₁.Query (handleQueryMetrics_queryReq env args)
            = client₂.Query (handleQueryMetrics_queryReq env args) →
          handleQueryMetrics client₁ marshalIndent env args
            = handleQueryMetrics client₂ marshalIndent env args) := by
  refine ⟨queryReq_Query env args, queryReq_Step env args, queryReq_DatasourceType env args,
    queryReq_Start env args, queryReq_End env args, queryReq_TenantID env args,
    queryReq_NoCache env args, ?_, ?_, ?_⟩
  · intro client marshalIndent err h
    simp only [handleQueryMetrics, h]
  · intro client marshalIndent result responseJSON h hjson
    simp only [handleQueryMetrics, h, hjson]
  · intro client₁ client₂ marshalIndent h
    exact handleQueryMetrics_congr client₁ client₂ marshalIndent env args h

/-- Witness of C6: the query "up" with nothing else, on a client that answers
only a request with the defaults and no optional field, and fails on any other
request: the query is answered. -/
theorem queryMetrics_request_witness :
    handleQueryMetrics
        { notImplementedClient with
          Query := fun req =>
            if req.Query = "up" ∧ req.Step = "1s" ∧ req.DatasourceType = "vm"
                ∧ req.Start = none ∧ req.End = none ∧ req.TenantID = none
                ∧ req.NoCache = none then
              .ok [("status", JSONValue.string "success")]
            else .error "unexpected request" }
        (fun _ => .ok "\x7b\"status\":\"success\"\x7d") emptyEnv (queryArgsOmitted "up")
      = .ok (NewToolResultText
          ("Query Result:\n\n" ++ "\x7b\"status\":\"success\"\x7d")) :=
  (queryMetrics_request emptyEnv (queryArgsOmitted "up")).2.2.2.2.2.2.2.2.1 _ _
    [("status", JSONValue.string "success")] _
    (by
      simp [queryReq_Query, queryReq_Step, queryReq_DatasourceType, queryReq_Start,
        queryReq_End, queryReq_TenantID, queryReq_NoCache, queryArgsOmitted,
        notImplementedClient])
    rfl

/-- C7: for every argument set given to `handleListTasks`, the handler calls the
client with the limit argument itself when it is positive, with no upper clamp,
and with 20 when it is zero or negative (so also when omitted), and with the
status argument as the filter exactly when it is non-empty: for every client,
what the handler returns is made from the answer of the client to the call with
that very limit and filter, the error result with the message of the client
when the client fails on it, and the text with the number of tasks and the
formatted response when the client answers it. -/
theorem listTasks_limit_and_filter (args : ListTasksArgs) :
    (∀ (client : Client) (marshalIndent : MarshalIndent AnomalyDetectionTaskListResponse)
        (err : String),
        client.ListTasks (if args.Limit > 0 then args.Limit else 20)
          (if args.Status ≠ "" then some args.Status else none) = .error err →
        handleListTasks client marshalIndent args
          = .ok (NewToolResultError ("Failed to list tasks: " ++ err)))
      ∧ (∀ (client : Client) (marshalIndent : MarshalIndent AnomalyDetectionTaskListResponse)
          (tasks : AnomalyDetectionTaskListResponse) (responseJSON : String),
          client.ListTasks (if args.Limit > 0 then args.Limit else 20)
            (if args.Status ≠ "" then some args.Status else none) = .ok tasks →
          marshalIndent tasks = .ok responseJSON →
          handleListTasks client marshalIndent args
            = .ok (NewToolResultText
                ("Anomaly Detection Tasks (found " ++ fmtInt (tasks.Tasks.length : Int)
                  ++ "):\n\n" ++ responseJSON)))
      ∧ handleListTasks_limit args = (if args.Limit > 0 then args.Limit else 20)
      ∧ (0 < args.Limit → handleListTasks_limit args = args.Limit)
      ∧ (args.Limit ≤ 0 → handleListTasks_limit args = 20)
      ∧ handleListTasks_statusFilter args
        = (if args.Status ≠ "" then some args.Status else none)
      ∧ (∀ (client₁ client₂ : Client)
          (marshalIndent : MarshalIndent AnomalyDetectionTaskListResponse),
          client₁.ListTasks (handleListTasks_limit args) (handleListTasks_statusFilter args)
            = client₂.ListTasks (handleListTasks_limit args)
              (handleListTasks_statusFilter args) →
          handleListTasks client₁ marshalIndent args
            = handleListTasks client₂ marshalIndent args) := by
  refine ⟨?_, ?_, rfl, ?_, ?_, rfl, ?_⟩
  · intro client marshalIndent err h
    have h' : client.ListTasks (handleListTasks_limit args)
        (handleListTasks_statusFilter args) = .error err := h
    simp only [handleListTasks, h']
  · intro client marshalIndent tasks responseJSON h hjson
    have h' : client.ListTasks (handleListTasks_limit args)
        (handleListTasks_statusFilter args) = .ok tasks := h
    simp only [handleListTasks, h', hjson]
  · intro h
    simp [handleListTasks_limit, h]
  · intro h
    have h' : ¬ args.Limit > 0 := not_lt.mpr h
    simp [handleListTasks_limit, h']
  · intro client₁ client₂ marshalIndent h
    simp only [handleListTasks, h]

/-- Witness of C7: a client that fails exactly on the call with limit 20 and no
filter receives that call for an omitted limit and status, and a client that
fails exactly on the call with limit 1000000 and the filter "running" receives
that call for these arguments. -/
theorem listTasks_limit_and_filter_witness :
    handleListTasks
        { notImplementedClient with
          ListTasks := fun limit statusFilter =>
            if limit = 20 ∧ statusFilter = none then .error "limit 20 and no filter received"
            else .ok ⟨[]⟩ }
        (fun _ => .ok "") { Limit := 0, Status := "" }
        = .ok (NewToolResultError ("Failed to list tasks: " ++ "limit 20 and no filter received"))
      ∧ handleListTasks
          { notImplementedClient with
            ListTasks := fun limit statusFilter =>
              if limit = 1000000 ∧ statusFilter = some "running" then
                .error "limit 1000000 and filter running received"
              else .ok ⟨[]⟩ }
          (fun _ => .ok "") { Limit := 1000000, Status := "running" }
        = .ok (NewToolResultError
            ("Failed to list tasks: " ++ "limit 1000000 and filter running received")) :=
  ⟨(listTasks_limit_and_filter { Limit := 0, Status := "" }).1 _ _ _ (by simp),
    (listTasks_limit_and_filter { Limit := 1000000, Status := "running" }).1 _ _ _
      (by simp)⟩

/-- C8: when the client call of `handleListTasks` succeeds and the response is
formatted, the handler returns a success result, not marked as an error, whose
text reports the number of tasks of the response before the formatted response;
for an empty task array the text reports zero tasks found. -/
theorem listTasks_reports_count (client : Client)
    (marshalIndent : MarshalIndent AnomalyDetectionTaskListResponse)
    (args : ListTasksArgs) (tasks : AnomalyDetectionTaskListResponse)
    (responseJSON : String)
    (hcall : client.ListTasks (handleListTasks_limit args)
      (handleListTasks_statusFilter args) = .ok tasks)
    (hjson : marshalIndent tasks = .ok responseJSON) :
    handleListTasks client marshalIndent args
        = .ok { Content := [Content.TextContent
                  ("Anomaly Detection Tasks (found " ++ toString tasks.Tasks.length
                    ++ "):\n\n" ++ responseJSON)],
                IsError := false }
      ∧ (tasks.Tasks = [] →
          handleListTasks client marshalIndent args
            = .ok { Content := [Content.TextContent
                      ("Anomaly Detection Tasks (found 0):\n\n" ++ responseJSON)],
                    IsError := false }) := by
  have h : handleListTasks client marshalIndent args
      = .ok { Content := [Content.TextContent
                ("Anomaly Detection Tasks (found " ++ toString tasks.Tasks.length
                  ++ "):\n\n" ++ responseJSON)],
              IsError := false } := by
    simp only [handleListTasks, hcall, hjson, NewToolResultText, fmtInt]
    rfl
  refine ⟨h, ?_⟩
  intro hempty
  rw [h, hempty]
  rfl

/-- Witness of C8: the empty task array of the client test, formatted as the
JSON text of that test. -/
theorem listTasks_reports_count_witness :
    handleListTasks
        { notImplementedClient with ListTasks := fun _ _ => .ok ⟨[]⟩ }
        (fun _ => .ok "\x7b\"tasks\":[]\x7d") { Limit := 10, Status := "" }
      = .ok { Content := [Content.TextContent
                ("Anomaly Detection Tasks (found 0):\n\n" ++ "\x7b\"tasks\":[]\x7d")],
              IsError := false } :=
  (listTasks_reports_count
    { notImplementedClient with ListTasks := fun _ _ => .ok ⟨[]⟩ }
    (fun _ => .ok "\x7b\"tasks\":[]\x7d") { Limit := 10, Status := "" } ⟨[]⟩
    "\x7b\"tasks\":[]\x7d" rfl rfl).2 rfl

/-! ### The deny-list and calls by name -/

theorem mcpServer_toolFilters (c : Config) :
    (main.mcpServer c).toolFilters = [main.toolFilter c] := rfl

theorem mcpServer_tools (c : Config) :
    (main.mcpServer c).tools = (RegisterTools (NewMCPServer [])).tools := rfl

theorem mcpServer_ListTools (c : Config) :
    (main.mcpServer c).ListTools
      = main.toolFilter c
          ((((main.mcpServer c).tools.map (fun t => t.Tool)).insertionSort
            (fun a b => a.Name ≤ b.Name))) := by
  simp only [MCPServer.ListTools, mcpServer_toolFilters, List.foldl_cons, List.foldl_nil]

theorem registered_handlers_reached :
    ∀ t ∈ (RegisterTools (NewMCPServer [])).tools,
      (RegisterTools (NewMCPServer [])).CallTool t.Tool.Name = .ok t.Handler := by
  decide

/-- The catalog that the server of `main` lists has no tool with a name of the
deny-list. -/
theorem handleToolCall_denied (c : Config) (name : String)
    (hdenied : c.IsToolDisabled name = true) :
    (main.mcpServer c).ListTools.any (fun tool => tool.Name == name) = false := by
  rw [Bool.eq_false_iff]
  intro hany
  obtain ⟨tool, htool, hname⟩ := List.any_eq_true.mp hany
  rw [mcpServer_ListTools, toolFilter_eq_filter] at htool
  have h := (List.mem_filter.mp htool).2
  have hn : tool.Name = name := by simpa using hname
  rw [hn, hdenied] at h
  simp at h

/-- A call to the name of a registered tool that is not in the deny-list reaches
the handler of the tool. -/
theorem handleToolCall_allowed (c : Config) (t : ServerTool)
    (ht : t ∈ (main.mcpServer c).tools) (hallowed : c.IsToolDisabled t.Tool.Name = false) :
    (main.mcpServer c).handleToolCall t.Tool.Name = .ok t.Handler := by
  have hcall := registered_handlers_reached t (by rw [← mcpServer_tools c]; exact ht)
  have hlisted : (main.mcpServer c).ListTools.any (fun tool => tool.Name == t.Tool.Name)
      = true := by
    apply List.any_eq_true.mpr
    refine ⟨t.Tool, ?_, by simp⟩
    rw [mcpServer_ListTools, toolFilter_eq_filter]
    apply List.mem_filter.mpr
    refine ⟨?_, by simp [hallowed]⟩
    apply (List.perm_insertionSort _ _).mem_iff.mpr
    exact List.mem_map_of_mem _ ht
  unfold MCPServer.handleToolCall
  unfold MCPServer.CallTool at hcall
  rw [mcpServer_tools c]
  cases hf : (RegisterTools (NewMCPServer [])).tools.find?
      (fun x => x.Tool.Name == t.Tool.Name) with
  | none => simp [hf] at hcall
  | some u =>
    simp only [hf] at hcall
    have hu : u.Handler = t.Handler := by simpa using hcall
    simp only [hlisted, if_true, hu]

/-- C2: for every tool name in the configured deny-list, the server that `main`
builds (the tools of `RegisterTools`, the filter of `main` on the deny-list)
lists no tool of that name, and a call to that name is rejected with the error
`tool not found`: no handler is reached, whichever tool `RegisterTools`
registered under the name. The deny-list changes nothing in the tool table, and
a call to the name of a registered tool that is not in the deny-list reaches the
handler of that tool. -/
theorem denied_tool_rejected (c : Config) (name : String)
    (hdenied : c.IsToolDisabled name = true) :
    (∀ tool ∈ (main.mcpServer c).ListTools, tool.Name ≠ name)
      ∧ (main.mcpServer c).handleToolCall name
        = .error ("tool '" ++ name ++ "' not found: tool not found")
      ∧ (∀ handler, (main.mcpServer c).handleToolCall name ≠ .ok handler)
      ∧ (main.mcpServer c).tools = (RegisterTools (NewMCPServer [])).tools
      ∧ (∀ t ∈ (main.mcpServer c).tools, c.IsToolDisabled t.Tool.Name = false →
          (main.mcpServer c).handleToolCall t.Tool.Name = .ok t.Handler) := by
  have hrej : (main.mcpServer c).handleToolCall name
      = .error ("tool '" ++ name ++ "' not found: tool not found") := by
    unfold MCPServer.handleToolCall
    rw [handleToolCall_denied c name hdenied]
    split <;> simp
  refine ⟨?_, hrej, ?_, mcpServer_tools c, fun t ht h => handleToolCall_allowed c t ht h⟩
  · intro tool htool hname
    rw [mcpServer_ListTools, toolFilter_eq_filter] at htool
    have h := (List.mem_filter.mp htool).2
    rw [hname, hdenied] at h
    simp at h
  · intro handler h
    rw [hrej] at h
    exact Except.noConfusion h

/-- Witness of C2: with the health check tool in the deny-list, a call to its
name is rejected. -/
theorem denied_tool_rejected_witness :
    main.healthCheckDisabled.IsToolDisabled "vmanomaly_health_check" = true
      ∧ (main.mcpServer main.healthCheckDisabled).handleToolCall "vmanomaly_health_check"
        = .error "tool 'vmanomaly_health_check' not found: tool not found" :=
  ⟨by decide,
    (denied_tool_rejected main.healthCheckDisabled "vmanomaly_health_check" (by decide)).2.1⟩

/-! ### Client errors -/

theorem strContains_append_right (pre msg : String) : strContains (pre ++ msg) msg := by
  unfold strContains
  rw [String.data_append]
  exact (List.suffix_append _ _).isInfix

theorem isErrorResultWith_error (pre msg : String) :
    isErrorResultWith (.ok (NewToolResultError (pre ++ msg))) msg = true := by
  simp [isErrorResultWith, NewToolResultError, strContains_append_right]

/-- An error of a structured handler comes out of the registered tool handler as
a tool result marked as an error whose text ends with the message. -/
theorem structured_error_surfaces {α : Type} (structured : α → CallToolResult)
    (pre err : String) :
    isErrorResultWith (NewStructuredToolHandler structured (.error (pre ++ err))) err
      = true := by
  have h : NewStructuredToolHandler structured (.error (pre ++ err))
      = .ok (NewToolResultError (("tool execution failed: " ++ pre) ++ err)) := by
    simp only [NewStructuredToolHandler, String.append_assoc]
  rw [h]
  exact isErrorResultWith_error _ _

/-- C9: for every handler of the tools package (health, build info, metrics,
models, schema, model and config validation, alert rule, task create, status,
list and cancel, limits, query, compatibility) and every error of its client
call, the handler returns no Go error but a tool result marked as an error whose
text contains the message of the client error. The compatibility handler is
taken as `RegisterCompatibilityTools` registers it, made by
`mcp.NewStructuredToolHandler` from `handleCheckCompatibility`. -/
theorem client_errors_surface (client : Client) (err : String) :
    (∀ (m : MarshalIndent JSONObject), client.GetHealth = .error err →
        isErrorResultWith (handleHealthCheck client m) err = true)
      ∧ (∀ (m : MarshalIndent JSONObject), client.GetBuildInfo = .error err →
        isErrorResultWith (handleGetBuildinfo client m) err = true)
      ∧ (client.Metrics = .error err →
        isErrorResultWith (handleGetMetrics client) err = true)
      ∧ (∀ (m : MarshalIndent ModelsListResponse), client.ListModels = .error err →
        isErrorResultWith (handleListModels client m) err = true)
      ∧ (∀ (m : MarshalIndent JSONObject) (args : GetModelSchemaArgs),
        client.GetModelSchema args.ModelClass = .error err →
        isErrorResultWith (handleGetModelSchema client m args) err = true)
      ∧ (∀ (m : MarshalIndent ModelValidationResponse) (args : ValidateModelConfigArgs),
        client.ValidateModel args.ModelSpec = .error err →
        isErrorResultWith (handleValidateModelConfig client m args) err = true)
      ∧ (∀ (m : MarshalIndent ConfigValidationResponse) (args : ValidateConfigArgs),
        client.ValidateConfig args.Config = .error err →
        isErrorResultWith (handleValidateConfig client m args) err = true)
      ∧ (∀ (args : GenerateAlertRuleArgs),
        client.GenerateAlertRule (alertRuleRequest args) = .error err →
        isErrorResultWith (handleGenerateAlertRule client args) err = true)
      ∧ (∀ (m : MarshalIndent AnomalyDetectionTaskResponse) (env : Env)
          (args : CreateDetectionTaskArgs),
        client.CreateDetectionTask (handleCreateDetectionTask_taskReq env args)
          = .error err →
        isErrorResultWith (handleCreateDetectionTask client m env args) err = true)
      ∧ (∀ (m : MarshalIndent AnomalyDetectionTaskStatus) (args : GetTaskStatusArgs),
        client.GetTaskStatus args.TaskID = .error err →
        isErrorResultWith (handleGetTaskStatus client m args) err = true)
      ∧ (∀ (m : MarshalIndent AnomalyDetectionTaskListResponse) (args : ListTasksArgs),
        client.ListTasks (handleListTasks_limit args) (handleListTasks_statusFilter args)
          = .error err →
        isErrorResultWith (handleListTasks client m args) err = true)
      ∧ (∀ (m : MarshalIndent (List (String × Bool))) (args : CancelTaskArgs),
        client.CancelTask args.TaskID = .error err →
        isErrorResultWith (handleCancelTask client m args) err = true)
      ∧ (∀ (m : MarshalIndent AnomalyDetectionLimitsResponse),
        client.GetDetectionLimits = .error err →
        isErrorResultWith (handleGetDetectionLimits client m) err = true)
      ∧ (∀ (m : MarshalIndent JSONObject) (env : Env) (args : QueryMetricsArgs),
        client.Query (handleQueryMetrics_queryReq env args) = .error err →
        isErrorResultWith (handleQueryMetrics client m env args) err = true)
      ∧ (∀ (structured : CheckCompatibilityResponse → CallToolResult)
          (args : CheckCompatibilityArgs),
        client.Compatibility (if args.VersionTo ≠ "" then some args.VersionTo else none)
          = .error err →
        isErrorResultWith
            (NewStructuredToolHandler structured (handleCheckCompatibility client args)) err
          = true
          ∧ NewStructuredToolHandler structured (handleCheckCompatibility client args)
            = .ok (NewToolResultError
                ("tool execution failed: " ++ ("compatibility check failed: " ++ err)))) := by
  refine ⟨?_, ?_, ?_, ?_, ?_, ?_, ?_, ?_, ?_, ?_, ?_, ?_, ?_, ?_, ?_⟩
  · intro m h
    simp only [handleHealthCheck, h, isErrorResultWith_error]
  · intro m h
    simp only [handleGetBuildinfo, h, isErrorResultWith_error]
  · intro h
    simp only [handleGetMetrics, h, isErrorResultWith_error]
  · intro m h
    simp only [handleListModels, h, isErrorResultWith_error]
  · intro m args h
    simp only [handleGetModelSchema, h, isErrorResultWith_error]
  · intro m args h
    simp only [handleValidateModelConfig, h, isErrorResultWith_error]
  · intro m args h
    simp only [handleValidateConfig, h, isErrorResultWith_error]
  · intro args h
    simp only [handleGenerateAlertRule, h, isErrorResultWith_error]
  · intro m env args h
    simp only [handleCreateDetectionTask, h, isErrorResultWith_error]
  · intro m args h
    simp only [handleGetTaskStatus, h, isErrorResultWith_error]
  · intro m args h
    simp only [handleListTasks, h, isErrorResultWith_error]
  · intro m args h
    simp only [handleCancelTask, h, isErrorResultWith_error]
  · intro m h
    simp only [handleGetDetectionLimits, h, isErrorResultWith_error]
  · intro m env args h
    simp only [handleQueryMetrics, h, isErrorResultWith_error]
  · intro structured args h
    have hinner : handleCheckCompatibility client args
        = .error ("compatibility check failed: " ++ err) := by
      simp only [handleCheckCompatibility, h]
    rw [hinner]
    exact ⟨structured_error_surfaces structured _ err, rfl⟩

/-- Witness of C9: the client on which every call fails with `not implemented`,
at the health check and at the compatibility check as registered. -/
theorem client_errors_surface_witness :
    isErrorResultWith (handleHealthCheck notImplementedClient (fun _ => .ok ""))
        "not implemented" = true
      ∧ NewStructuredToolHandler (fun _ => NewToolResultText "")
          (handleCheckCompatibility notImplementedClient { VersionTo := "" })
        = .ok (NewToolResultError
            "tool execution failed: compatibility check failed: not implemented") :=
  ⟨(client_errors_surface notImplementedClient "not implemented").1 (fun _ => .ok "") rfl,
    ((client_errors_surface notImplementedClient "not implemented").2.2.2.2.2.2.2.2.2.2.2.2.2.2
      (fun _ => NewToolResultText "") { VersionTo := "" } rfl).2⟩

/-! ### The compatibility summary -/

theorem strContains_mid (a b c sub : String) (h : strContains b sub) :
    strContains (a ++ b ++ c) sub := by
  unfold strContains at *
  rw [String.data_append, String.data_append]
  obtain ⟨s, t, hst⟩ := h
  exact ⟨a.data ++ s, t ++ c.data, by simp [← hst]⟩

theorem critical_line_contains :
    strContains "CRITICAL: All persisted state must be dropped before upgrade. "
      "All persisted state must be dropped" := by
  decide

theorem resp_incompatible_drop (result : CompatibilityCheckResponse)
    (hstate : result.GlobalCheck.HasState = true)
    (hcompat : result.GlobalCheck.IsCompatible = false)
    (hdrop : result.GlobalCheck.DropEverything = true) :
    (handleCheckCompatibility_resp result).Status = "incompatible"
      ∧ (handleCheckCompatibility_resp result).Summary
        = ("State is INCOMPATIBLE with runtime " ++ result.RuntimeVersion ++ ". ")
          ++ "CRITICAL: All persisted state must be dropped before upgrade. "
          ++ (match result.GlobalCheck.Reason with
              | some reason => "Reason: " ++ reason
              | none => "") := by
  cases hassess : result.ComponentAssessment <;> cases hreason : result.GlobalCheck.Reason <;>
    simp [handleCheckCompatibility_resp, buildCompatibilitySummary, hassess, hreason,
      hstate, hcompat, hdrop]

/-- C10, as amended: for every upstream compatibility response whose global
check has has_state true, is_compatible false and drop_everything true, the
response of `handleCheckCompatibility` has status incompatible and its summary
instructs that all persisted state be dropped (it contains "All persisted state
must be dropped"), whether or not a per-component assessment is present and
whatever it holds. -/
theorem dropEverything_summary (client : Client) (args : CheckCompatibilityArgs)
    (result : CompatibilityCheckResponse)
    (hcall : client.Compatibility (if args.VersionTo ≠ "" then some args.VersionTo else none)
      = .ok result)
    (hstate : result.GlobalCheck.HasState = true)
    (hcompat : result.GlobalCheck.IsCompatible = false)
    (hdrop : result.GlobalCheck.DropEverything = true) :
    ∃ resp, handleCheckCompatibility client args = .ok resp
      ∧ resp.Status = "incompatible"
      ∧ resp.DropEverything = true
      ∧ strContains resp.Summary "All persisted state must be dropped" := by
  refine ⟨handleCheckCompatibility_resp result, ?_, ?_, ?_, ?_⟩
  · simp only [handleCheckCompatibility, hcall]
  · exact (resp_incompatible_drop result hstate hcompat hdrop).1
  · cases hassess : result.ComponentAssessment <;>
      simp [handleCheckCompatibility_resp, hassess, hstate, hcompat, hdrop]
  · rw [(resp_incompatible_drop result hstate hcompat hdrop).2]
    exact strContains_mid _ _ _ _ critical_line_contains

/-- Witness of C10 as amended: the full-purge response of the client test, with
a per-component assessment added. -/
theorem dropEverything_summary_witness :
    ∃ resp,
      handleCheckCompatibility
          { notImplementedClient with
            Compatibility := fun _ =>
              .ok { RuntimeVersion := "2.0.0"
                    StoredVersion := some "1.0.0"
                    GlobalCheck :=
                      { HasState := true, IsCompatible := false, DropEverything := true,
                        Reason := some "Major version incompatibility" }
                    ComponentAssessment :=
                      some { ModelsToPurge := ["prophet_1"], ShouldPurgeReaderData := true,
                             Issues := [] } } }
          { VersionTo := "" } = .ok resp
        ∧ resp.Status = "incompatible"
        ∧ resp.DropEverything = true
        ∧ strContains resp.Summary "All persisted state must be dropped" :=
  dropEverything_summary
    { notImplementedClient with
      Compatibility := fun _ =>
        .ok { RuntimeVersion := "2.0.0"
              StoredVersion := some "1.0.0"
              GlobalCheck :=
                { HasState := true, IsCompatible := false, DropEverything := true,
                  Reason := some "Major version incompatibility" }
              ComponentAssessment :=
                some { ModelsToPurge := ["prophet_1"], ShouldPurgeReaderData := true,
                       Issues := [] } } }
    { VersionTo := "" } _ rfl rfl rfl rfl

theorem no_state_line_lacks_instruction :
    ¬ strContains
      "No persisted state found (fresh install). System is ready to use with any configuration."
      "All persisted state must be dropped" := by
  decide

theorem compatible_line_lacks_instruction :
    ¬ strContains "State is COMPATIBLE with runtime 2.0.0. No migration actions required."
      "All persisted state must be dropped" := by
  decide

/-- C10 as stated fails: with drop_everything true but has_state false the
summary is the fresh-install text, and with has_state and is_compatible both
true it is the compatible text; neither contains "All persisted state must be
dropped". -/
theorem dropEverything_without_instruction :
    (∃ resp,
      handleCheckCompatibility
          { notImplementedClient with
            Compatibility := fun _ =>
              .ok { RuntimeVersion := "2.0.0"
                    StoredVersion := none
                    GlobalCheck :=
                      { HasState := false, IsCompatible := false, DropEverything := true,
                        Reason := none }
                    ComponentAssessment := none } }
          { VersionTo := "" } = .ok resp
        ∧ resp.DropEverything = true
        ∧ resp.Summary
          = "No persisted state found (fresh install). System is ready to use with any configuration."
        ∧ ¬ strContains resp.Summary "All persisted state must be dropped")
      ∧ (∃ resp,
        handleCheckCompatibility
            { notImplementedClient with
              Compatibility := fun _ =>
                .ok { RuntimeVersion := "2.0.0"
                      StoredVersion := some "1.0.0"
                      GlobalCheck :=
                        { HasState := true, IsCompatible := true, DropEverything := true,
                          Reason := none }
                      ComponentAssessment := none } }
            { VersionTo := "" } = .ok resp
          ∧ resp.DropEverything = true
          ∧ resp.Summary
            = "State is COMPATIBLE with runtime 2.0.0. No migration actions required."
          ∧ ¬ strContains resp.Summary "All persisted state must be dropped") :=
  ⟨⟨_, rfl, rfl, rfl, no_state_line_lacks_instruction⟩,
    ⟨_, rfl, rfl, rfl, compatible_line_lacks_instruction⟩⟩

/-! ### The compatibility status -/

theorem resp_fields (result : CompatibilityCheckResponse) :
    (handleCheckCompatibility_resp result).Status
        = (if result.GlobalCheck.HasState = false then "no_state"
          else if result.GlobalCheck.IsCompatible = true then "compatible"
          else "incompatible")
      ∧ (handleCheckCompatibility_resp result).RuntimeVersion = result.RuntimeVersion
      ∧ (handleCheckCompatibility_resp result).StoredVersion = result.StoredVersion
      ∧ (handleCheckCompatibility_resp result).HasState = result.GlobalCheck.HasState
      ∧ (handleCheckCompatibility_resp result).IsCompatible = result.GlobalCheck.IsCompatible
      ∧ (handleCheckCompatibility_resp result).DropEverything
        = result.GlobalCheck.DropEverything
      ∧ (handleCheckCompatibility_resp result).Reason = result.GlobalCheck.Reason := by
  cases hassess : result.ComponentAssessment <;>
    cases hstate : result.GlobalCheck.HasState <;>
    cases hcompat : result.GlobalCheck.IsCompatible <;>
    simp [handleCheckCompatibility_resp, hassess, hstate, hcompat]

/-- C11: for every successful upstream compatibility response, the status that
`handleCheckCompatibility` returns is one of compatible, incompatible and
no_state; it is no_state exactly when has_state is false, compatible exactly
when has_state and is_compatible are both true, and incompatible exactly when
has_state is true and is_compatible is false; runtime version, stored version,
has_state, is_compatible, drop_everything and reason are those of the
response. -/
theorem compatibility_status (client : Client) (args : CheckCompatibilityArgs)
    (result : CompatibilityCheckResponse)
    (hcall : client.Compatibility (if args.VersionTo ≠ "" then some args.VersionTo else none)
      = .ok result) :
    ∃ resp, handleCheckCompatibility client args = .ok resp
      ∧ (resp.Status = "compatible" ∨ resp.Status = "incompatible"
          ∨ resp.Status = "no_state")
      ∧ (resp.Status = "no_state" ↔ result.GlobalCheck.HasState = false)
      ∧ (resp.Status = "compatible" ↔
          result.GlobalCheck.HasState = true ∧ result.GlobalCheck.IsCompatible = true)
      ∧ (resp.Status = "incompatible" ↔
          result.GlobalCheck.HasState = true ∧ result.GlobalCheck.IsCompatible = false)
      ∧ resp.RuntimeVersion = result.RuntimeVersion
      ∧ resp.StoredVersion = result.StoredVersion
      ∧ resp.HasState = result.GlobalCheck.HasState
      ∧ resp.IsCompatible = result.GlobalCheck.IsCompatible
      ∧ resp.DropEverything = result.GlobalCheck.DropEverything
      ∧ resp.Reason = result.GlobalCheck.Reason := by
  obtain ⟨hstatus, hrv, hsv, hhs, hic, hde, hre⟩ := resp_fields result
  refine ⟨handleCheckCompatibility_resp result, ?_, ?_, ?_, ?_, ?_,
    hrv, hsv, hhs, hic, hde, hre⟩
  · simp only [handleCheckCompatibility, hcall]
  all_goals
    rw [hstatus]
    cases hstate : result.GlobalCheck.HasState <;>
      cases hcompat : result.GlobalCheck.IsCompatible <;> simp

/-- Witness of C11: the response of the client test with state that is not
compatible and a target version given. -/
theorem compatibility_status_witness :
    ∃ resp,
      handleCheckCompatibility
          { notImplementedClient with
            Compatibility := fun versionTo =>
              if versionTo = some "2.0.0" then
                .ok { RuntimeVersion := "2.0.0"
                      StoredVersion := none
                      GlobalCheck :=
                        { HasState := true, IsCompatible := false, DropEverything := false,
                          Reason := none }
                      ComponentAssessment :=
                        some { ModelsToPurge := ["prophet_1", "prophet_2"],
                               ShouldPurgeReaderData := false, Issues := [] } }
              else .error "not implemented" }
          { VersionTo := "2.0.0" } = .ok resp
        ∧ resp.Status = "incompatible" ∧ resp.RuntimeVersion = "2.0.0" := by
  obtain ⟨resp, hresp, _, _, _, hinc, hrv, _⟩ :=
    compatibility_status
      { notImplementedClient with
        Compatibility := fun versionTo =>
          if versionTo = some "2.0.0" then
            .ok { RuntimeVersion := "2.0.0"
                  StoredVersion := none
                  GlobalCheck :=
                    { HasState := true, IsCompatible := false, DropEverything := false,
                      Reason := none }
                  ComponentAssessment :=
                    some { ModelsToPurge := ["prophet_1", "prophet_2"],
                           ShouldPurgeReaderData := false, Issues := [] } }
          else .error "not implemented" }
      { VersionTo := "2.0.0" } _ rfl
  exact ⟨resp, hresp, hinc.mpr ⟨rfl, rfl⟩, hrv⟩

/-! ### InitConfig -/

theorem heartbeatInterval_error_iff (lib : GoLib) (env : Env) :
    (∃ err, InitConfig_heartbeatInterval lib env = .error err) ↔
      (env "MCP_HEARTBEAT_INTERVAL" ≠ ""
        ∧ ((∃ err, lib.ParseDuration (env "MCP_HEARTBEAT_INTERVAL") = .error err)
          ∨ ∃ interval, lib.ParseDuration (env "MCP_HEARTBEAT_INTERVAL") = .ok interval
              ∧ interval < 0)) := by
  unfold InitConfig_heartbeatInterval
  by_cases hempty : env "MCP_HEARTBEAT_INTERVAL" = ""
  · simp [hempty]
  · cases hparse : lib.ParseDuration (env "MCP_HEARTBEAT_INTERVAL") with
    | error err => simp [hempty, hparse]
    | ok interval =>
      by_cases hneg : interval < 0
      · simp [hempty, hneg, hparse]
      · simp [hempty, hneg, hparse]

theorem disableResources_error_iff (lib : GoLib) (env : Env) :
    (∃ err, InitConfig_disableResources lib env = .error err) ↔
      (env "MCP_DISABLE_RESOURCES" ≠ ""
        ∧ ∃ err, lib.ParseBool (env "MCP_DISABLE_RESOURCES") = .error err) := by
  unfold InitConfig_disableResources
  by_cases hempty : env "MCP_DISABLE_RESOURCES" = ""
  · simp [hempty]
  · cases hparse : lib.ParseBool (env "MCP_DISABLE_RESOURCES") with
    | error err => simp [hempty, hparse]
    | ok parsed => simp [hempty, hparse]

/-- The conditions on the environment under which `InitConfig` fails. -/
theorem InitConfig_fails_iff (lib : GoLib) (env : Env) :
    (∃ err, InitConfig lib env = .error err) ↔
      ((∃ err, InitConfig_heartbeatInterval lib env = .error err)
        ∨ (∃ err, InitConfig_disableResources lib env = .error err)
        ∨ env "VMANOMALY_ENDPOINT" = ""
        ∨ (lib.ToLower (env "MCP_SERVER_MODE") ≠ ""
          ∧ lib.ToLower (env "MCP_SERVER_MODE") ≠ "stdio"
          ∧ lib.ToLower (env "MCP_SERVER_MODE") ≠ "http")
        ∨ (lib.ToLower (env "MCP_LOG_LEVEL") ≠ ""
          ∧ lib.ToLower (env "MCP_LOG_LEVEL") ≠ "debug"
          ∧ lib.ToLower (env "MCP_LOG_LEVEL") ≠ "info"
          ∧ lib.ToLower (env "MCP_LOG_LEVEL") ≠ "warn"
          ∧ lib.ToLower (env "MCP_LOG_LEVEL") ≠ "error")) := by
  unfold InitConfig
  cases hhb : InitConfig_heartbeatInterval lib env with
  | error err => simp
  | ok interval =>
    cases hres : InitConfig_disableResources lib env with
    | error err => simp
    | ok parsed =>
      by_cases hep : env "VMANOMALY_ENDPOINT" = ""
      · simp [hep]
      · by_cases hmode : lib.ToLower (env "MCP_SERVER_MODE") ≠ ""
            ∧ lib.ToLower (env "MCP_SERVER_MODE") ≠ "stdio"
            ∧ lib.ToLower (env "MCP_SERVER_MODE") ≠ "http"
        · simp [hep, hmode]
        · by_cases hlevel : lib.ToLower (env "MCP_LOG_LEVEL") ≠ ""
              ∧ lib.ToLower (env "MCP_LOG_LEVEL") ≠ "debug"
              ∧ lib.ToLower (env "MCP_LOG_LEVEL") ≠ "info"
              ∧ lib.ToLower (env "MCP_LOG_LEVEL") ≠ "warn"
              ∧ lib.ToLower (env "MCP_LOG_LEVEL") ≠ "error"
          · simp [hep, hmode, hlevel]
          · simp [hep, hmode, hlevel]


/-- The configuration that `InitConfig` returns when it succeeds. -/
theorem InitConfig_ok_fields (lib : GoLib) (env : Env) (c : Config)
    (h : InitConfig lib env = .ok c) :
    c.vmanomalyEndpoint = env "VMANOMALY_ENDPOINT"
      ∧ c.serverMode = (if lib.ToLower (env "MCP_SERVER_MODE") = "" then "stdio"
          else lib.ToLower (env "MCP_SERVER_MODE"))
      ∧ c.listenAddr = (if env "MCP_LISTEN_ADDR" = "" then "localhost:8080"
          else env "MCP_LISTEN_ADDR")
      ∧ c.disabledTools = some (InitConfig_disabledToolsMap env)
      ∧ InitConfig_heartbeatInterval lib env = .ok c.heartbeatInterval
      ∧ InitConfig_disableResources lib env = .ok c.disableResources
      ∧ c.logLevel = (if lib.ToLower (env "MCP_LOG_LEVEL") = "" then "info"
          else lib.ToLower (env "MCP_LOG_LEVEL"))
      ∧ c.logFile = env "MCP_LOG_FILE"
      ∧ c.bearerToken = env "VMANOMALY_BEARER_TOKEN"
      ∧ c.customHeaders = parseCustomHeaders (env "VMANOMALY_HEADERS") := by
  unfold InitConfig at h
  cases hhb : InitConfig_heartbeatInterval lib env with
  | error err => simp [hhb] at h
  | ok interval =>
    cases hres : InitConfig_disableResources lib env with
    | error err => simp [hhb, hres] at h
    | ok parsed =>
      simp only [hhb, hres] at h
      split_ifs at h <;> cases h <;> simp_all


/-- C12: `InitConfig` returns an error if and only if the endpoint is empty, or
the lower-cased server mode is non-empty and neither stdio nor http, or the
lower-cased log level is non-empty and none of debug, info, warn, error, or the
heartbeat interval is non-empty and does not parse as a duration or is
negative, or the resources flag is non-empty and does not parse as a boolean;
in every other case it returns a configuration and no error. -/
theorem InitConfig_error_iff (lib : GoLib) (env : Env) :
    ((∃ err, InitConfig lib env = .error err) ↔
        (env "VMANOMALY_ENDPOINT" = ""
          ∨ (lib.ToLower (env "MCP_SERVER_MODE") ≠ ""
            ∧ lib.ToLower (env "MCP_SERVER_MODE") ≠ "stdio"
            ∧ lib.ToLower (env "MCP_SERVER_MODE") ≠ "http")
          ∨ (lib.ToLower (env "MCP_LOG_LEVEL") ≠ ""
            ∧ lib.ToLower (env "MCP_LOG_LEVEL") ≠ "debug"
            ∧ lib.ToLower (env "MCP_LOG_LEVEL") ≠ "info"
            ∧ lib.ToLower (env "MCP_LOG_LEVEL") ≠ "warn"
            ∧ lib.ToLower (env "MCP_LOG_LEVEL") ≠ "error")
          ∨ (env "MCP_HEARTBEAT_INTERVAL" ≠ ""
            ∧ ((∃ err, lib.ParseDuration (env "MCP_HEARTBEAT_INTERVAL") = .error err)
              ∨ ∃ interval,
                  lib.ParseDuration (env "MCP_HEARTBEAT_INTERVAL") = .ok interval
                    ∧ interval < 0))
          ∨ (env "MCP_DISABLE_RESOURCES" ≠ ""
            ∧ ∃ err, lib.ParseBool (env "MCP_DISABLE_RESOURCES") = .error err)))
      ∧ ((∃ c, InitConfig lib env = .ok c) ↔
        ¬ (env "VMANOMALY_ENDPOINT" = ""
          ∨ (lib.ToLower (env "MCP_SERVER_MODE") ≠ ""
            ∧ lib.ToLower (env "MCP_SERVER_MODE") ≠ "stdio"
            ∧ lib.ToLower (env "MCP_SERVER_MODE") ≠ "http")
          ∨ (lib.ToLower (env "MCP_LOG_LEVEL") ≠ ""
            ∧ lib.ToLower (env "MCP_LOG_LEVEL") ≠ "debug"
            ∧ lib.ToLower (env "MCP_LOG_LEVEL") ≠ "info"
            ∧ lib.ToLower (env "MCP_LOG_LEVEL") ≠ "warn"
            ∧ lib.ToLower (env "MCP_LOG_LEVEL") ≠ "error")
          ∨ (env "MCP_HEARTBEAT_INTERVAL" ≠ ""
            ∧ ((∃ err, lib.ParseDuration (env "MCP_HEARTBEAT_INTERVAL") = .error err)
              ∨ ∃ interval,
                  lib.ParseDuration (env "MCP_HEARTBEAT_INTERVAL") = .ok interval
                    ∧ interval < 0))
          ∨ (env "MCP_DISABLE_RESOURCES" ≠ ""
            ∧ ∃ err, lib.ParseBool (env "MCP_DISABLE_RESOURCES") = .error err))) := by
  have herr := InitConfig_fails_iff lib env
  rw [heartbeatInterval_error_iff, disableResources_error_iff] at herr
  have key : (∃ err, InitConfig lib env = .error err) ↔
      (env "VMANOMALY_ENDPOINT" = ""
        ∨ (lib.ToLower (env "MCP_SERVER_MODE") ≠ ""
          ∧ lib.ToLower (env "MCP_SERVER_MODE") ≠ "stdio"
          ∧ lib.ToLower (env "MCP_SERVER_MODE") ≠ "http")
        ∨ (lib.ToLower (env "MCP_LOG_LEVEL") ≠ ""
          ∧ lib.ToLower (env "MCP_LOG_LEVEL") ≠ "debug"
          ∧ lib.ToLower (env "MCP_LOG_LEVEL") ≠ "info"
          ∧ lib.ToLower (env "MCP_LOG_LEVEL") ≠ "warn"
          ∧ lib.ToLower (env "MCP_LOG_LEVEL") ≠ "error")
        ∨ (env "MCP_HEARTBEAT_INTERVAL" ≠ ""
          ∧ ((∃ err, lib.ParseDuration (env "MCP_HEARTBEAT_INTERVAL") = .error err)
            ∨ ∃ interval,
                lib.ParseDuration (env "MCP_HEARTBEAT_INTERVAL") = .ok interval
                  ∧ interval < 0))
        ∨ (env "MCP_DISABLE_RESOURCES" ≠ ""
          ∧ ∃ err, lib.ParseBool (env "MCP_DISABLE_RESOURCES") = .error err)) := by
    rw [herr]
    constructor
    · rintro (h | h | h | h | h)
      · exact Or.inr (Or.inr (Or.inr (Or.inl h)))
      · exact Or.inr (Or.inr (Or.inr (Or.inr h)))
      · exact Or.inl h
      · exact Or.inr (Or.inl h)
      · exact Or.inr (Or.inr (Or.inl h))
    · rintro (h | h | h | h | h)
      · exact Or.inr (Or.inr (Or.inl h))
      · exact Or.inr (Or.inr (Or.inr (Or.inl h)))
      · exact Or.inr (Or.inr (Or.inr (Or.inr h)))
      · exact Or.inl h
      · exact Or.inr (Or.inl h)
  refine ⟨key, ?_⟩
  rw [← key]
  cases h : InitConfig lib env with
  | error err => simp
  | ok c => simp

/-- Witness of C12: the test environments with an invalid server mode, an
invalid heartbeat interval and a missing endpoint are rejected, the valid one
is accepted. -/
theorem InitConfig_error_iff_witness :
    (∃ err, InitConfig main.exampleLib
        (main.envOf [("VMANOMALY_ENDPOINT", "http://localhost:8490"),
          ("MCP_SERVER_MODE", "invalid")]) = .error err)
      ∧ (∃ err, InitConfig main.exampleLib
        (main.envOf [("VMANOMALY_ENDPOINT", "http://localhost:8490"),
          ("MCP_HEARTBEAT_INTERVAL", "invalid")]) = .error err)
      ∧ (∃ err, InitConfig main.exampleLib (main.envOf []) = .error err)
      ∧ (∃ c, InitConfig main.exampleLib main.validEnv = .ok c) :=
  ⟨(InitConfig_error_iff main.exampleLib _).1.mpr (Or.inr (Or.inl (by decide))),
    (InitConfig_error_iff main.exampleLib _).1.mpr
      (Or.inr (Or.inr (Or.inr (Or.inl ⟨by decide, Or.inl ⟨_, rfl⟩⟩)))),
    (InitConfig_error_iff main.exampleLib _).1.mpr (Or.inl rfl),
    ⟨main.validConfig, by decide⟩⟩

theorem InitConfig_ok_of (lib : GoLib) (env : Env)
    (hhb : ¬ ∃ err, InitConfig_heartbeatInterval lib env = .error err)
    (hres : ¬ ∃ err, InitConfig_disableResources lib env = .error err)
    (hep : env "VMANOMALY_ENDPOINT" ≠ "")
    (hmode : lib.ToLower (env "MCP_SERVER_MODE") = ""
      ∨ lib.ToLower (env "MCP_SERVER_MODE") = "stdio"
      ∨ lib.ToLower (env "MCP_SERVER_MODE") = "http")
    (hlevel : lib.ToLower (env "MCP_LOG_LEVEL") = ""
      ∨ lib.ToLower (env "MCP_LOG_LEVEL") = "debug"
      ∨ lib.ToLower (env "MCP_LOG_LEVEL") = "info"
      ∨ lib.ToLower (env "MCP_LOG_LEVEL") = "warn"
      ∨ lib.ToLower (env "MCP_LOG_LEVEL") = "error") :
    ∃ c, InitConfig lib env = .ok c := by
  cases h : InitConfig lib env with
  | ok c => exact ⟨c, rfl⟩
  | error err =>
    exfalso
    rcases (InitConfig_fails_iff lib env).mp ⟨err, h⟩ with h1 | h1 | h1 | h1 | h1
    · exact hhb h1
    · exact hres h1
    · exact hep h1
    · rcases hmode with h2 | h2 | h2
      · exact h1.1 h2
      · exact h1.2.1 h2
      · exact h1.2.2 h2
    · rcases hlevel with h2 | h2 | h2 | h2 | h2
      · exact h1.1 h2
      · exact h1.2.1 h2
      · exact h1.2.2.1 h2
      · exact h1.2.2.2.1 h2
      · exact h1.2.2.2.2 h2

/-- The server mode of a configuration that `InitConfig` returns is stdio or
http. -/
theorem InitConfig_serverMode (lib : GoLib) (env : Env) (c : Config)
    (h : InitConfig lib env = .ok c) :
    c.serverMode = "stdio" ∨ c.serverMode = "http" := by
  have hmode := (InitConfig_ok_fields lib env c h).2.1
  have hnot : ¬ (lib.ToLower (env "MCP_SERVER_MODE") ≠ ""
      ∧ lib.ToLower (env "MCP_SERVER_MODE") ≠ "stdio"
      ∧ lib.ToLower (env "MCP_SERVER_MODE") ≠ "http") := by
    intro hbad
    have herr := (InitConfig_fails_iff lib env).mpr (Or.inr (Or.inr (Or.inr (Or.inl hbad))))
    obtain ⟨err, herr⟩ := herr
    rw [h] at herr
    exact Except.noConfusion herr
  by_cases h1 : lib.ToLower (env "MCP_SERVER_MODE") = ""
  · left
    rw [hmode, if_pos h1]
  · rw [hmode, if_neg h1]
    by_cases h2 : lib.ToLower (env "MCP_SERVER_MODE") = "stdio"
    · exact Or.inl h2
    · by_cases h3 : lib.ToLower (env "MCP_SERVER_MODE") = "http"
      · exact Or.inr h3
      · exact absurd ⟨h1, h2, h3⟩ hnot

theorem modeBranch_of_serverMode (c : Config) :
    (c.serverMode = "stdio" → main.modeBranch c = main.ModeBranch.stdio)
      ∧ (c.serverMode = "http" → main.modeBranch c = main.ModeBranch.http) := by
  constructor
  · intro h
    simp [main.modeBranch, Config.IsStdio, h]
  · intro h
    simp [main.modeBranch, Config.IsStdio, Config.ServerMode, h]

theorem startEnv_ok (lib : GoLib) (mode : String)
    (hlower : lib.ToLower "" = "")
    (hmode : lib.ToLower mode = "" ∨ lib.ToLower mode = "stdio" ∨ lib.ToLower mode = "http") :
    ∃ c, InitConfig lib
        (main.envOf [("VMANOMALY_ENDPOINT", "http://localhost:8490"),
          ("MCP_SERVER_MODE", mode)]) = .ok c
      ∧ c.serverMode = (if lib.ToLower mode = "" then "stdio" else lib.ToLower mode) := by
  generalize henv : main.envOf [("VMANOMALY_ENDPOINT", "http://localhost:8490"),
    ("MCP_SERVER_MODE", mode)] = env
  have hget : ∀ name, name ≠ "VMANOMALY_ENDPOINT" → name ≠ "MCP_SERVER_MODE" →
      env name = "" := by
    intro name h1 h2
    have b1 : (name == "VMANOMALY_ENDPOINT") = false := by simpa using h1
    have b2 : (name == "MCP_SERVER_MODE") = false := by simpa using h2
    rw [← henv]
    simp [main.envOf, List.lookup, b1, b2]
  have hep : env "VMANOMALY_ENDPOINT" = "http://localhost:8490" := by
    rw [← henv]
    simp [main.envOf, List.lookup]
  have hm : env "MCP_SERVER_MODE" = mode := by
    rw [← henv]
    simp [main.envOf, List.lookup]
  have hhb : env "MCP_HEARTBEAT_INTERVAL" = "" := hget _ (by decide) (by decide)
  have hres : env "MCP_DISABLE_RESOURCES" = "" := hget _ (by decide) (by decide)
  have hlevel : env "MCP_LOG_LEVEL" = "" := hget _ (by decide) (by decide)
  obtain ⟨c, hc⟩ := InitConfig_ok_of lib env
    (by simp [InitConfig_heartbeatInterval, hhb])
    (by simp [InitConfig_disableResources, hres])
    (by rw [hep]; decide)
    (by rw [hm]; exact hmode)
    (by rw [hlevel]; exact Or.inl hlower)
  refine ⟨c, hc, ?_⟩
  have hfields := (InitConfig_ok_fields lib env c hc).2.1
  rw [hm] at hfields
  exact hfields

/-- C13, as amended: the pipe-session mode (stdio) and the streaming-connection
network mode (http) are selectable, each by an environment with a non-empty
endpoint on which `InitConfig` succeeds and the mode selection of `main` takes
the branch of the mode; the publish/subscribe mode (sse) is not: no
configuration that `InitConfig` returns takes the sse branch. -/
theorem stdio_http_selectable (lib : GoLib)
    (hlower : lib.ToLower "" = "") (hhttp : lib.ToLower "http" = "http") :
    (∃ env c, env "VMANOMALY_ENDPOINT" ≠ "" ∧ InitConfig lib env = .ok c
        ∧ main.modeBranch c = main.ModeBranch.stdio)
      ∧ (∃ env c, env "VMANOMALY_ENDPOINT" ≠ "" ∧ InitConfig lib env = .ok c
        ∧ main.modeBranch c = main.ModeBranch.http)
      ∧ (∀ env c, InitConfig lib env = .ok c →
        main.modeBranch c ≠ main.ModeBranch.sse) := by
  refine ⟨?_, ?_, ?_⟩
  · obtain ⟨c, hc, hmode⟩ := startEnv_ok lib "" hlower (Or.inl hlower)
    refine ⟨_, c, by decide, hc, ?_⟩
    rw [if_pos hlower] at hmode
    exact (modeBranch_of_serverMode c).1 hmode
  · obtain ⟨c, hc, hmode⟩ := startEnv_ok lib "http" hlower (Or.inr (Or.inr hhttp))
    refine ⟨_, c, by decide, hc, ?_⟩
    rw [hhttp] at hmode
    exact (modeBranch_of_serverMode c).2 (by simpa using hmode)
  · intro env c hc
    rcases InitConfig_serverMode lib env c hc with h | h
    · rw [(modeBranch_of_serverMode c).1 h]
      decide
    · rw [(modeBranch_of_serverMode c).2 h]
      decide

/-- Witness of C13 as amended: the lower-casing of ASCII letters. -/
theorem stdio_http_selectable_witness :
    (∃ env c, env "VMANOMALY_ENDPOINT" ≠ "" ∧ InitConfig main.exampleLib env = .ok c
        ∧ main.modeBranch c = main.ModeBranch.stdio)
      ∧ (∃ env c, env "VMANOMALY_ENDPOINT" ≠ "" ∧ InitConfig main.exampleLib env = .ok c
        ∧ main.modeBranch c = main.ModeBranch.http) :=
  ⟨(stdio_http_selectable main.exampleLib (by decide) (by decide)).1,
    (stdio_http_selectable main.exampleLib (by decide) (by decide)).2.1⟩

/-- C13 as stated fails for the sse mode: with `MCP_SERVER_MODE=sse` and an
endpoint `InitConfig` returns an error, and no environment gives a
configuration that takes the sse branch of `main`. -/
theorem sse_not_selectable :
    InitConfig main.exampleLib main.sseEnv
        = .error "MCP_SERVER_MODE must be 'stdio' or 'http'"
      ∧ ¬ ∃ (lib : GoLib) (env : Env) (c : Config),
          InitConfig lib env = .ok c ∧ main.modeBranch c = main.ModeBranch.sse := by
  refine ⟨by decide, ?_⟩
  rintro ⟨lib, env, c, hc, hsse⟩
  rcases InitConfig_serverMode lib env c hc with h | h
  · rw [(modeBranch_of_serverMode c).1 h] at hsse
    exact absurd hsse (by decide)
  · rw [(modeBranch_of_serverMode c).2 h] at hsse
    exact absurd hsse (by decide)

theorem heartbeatInterval_ok (lib : GoLib) (env : Env) (interval : Int)
    (h : InitConfig_heartbeatInterval lib env = .ok interval) :
    (env "MCP_HEARTBEAT_INTERVAL" = "" → interval = 30 * time.Second)
      ∧ (env "MCP_HEARTBEAT_INTERVAL" ≠ "" →
        lib.ParseDuration (env "MCP_HEARTBEAT_INTERVAL") = .ok interval ∧ 0 ≤ interval) := by
  unfold InitConfig_heartbeatInterval at h
  by_cases hempty : env "MCP_HEARTBEAT_INTERVAL" = ""
  · simp only [hempty] at h
    refine ⟨fun _ => ?_, fun hne => absurd hempty hne⟩
    simpa using h.symm
  · refine ⟨fun he => absurd he hempty, fun _ => ?_⟩
    cases hparse : lib.ParseDuration (env "MCP_HEARTBEAT_INTERVAL") with
    | error err => simp [hempty, hparse] at h
    | ok parsed =>
      by_cases hneg : parsed < 0
      · simp [hempty, hparse, hneg] at h
      · simp [hempty, hparse, hneg] at h
        subst h
        exact ⟨rfl, not_lt.mp hneg⟩

theorem disableResources_ok (lib : GoLib) (env : Env) (flag : Bool)
    (h : InitConfig_disableResources lib env = .ok flag) :
    (env "MCP_DISABLE_RESOURCES" = "" → flag = false)
      ∧ (env "MCP_DISABLE_RESOURCES" ≠ "" →
        lib.ParseBool (env "MCP_DISABLE_RESOURCES") = .ok flag) := by
  unfold InitConfig_disableResources at h
  by_cases hempty : env "MCP_DISABLE_RESOURCES" = ""
  · simp only [hempty] at h
    refine ⟨fun _ => ?_, fun hne => absurd hempty hne⟩
    simpa using h.symm
  · refine ⟨fun he => absurd he hempty, fun _ => ?_⟩
    cases hparse : lib.ParseBool (env "MCP_DISABLE_RESOURCES") with
    | error err => simp [hempty, hparse] at h
    | ok parsed =>
      simp [hempty, hparse] at h
      subst h
      rfl

/-- C14: for every environment in which the endpoint is non-empty and every
other variable is empty, `InitConfig` succeeds with server mode stdio, listen
address "localhost:8080", log level "info", heartbeat interval 30s, resources
enabled, no disabled tool and an empty custom-header map (the lower-casing of
the library is taken to keep the empty string); and whenever `InitConfig`
succeeds, the accessors return the endpoint, log file and bearer token as set,
the lower-cased mode and log level and the listen address when non-empty, the
parsed heartbeat interval and resources flag when set, and the parsed headers
and disabled tools. -/
theorem InitConfig_defaults_and_accessors (lib : GoLib) (env : Env) :
    (lib.ToLower "" = "" → env "VMANOMALY_ENDPOINT" ≠ "" →
        env "MCP_SERVER_MODE" = "" → env "MCP_LISTEN_ADDR" = "" →
        env "MCP_LOG_LEVEL" = "" → env "MCP_LOG_FILE" = "" →
        env "VMANOMALY_BEARER_TOKEN" = "" → env "VMANOMALY_HEADERS" = "" →
        env "MCP_DISABLED_TOOLS" = "" → env "MCP_HEARTBEAT_INTERVAL" = "" →
        env "MCP_DISABLE_RESOURCES" = "" →
        ∃ c, InitConfig lib env = .ok c
          ∧ c.ServerMode = "stdio" ∧ c.IsStdio = true
          ∧ c.ListenAddr = "localhost:8080"
          ∧ c.LogLevel = "info"
          ∧ c.HeartbeatInterval = 30 * time.Second
          ∧ c.IsResourcesDisabled = false
          ∧ (∀ name, c.IsToolDisabled name = false)
          ∧ c.CustomHeaders = [])
      ∧ (∀ c, InitConfig lib env = .ok c →
        c.VmanomalyEndpoint = env "VMANOMALY_ENDPOINT"
          ∧ (lib.ToLower (env "MCP_SERVER_MODE") ≠ "" →
            c.ServerMode = lib.ToLower (env "MCP_SERVER_MODE"))
          ∧ (env "MCP_LISTEN_ADDR" ≠ "" → c.ListenAddr = env "MCP_LISTEN_ADDR")
          ∧ (lib.ToLower (env "MCP_LOG_LEVEL") ≠ "" →
            c.LogLevel = lib.ToLower (env "MCP_LOG_LEVEL"))
          ∧ c.LogFile = env "MCP_LOG_FILE"
          ∧ c.BearerToken = env "VMANOMALY_BEARER_TOKEN"
          ∧ (env "MCP_HEARTBEAT_INTERVAL" ≠ "" →
            lib.ParseDuration (env "MCP_HEARTBEAT_INTERVAL") = .ok c.HeartbeatInterval)
          ∧ (env "MCP_DISABLE_RESOURCES" ≠ "" →
            lib.ParseBool (env "MCP_DISABLE_RESOURCES") = .ok c.IsResourcesDisabled)
          ∧ c.CustomHeaders = parseCustomHeaders (env "VMANOMALY_HEADERS")
          ∧ c.disabledTools = some (InitConfig_disabledToolsMap env)) := by
  constructor
  · intro hlower hep hmode hlisten hlevel _ _ hheaders htools hhb hres
    obtain ⟨c, hc⟩ := InitConfig_ok_of lib env
      (by simp [InitConfig_heartbeatInterval, hhb])
      (by simp [InitConfig_disableResources, hres])
      hep
      (by rw [hmode]; exact Or.inl hlower)
      (by rw [hlevel]; exact Or.inl hlower)
    obtain ⟨_, h2, h3, h4, h5, h6, h7, _, _, h10⟩ := InitConfig_ok_fields lib env c hc
    rw [hmode, if_pos hlower] at h2
    rw [if_pos hlisten] at h3
    rw [hlevel, if_pos hlower] at h7
    refine ⟨c, hc, h2, ?_, h3, h7, (heartbeatInterval_ok lib env _ h5).1 hhb,
      (disableResources_ok lib env _ h6).1 hres, ?_, ?_⟩
    · simp [Config.IsStdio, h2]
    · intro name
      simp [Config.IsToolDisabled, h4, InitConfig_disabledToolsMap, htools]
    · rw [Config.CustomHeaders, h10, hheaders]
      rfl
  · intro c hc
    obtain ⟨h1, h2, h3, h4, h5, h6, h7, h8, h9, h10⟩ := InitConfig_ok_fields lib env c hc
    refine ⟨h1, ?_, ?_, ?_, h8, h9, ?_, ?_, h10, h4⟩
    · intro hne
      rw [Config.ServerMode, h2, if_neg hne]
    · intro hne
      rw [Config.ListenAddr, h3, if_neg hne]
    · intro hne
      rw [Config.LogLevel, h7, if_neg hne]
    · intro hne
      exact ((heartbeatInterval_ok lib env _ h5).2 hne).1
    · intro hne
      exact (disableResources_ok lib env _ h6).2 hne

/-- Witness of C14: the environments of the tests `Default values` and `Valid
configuration`. -/
theorem InitConfig_defaults_and_accessors_witness :
    (∃ c, InitConfig main.exampleLib main.defaultsEnv = .ok c
        ∧ c.ServerMode = "stdio" ∧ c.IsStdio = true
        ∧ c.ListenAddr = "localhost:8080"
        ∧ c.LogLevel = "info"
        ∧ c.HeartbeatInterval = 30 * time.Second
        ∧ c.IsResourcesDisabled = false
        ∧ (∀ name, c.IsToolDisabled name = false)
        ∧ c.CustomHeaders = [])
      ∧ (∀ c, InitConfig main.exampleLib main.validEnv = .ok c →
        c.ServerMode = "http" ∧ c.ListenAddr = "localhost:9090" ∧ c.LogLevel = "debug") :=
  ⟨(InitConfig_defaults_and_accessors main.exampleLib main.defaultsEnv).1
      (by decide) (by decide) (by decide) (by decide) (by decide) (by decide)
      (by decide) (by decide) (by decide) (by decide) (by decide),
    fun c hc =>
      ⟨((InitConfig_defaults_and_accessors main.exampleLib main.validEnv).2 c hc).2.1
          (by decide),
        ((InitConfig_defaults_and_accessors main.exampleLib main.validEnv).2 c hc).2.2.1
          (by decide),
        ((InitConfig_defaults_and_accessors main.exampleLib main.validEnv).2 c hc).2.2.2.1
          (by decide)⟩⟩

/-! ### Splitting and trimming -/

theorem splitChars_ne_nil (sep : Char) (l : List Char) : strings.splitChars sep l ≠ [] := by
  induction l with
  | nil => simp [strings.splitChars]
  | cons c cs ih =>
    unfold strings.splitChars
    split_ifs
    · simp
    · split <;> simp

theorem splitChars_no_sep (sep : Char) (l piece : List Char)
    (h : piece ∈ strings.splitChars sep l) : sep ∉ piece := by
  induction l generalizing piece with
  | nil =>
    simp [strings.splitChars] at h
    simp [h]
  | cons c cs ih =>
    unfold strings.splitChars at h
    split_ifs at h with hc
    · rcases List.mem_cons.mp h with h | h
      · simp [h]
      · exact ih piece h
    · split at h
      · rename_i p ps hsplit
        rcases List.mem_cons.mp h with h | h
        · subst h
          have hp : sep ∉ p := ih p (by rw [hsplit]; exact List.mem_cons_self _ _)
          intro hmem
          rcases List.mem_cons.mp hmem with h' | h'
          · exact hc h'.symm
          · exact hp h'
        · exact ih piece (by rw [hsplit]; exact List.mem_cons_of_mem _ h)
      · rename_i hsplit
        exact absurd hsplit (splitChars_ne_nil sep cs)

theorem cutChars_eq_none (sep : Char) (l : List Char) :
    strings.cutChars sep l = none ↔ sep ∉ l := by
  induction l with
  | nil => simp [strings.cutChars]
  | cons c cs ih =>
    unfold strings.cutChars
    by_cases hc : c = sep
    · simp [hc]
    · have hc' : ¬ sep = c := fun h => hc h.symm
      cases hcut : strings.cutChars sep cs with
      | none => simp [hc, hc', ih.mp hcut]
      | some ab =>
        have : sep ∈ cs := by
          by_contra hn
          rw [ih.mpr hn] at hcut
          exact Option.noConfusion hcut
        simp [hc, this]

theorem cutChars_append (sep : Char) (a b : List Char) (ha : sep ∉ a) :
    strings.cutChars sep (a ++ sep :: b) = some (a, b) := by
  induction a with
  | nil => simp [strings.cutChars]
  | cons c cs ih =>
    have hc : ¬ c = sep := fun h => ha (by simp [h])
    have hcs : sep ∉ cs := fun h => ha (List.mem_cons_of_mem _ h)
    simp [strings.cutChars, hc, ih hcs]

theorem cutChars_eq_some (sep : Char) (l a b : List Char)
    (h : strings.cutChars sep l = some (a, b)) : l = a ++ sep :: b ∧ sep ∉ a := by
  induction l generalizing a b with
  | nil => simp [strings.cutChars] at h
  | cons c cs ih =>
    unfold strings.cutChars at h
    by_cases hc : c = sep
    · simp [hc] at h
      obtain ⟨h1, h2⟩ := h
      subst h1 h2
      simp [hc]
    · simp only [hc, if_false] at h
      cases hcut : strings.cutChars sep cs with
      | none => simp [hcut] at h
      | some ab =>
        obtain ⟨a', b'⟩ := ab
        simp [hcut] at h
        obtain ⟨h1, h2⟩ := h
        subst h1 h2
        obtain ⟨hl, hn⟩ := ih a' b' hcut
        refine ⟨by simp [hl], ?_⟩
        intro hmem
        rcases List.mem_cons.mp hmem with h' | h'
        · exact hc h'.symm
        · exact hn h'

theorem dropWhile_append_stop (p : Char → Bool) (a b : List Char) (x : Char)
    (hx : p x = false) : (a ++ x :: b).dropWhile p = a.dropWhile p ++ x :: b := by
  induction a with
  | nil => simp [List.dropWhile, hx]
  | cons c cs ih =>
    by_cases hc : p c = true
    · simp [List.dropWhile, hc, ih]
    · simp [List.dropWhile, hc]

theorem rdropWhile_append_stop (p : Char → Bool) (a b : List Char) (x : Char)
    (hx : p x = false) : (a ++ x :: b).rdropWhile p = a ++ x :: b.rdropWhile p := by
  unfold List.rdropWhile
  have h : (a ++ x :: b).reverse = b.reverse ++ x :: a.reverse := by simp
  rw [h, dropWhile_append_stop p _ _ x hx]
  simp

theorem dropWhile_decompose (p : Char → Bool) (l : List Char) :
    (∀ c ∈ l, p c = true) ∨
      ∃ a x r, l = a ++ x :: r ∧ (∀ c ∈ a, p c = true) ∧ p x = false := by
  induction l with
  | nil => left; simp
  | cons c cs ih =>
    by_cases hc : p c = true
    · rcases ih with h | ⟨a, x, r, hl, ha, hx⟩
      · left
        intro d hd
        rcases List.mem_cons.mp hd with h' | h'
        · rw [h']; exact hc
        · exact h d h'
      · right
        refine ⟨c :: a, x, r, by simp [hl], ?_, hx⟩
        intro d hd
        rcases List.mem_cons.mp hd with h' | h'
        · rw [h']; exact hc
        · exact ha d h'
    · right
      exact ⟨[], c, cs, rfl, by simp, by simpa using hc⟩

theorem dropWhile_all (p : Char → Bool) (l : List Char) (h : ∀ c ∈ l, p c = true) :
    l.dropWhile p = [] := by
  induction l with
  | nil => rfl
  | cons c cs ih =>
    simp [List.dropWhile, h c (List.mem_cons_self _ _),
      ih (fun d hd => h d (List.mem_cons_of_mem _ hd))]

theorem rdropWhile_all (p : Char → Bool) (l : List Char) (h : ∀ c ∈ l, p c = true) :
    l.rdropWhile p = [] := by
  unfold List.rdropWhile
  rw [dropWhile_all p l.reverse (fun c hc => h c (List.mem_reverse.mp hc))]
  rfl

theorem dropWhile_rdropWhile_comm (p : Char → Bool) (l : List Char) :
    (l.rdropWhile p).dropWhile p = (l.dropWhile p).rdropWhile p := by
  rcases dropWhile_decompose p l with h | ⟨a, x, r, hl, ha, hx⟩
  · rw [rdropWhile_all p l h, dropWhile_all p l h]
    rfl
  · subst hl
    rw [rdropWhile_append_stop p a r x hx, dropWhile_append_stop p a _ x hx,
      dropWhile_append_stop p a r x hx, dropWhile_all p a ha]
    simpa using (rdropWhile_append_stop p [] r x hx).symm

theorem trimChars_dropWhile (p : Char → Bool) (l : List Char) :
    strings.trimChars p (l.dropWhile p) = strings.trimChars p l := by
  unfold strings.trimChars
  rw [List.dropWhile_idempotent]

theorem trimChars_rdropWhile (p : Char → Bool) (l : List Char) :
    strings.trimChars p (l.rdropWhile p) = strings.trimChars p l := by
  unfold strings.trimChars
  rw [dropWhile_rdropWhile_comm, List.rdropWhile_idempotent]

theorem trimChars_append_stop (p : Char → Bool) (a b : List Char) (x : Char)
    (hx : p x = false) :
    strings.trimChars p (a ++ x :: b) = a.dropWhile p ++ x :: b.rdropWhile p := by
  unfold strings.trimChars
  rw [dropWhile_append_stop p a b x hx, rdropWhile_append_stop p _ b x hx]

theorem trimChars_subset (p : Char → Bool) (l : List Char) (c : Char)
    (h : c ∈ strings.trimChars p l) : c ∈ l := by
  unfold strings.trimChars at h
  exact (List.dropWhile_suffix p).subset ((List.rdropWhile_prefix p _).subset h)

theorem trimChars_congr (p q : Char → Bool) (l : List Char)
    (h : ∀ c ∈ l, p c = q c) : strings.trimChars p l = strings.trimChars q l := by
  have hd : ∀ (l : List Char), (∀ c ∈ l, p c = q c) → l.dropWhile p = l.dropWhile q := by
    intro l
    induction l with
    | nil => intro _; rfl
    | cons c cs ih =>
      intro h
      have hc := h c (List.mem_cons_self _ _)
      simp only [List.dropWhile, hc]
      cases q c
      · rfl
      · exact ih (fun d hd => h d (List.mem_cons_of_mem _ hd))
  unfold strings.trimChars List.rdropWhile
  rw [hd l h]
  rw [hd _ (fun c hc =>
    h c ((List.dropWhile_suffix q).subset (List.mem_reverse.mp hc)))]


/-! ### Maps built by assignments -/

theorem lookup_filter_ne {β : Type} (m : List (String × β)) (k k' : String) (h : k ≠ k') :
    (m.filter (fun entry => entry.1 != k')).lookup k = m.lookup k := by
  induction m with
  | nil => rfl
  | cons p ps ih =>
    obtain ⟨pk, pv⟩ := p
    by_cases hp : pk = k'
    · subst hp
      have hk : (k == pk) = false := by simpa using h
      simp [List.filter, List.lookup, hk, ih]
    · have hp' : (pk != k') = true := by simpa using hp
      simp only [List.filter, hp', List.lookup]
      cases k == pk
      · exact ih
      · rfl

theorem lookup_mapSet {β : Type} (m : List (String × β)) (k k' : String) (v : β) :
    (mapSet m k' v).lookup k = if k = k' then some v else m.lookup k := by
  unfold mapSet
  by_cases h : k = k'
  · simp [List.lookup, h]
  · have hk : (k == k') = false := by simpa using h
    simp [List.lookup, hk, h, lookup_filter_ne m k k' h]

theorem lookup_append_single {β : Type} (l : List (String × β)) (k k' : String) (v : β) :
    (l ++ [(k', v)]).lookup k
      = match l.lookup k with
        | some w => some w
        | none => if k = k' then some v else none := by
  induction l with
  | nil =>
    by_cases h : k = k'
    · simp [List.lookup, h]
    · have hk : (k == k') = false := by simpa using h
      simp [List.lookup, hk, h]
  | cons p ps ih =>
    obtain ⟨pk, pv⟩ := p
    simp only [List.cons_append, List.lookup]
    cases k == pk
    · exact ih
    · rfl

/-- The lookup in a map built by a fold of optional assignments is the lookup
of the last assignment to the key. -/
theorem foldl_mapSet_lookup {α β : Type} (f : α → Option (String × β))
    (g : List (String × β) → α → List (String × β))
    (hg : ∀ m e, g m e = (f e).elim m (fun kv => mapSet m kv.1 kv.2))
    (es : List α) (m : List (String × β)) (k : String) :
    (es.foldl g m).lookup k
      = match (es.filterMap f).reverse.lookup k with
        | some v => some v
        | none => m.lookup k := by
  induction es generalizing m with
  | nil => simp [List.lookup]
  | cons e es ih =>
    simp only [List.foldl_cons]
    rw [ih, hg]
    cases hf : f e with
    | none => simp [List.filterMap_cons, hf]
    | some kv =>
      obtain ⟨k', v⟩ := kv
      simp only [List.filterMap_cons, hf, List.reverse_cons, Option.elim]
      rw [lookup_append_single, lookup_mapSet]
      cases (List.filterMap f es).reverse.lookup k with
      | some w => rfl
      | none =>
        by_cases h : k = k'
        · simp [h]
        · simp [h]

theorem lookup_mem {β : Type} (l : List (String × β)) (k : String) (v : β)
    (h : l.lookup k = some v) : (k, v) ∈ l := by
  induction l with
  | nil => simp [List.lookup] at h
  | cons p ps ih =>
    obtain ⟨pk, pv⟩ := p
    by_cases hk : k = pk
    · subst hk
      simp [List.lookup] at h
      simp [h]
    · have hk' : (k == pk) = false := by simpa using hk
      simp only [List.lookup, hk'] at h
      exact List.mem_cons_of_mem _ (ih h)

theorem lookup_some_true_iff (l : List (String × Bool)) (k : String)
    (hall : ∀ p ∈ l, p.2 = true) :
    l.lookup k = some true ↔ ∃ p ∈ l, p.1 = k := by
  induction l with
  | nil => simp [List.lookup]
  | cons p ps ih =>
    obtain ⟨pk, pv⟩ := p
    have hpv : pv = true := hall (pk, pv) (List.mem_cons_self _ _)
    have ih' := ih (fun q hq => hall q (List.mem_cons_of_mem _ hq))
    by_cases h : k = pk
    · subst h
      simp [List.lookup, hpv]
    · have hk : (k == pk) = false := by simpa using h
      have h' : ¬ pk = k := fun e => h e.symm
      simp [List.lookup, hk, ih', h']


/-! ### The disabled tools -/

theorem Trim_comma_free (entry : String) (h : ',' ∉ entry.data) :
    strings.Trim entry " ," = strings.Trim entry " " := by
  unfold strings.Trim
  congr 1
  apply trimChars_congr
  intro c hc
  have hne : c ≠ ',' := fun e => h (e ▸ hc)
  have h1 : " ,".data = [' ', ','] := rfl
  have h2 : " ".data = [' '] := rfl
  rw [h1, h2]
  have hc' : (c == ',') = false := by simpa using hne
  simp [List.contains, List.elem, hc']

theorem Split_no_sep (s : String) (sep : Char) (entry : String)
    (h : entry ∈ strings.Split s sep) : sep ∉ entry.data := by
  unfold strings.Split at h
  obtain ⟨piece, hpiece, rfl⟩ := List.mem_map.mp h
  exact splitChars_no_sep sep s.data piece hpiece

theorem disabledToolsMap_lookup (env : Env) (name : String) :
    ((InitConfig_disabledToolsMap env).lookup name = some true ↔
        name ≠ "" ∧ ∃ entry ∈ strings.Split (env "MCP_DISABLED_TOOLS") ',',
          strings.Trim entry " " = name)
      ∧ ((InitConfig_disabledToolsMap env).lookup name = some true
        ∨ (InitConfig_disabledToolsMap env).lookup name = none) := by
  unfold InitConfig_disabledToolsMap
  by_cases hempty : env "MCP_DISABLED_TOOLS" = ""
  · simp only [hempty, ne_eq, not_true_eq_false, if_false]
    refine ⟨?_, Or.inr rfl⟩
    constructor
    · intro h
      simp [List.lookup] at h
    · rintro ⟨hne, entry, hentry, htrim⟩
      have h1 : strings.Split "" ',' = [""] := by decide
      rw [h1] at hentry
      have h2 : entry = "" := by simpa using hentry
      rw [h2] at htrim
      have h3 : strings.Trim "" " " = "" := by decide
      rw [h3] at htrim
      exact absurd htrim.symm hne
  · simp only [ne_eq, hempty, not_false_eq_true, if_true]
    rw [foldl_mapSet_lookup
      (fun tool : String =>
        if strings.Trim tool " ," ≠ "" then some (strings.Trim tool " ,", true) else none)
      _ ?_]
    swap
    · intro m e
      by_cases h : strings.Trim e " ," = ""
      · simp [h]
      · simp [h]
    have hall : ∀ p ∈ ((strings.Split (env "MCP_DISABLED_TOOLS") ',').filterMap
        (fun tool : String =>
          if strings.Trim tool " ," ≠ "" then some (strings.Trim tool " ,", true)
          else none)).reverse, p.2 = true := by
      intro p hp
      obtain ⟨e, _, he⟩ := List.mem_filterMap.mp (List.mem_reverse.mp hp)
      by_cases h : strings.Trim e " ," = ""
      · simp [h] at he
      · simp [h] at he
        rw [← he]
    have hiff := lookup_some_true_iff _ name hall
    have hmem : (∃ p ∈ ((strings.Split (env "MCP_DISABLED_TOOLS") ',').filterMap
        (fun tool : String =>
          if strings.Trim tool " ," ≠ "" then some (strings.Trim tool " ,", true)
          else none)).reverse, p.1 = name) ↔
        (name ≠ "" ∧ ∃ entry ∈ strings.Split (env "MCP_DISABLED_TOOLS") ',',
          strings.Trim entry " " = name) := by
      constructor
      · rintro ⟨p, hp, hname⟩
        obtain ⟨e, hmem, he⟩ := List.mem_filterMap.mp (List.mem_reverse.mp hp)
        have hcomma := Trim_comma_free e (Split_no_sep _ _ e hmem)
        by_cases h : strings.Trim e " ," = ""
        · simp [h] at he
        · simp [h] at he
          rw [← he] at hname
          simp only at hname
          refine ⟨?_, e, hmem, ?_⟩
          · rw [← hname]; exact h
          · rw [← hcomma]; exact hname
      · rintro ⟨hne, e, hmem, htrim⟩
        have hcomma := Trim_comma_free e (Split_no_sep _ _ e hmem)
        refine ⟨(name, true), ?_, rfl⟩
        apply List.mem_reverse.mpr
        apply List.mem_filterMap.mpr
        refine ⟨e, hmem, ?_⟩
        rw [hcomma, htrim]
        simp [hne]
    constructor
    · cases hl : List.lookup name ((strings.Split (env "MCP_DISABLED_TOOLS") ',').filterMap
          (fun tool : String =>
            if strings.Trim tool " ," ≠ "" then some (strings.Trim tool " ,", true)
            else none)).reverse with
      | none =>
        rw [hl] at hiff
        simp only [List.lookup]
        rw [← hmem, ← hiff]
      | some v =>
        rw [hl] at hiff
        simp only
        rw [← hmem, ← hiff]
    · cases hl : List.lookup name ((strings.Split (env "MCP_DISABLED_TOOLS") ',').filterMap
          (fun tool : String =>
            if strings.Trim tool " ," ≠ "" then some (strings.Trim tool " ,", true)
            else none)).reverse with
      | none => right; rfl
      | some v =>
        left
        have hv : v = true := by
          have := lookup_mem _ _ _ hl
          exact hall (name, v) this
        rw [hv]

/-! ### The custom headers -/

theorem mk_ne_empty (l : List Char) : String.mk l ≠ "" ↔ l ≠ [] := by
  constructor
  · intro h hl
    exact h (by rw [hl])
  · intro h hs
    have : (String.mk l).data = ("" : String).data := by rw [hs]
    exact h this

theorem parseCustomHeaders_step (m : List (String × String)) (header : String) :
    parseCustomHeaders_header m header
      = (headerEntrySpec header).elim m (fun kv => mapSet m kv.1 kv.2) := by
  unfold parseCustomHeaders_header
  have hsp : unicode.IsSpace '=' = false := by decide
  cases hcut : strings.cutChars '=' header.data with
  | none =>
    have hno : '=' ∉ header.data := (cutChars_eq_none _ _).mp hcut
    have hno' : '=' ∉ strings.trimChars unicode.IsSpace header.data :=
      fun h => hno (trimChars_subset _ _ _ h)
    have hcut' := (cutChars_eq_none '=' _).mpr hno'
    simp only [headerEntrySpec, hcut, strings.TrimSpace, strings.SplitN2, hcut', Option.elim]
    split_ifs
    all_goals rfl
  | some ab =>
    obtain ⟨a, b⟩ := ab
    obtain ⟨hdata, hna⟩ := cutChars_eq_some _ _ _ _ hcut
    have htrim : strings.trimChars unicode.IsSpace header.data
        = a.dropWhile unicode.IsSpace ++ '=' :: b.rdropWhile unicode.IsSpace := by
      rw [hdata, trimChars_append_stop _ _ _ _ hsp]
    have hna' : '=' ∉ a.dropWhile unicode.IsSpace :=
      fun h => hna ((List.dropWhile_suffix _).subset h)
    have hcut' := cutChars_append '=' _ (b.rdropWhile unicode.IsSpace) hna'
    have hne : String.mk (a.dropWhile unicode.IsSpace ++ '=' :: b.rdropWhile unicode.IsSpace)
        ≠ "" := (mk_ne_empty _).mpr (by simp)
    simp only [headerEntrySpec, hcut, strings.TrimSpace, strings.SplitN2, htrim, hcut',
      trimChars_dropWhile, trimChars_rdropWhile, hne, ne_eq, not_false_eq_true, if_true]
    by_cases hkv : ¬ String.mk (strings.trimChars unicode.IsSpace a) = ""
        ∧ ¬ String.mk (strings.trimChars unicode.IsSpace b) = ""
    · simp only [hkv, and_self, not_false_eq_true, if_true, Option.elim]
    · simp only [hkv, if_false, Option.elim]

theorem parseCustomHeaders_empty : parseCustomHeaders "" = [] := by decide

theorem parseCustomHeaders_lookup (headersEnv key : String) :
    (parseCustomHeaders headersEnv).lookup key = parseCustomHeadersSpec headersEnv key := by
  by_cases hempty : headersEnv = ""
  · subst hempty
    have hspec : ((strings.Split "" ',').filterMap headerEntrySpec).reverse = [] := by decide
    rw [parseCustomHeaders_empty, parseCustomHeadersSpec, hspec]
  · unfold parseCustomHeaders parseCustomHeadersSpec
    simp only [hempty, if_false]
    rw [foldl_mapSet_lookup headerEntrySpec _ ?_]
    · cases List.lookup key (List.filterMap headerEntrySpec
          (strings.Split headersEnv ',')).reverse <;> rfl
    · intro m e
      exact parseCustomHeaders_step m e

theorem mapSet_keys_nodup {β : Type} (m : List (String × β)) (k : String) (v : β)
    (h : (m.map Prod.fst).Nodup) : ((mapSet m k v).map Prod.fst).Nodup := by
  unfold mapSet
  rw [List.map_cons, List.nodup_cons]
  constructor
  · intro hmem
    obtain ⟨p, hp, hk⟩ := List.mem_map.mp hmem
    have := (List.mem_filter.mp hp).2
    simp [hk] at this
  · exact (List.filter_sublist _).map Prod.fst |>.nodup h

theorem parseCustomHeaders_nodup (headersEnv : String) :
    ((parseCustomHeaders headersEnv).map Prod.fst).Nodup := by
  unfold parseCustomHeaders
  by_cases hempty : headersEnv = ""
  · simp [hempty]
  · simp only [hempty, if_false]
    have hfold : ∀ (es : List String) (m : List (String × String)),
        (m.map Prod.fst).Nodup →
        ((es.foldl parseCustomHeaders_header m).map Prod.fst).Nodup := by
      intro es
      induction es with
      | nil => intro m hm; exact hm
      | cons e es ih =>
        intro m hm
        simp only [List.foldl_cons]
        apply ih
        rw [parseCustomHeaders_step]
        cases headerEntrySpec e with
        | none => exact hm
        | some kv => exact mapSet_keys_nodup m kv.1 kv.2 hm
    exact hfold _ [] (by simp)


/-- C15: for every header string, the map that `parseCustomHeaders` returns
holds under each key the value of the specification: that of the last
comma-separated entry containing `=` whose text before the first `=`, with the
surrounding white space removed, is the key, and whose text after it, trimmed
likewise, is the value, both non-empty; entries without `=` or with an empty key
or value add nothing; each key is held once; the empty string gives the empty
map. -/
theorem parseCustomHeaders_refines_spec (headersEnv : String) :
    (∀ key, (parseCustomHeaders headersEnv).lookup key
        = parseCustomHeadersSpec headersEnv key)
      ∧ ((parseCustomHeaders headersEnv).map Prod.fst).Nodup
      ∧ parseCustomHeaders "" = [] :=
  ⟨fun key => parseCustomHeaders_lookup headersEnv key,
    parseCustomHeaders_nodup headersEnv, parseCustomHeaders_empty⟩

/-- Witness of C15: a later entry overrides an earlier one, white space around
key and value is removed, and entries without `=` or with an empty side are
ignored. -/
theorem parseCustomHeaders_refines_spec_witness :
    (parseCustomHeaders "a=1, b = x=y ,invalid, =3,c= ,a=2").lookup "a" = some "2"
      ∧ (parseCustomHeaders "a=1, b = x=y ,invalid, =3,c= ,a=2").lookup "b" = some "x=y"
      ∧ (parseCustomHeaders "a=1, b = x=y ,invalid, =3,c= ,a=2").lookup "c" = none
      ∧ (parseCustomHeaders "a=1, b = x=y ,invalid, =3,c= ,a=2").lookup "invalid" = none :=
  ⟨((parseCustomHeaders_refines_spec _).1 "a").trans (by decide),
    ((parseCustomHeaders_refines_spec _).1 "b").trans (by decide),
    ((parseCustomHeaders_refines_spec _).1 "c").trans (by decide),
    ((parseCustomHeaders_refines_spec _).1 "invalid").trans (by decide)⟩

/-- C16: for every environment on which `InitConfig` succeeds and every tool
name, `IsToolDisabled` is true if and only if the name is non-empty and equals
one of the comma-separated entries of `MCP_DISABLED_TOOLS` after removal of the
leading and trailing spaces of the entry; with the variable empty no tool is
disabled. -/
theorem IsToolDisabled_iff (lib : GoLib) (env : Env) (c : Config)
    (h : InitConfig lib env = .ok c) (name : String) :
    (c.IsToolDisabled name = true ↔
        name ≠ "" ∧ ∃ entry ∈ strings.Split (env "MCP_DISABLED_TOOLS") ',',
          strings.Trim entry " " = name)
      ∧ (env "MCP_DISABLED_TOOLS" = "" → c.IsToolDisabled name = false) := by
  have htools := (InitConfig_ok_fields lib env c h).2.2.2.1
  obtain ⟨hiff, hcases⟩ := disabledToolsMap_lookup env name
  have hdis : c.IsToolDisabled name = true ↔
      (InitConfig_disabledToolsMap env).lookup name = some true := by
    unfold Config.IsToolDisabled
    rw [htools]
    rcases hcases with hl | hl
    · simp [hl]
    · simp [hl]
  refine ⟨hdis.trans hiff, ?_⟩
  intro hempty
  unfold Config.IsToolDisabled
  rw [htools]
  simp [InitConfig_disabledToolsMap, hempty]

/-- Witness of C16: the environment of the test `Valid configuration`, where
`tool1` and `tool2` are disabled and `query_metrics` is not. -/
theorem IsToolDisabled_iff_witness :
    main.validConfig.IsToolDisabled "tool2" = true
      ∧ ¬ main.validConfig.IsToolDisabled "query_metrics" = true :=
  ⟨((IsToolDisabled_iff main.exampleLib main.validEnv main.validConfig (by decide)
      "tool2").1).mpr ⟨by decide, "tool2", by decide, by decide⟩,
    fun h =>
      absurd
        (((IsToolDisabled_iff main.exampleLib main.validEnv main.validConfig (by decide)
          "query_metrics").1).mp h)
        (by decide)⟩

/-! ### The health endpoints and the lifecycle -/

open main in
theorem step_rank (lib : GoLib) (env : Env) (st : ProcState) (ev : Event) :
    st.pc.rank ≤ (step lib env st ev).pc.rank := by
  unfold step
  split <;> simp_all [Pc.rank]

open main in
/-- The flag `isReady` is true where `main` waits for the termination signal,
and is true nowhere else while the process runs. -/
theorem step_ready (lib : GoLib) (env : Env) (st : ProcState) (ev : Event)
    (h : (st.isReady = true → st.pc = Pc.Listening ∨ ∃ n, st.pc = Pc.Stopped n)
      ∧ (st.pc = Pc.Listening → st.isReady = true)) :
    ((step lib env st ev).isReady = true →
        (step lib env st ev).pc = Pc.Listening ∨ ∃ n, (step lib env st ev).pc = Pc.Stopped n)
      ∧ ((step lib env st ev).pc = Pc.Listening → (step lib env st ev).isReady = true) := by
  obtain ⟨h1, h2⟩ := h
  unfold step
  split
  · rename_i hpc
    have hflag : st.isReady = false := by
      cases hr : st.isReady
      · rfl
      · rcases h1 hr with h | ⟨n, h⟩ <;> rw [hpc] at h <;> cases h
    unfold startup
    split
    · simp [hflag]
    · split
      · simp [hflag]
      · simp [hflag]
      · split <;> simp [hflag]
  all_goals simp_all

open main in
/-- The class of a state in the order not yet ready (0), ready (1), no longer
ready (2). -/
theorem step_class (lib : GoLib) (env : Env) (st : ProcState) (ev : Event)
    (h : (st.isReady = true → st.pc = Pc.Listening ∨ ∃ n, st.pc = Pc.Stopped n)
      ∧ (st.pc = Pc.Listening → st.isReady = true)) :
    (st.isReady = true → (step lib env st ev).isReady = true
        ∨ 2 ≤ (step lib env st ev).pc.rank)
      ∧ (st.isReady = false → 2 ≤ st.pc.rank →
        (step lib env st ev).isReady = false) := by
  obtain ⟨h1, h2⟩ := h
  constructor
  · intro hr
    rcases h1 hr with hpc | ⟨n, hpc⟩
    · unfold step
      split <;> simp_all [Pc.rank]
    · unfold step
      split <;> simp_all [Pc.rank]
  · intro hr hrank
    unfold step
    split <;> simp_all [Pc.rank]


open main in
theorem step_readinessClass (lib : GoLib) (env : Env) (st : ProcState) (ev : Event)
    (h : (st.isReady = true → st.pc = Pc.Listening ∨ ∃ n, st.pc = Pc.Stopped n)
      ∧ (st.pc = Pc.Listening → st.isReady = true)) :
    st.readinessClass ≤ (step lib env st ev).readinessClass := by
  obtain ⟨hkeep, hfalse⟩ := step_class lib env st ev h
  have hrank := step_rank lib env st ev
  unfold ProcState.readinessClass
  cases hr : st.isReady
  · by_cases hlow : st.pc.rank ≤ 1
    · simp [hlow]
    · have h2 : 2 ≤ st.pc.rank := by omega
      have hnext := hfalse hr h2
      have hlow' : ¬ (step lib env st ev).pc.rank ≤ 1 := by omega
      simp [hlow, hnext, hlow']
  · rcases hkeep hr with hnext | hnext
    · simp [hnext]
    · cases hr' : (step lib env st ev).isReady
      · have hlow' : ¬ (step lib env st ev).pc.rank ≤ 1 := by omega
        simp [hlow']
      · simp

open main in
/-- Along a trace a quantity that no step decreases, under an invariant that
every step keeps, never decreases. -/
theorem trace_pairwise (lib : GoLib) (env : Env) (P : ProcState → Prop)
    (r : ProcState → Nat)
    (hP : ∀ st ev, P st → P (step lib env st ev))
    (hr : ∀ st ev, P st → r st ≤ r (step lib env st ev))
    (evs : List Event) (st : ProcState) (hst : P st) :
    (trace lib env st evs).Pairwise (fun s t => r s ≤ r t)
      ∧ ∀ t ∈ trace lib env st evs, P t ∧ r st ≤ r t := by
  induction evs generalizing st with
  | nil => simp [trace, hst]
  | cons ev evs ih =>
    obtain ⟨hpair, hall⟩ := ih (step lib env st ev) (hP st ev hst)
    have hstep := hr st ev hst
    unfold trace
    refine ⟨List.pairwise_cons.mpr ⟨?_, hpair⟩, ?_⟩
    · intro t ht
      exact le_trans hstep (hall t ht).2
    · intro t ht
      rcases List.mem_cons.mp ht with h | h
      · rw [h]
        exact ⟨hst, le_refl _⟩
      · exact ⟨(hall t h).1, le_trans hstep (hall t h).2⟩

theorem flags_after (l : List Nat) (h : ∀ n ∈ l, 2 ≤ n) :
    l.map (fun n => decide (n = 1)) = List.replicate l.length false := by
  induction l with
  | nil => rfl
  | cons n ns ih =>
    have hn : n ≠ 1 := by
      have := h n (List.mem_cons_self _ _)
      omega
    simp [List.replicate, hn, ih (fun m hm => h m (List.mem_cons_of_mem _ hm))]

theorem flags_from_ready (l : List Nat) (hs : l.Pairwise (fun a b => a ≤ b))
    (h : ∀ n ∈ l, 1 ≤ n) :
    ∃ b c, l.map (fun n => decide (n = 1))
      = List.replicate b true ++ List.replicate c false := by
  induction l with
  | nil => exact ⟨0, 0, rfl⟩
  | cons n ns ih =>
    obtain ⟨hn, hns⟩ := List.pairwise_cons.mp hs
    by_cases h1 : n = 1
    · obtain ⟨b, c, hbc⟩ := ih hns (fun m hm => h m (List.mem_cons_of_mem _ hm))
      refine ⟨b + 1, c, ?_⟩
      simp [List.replicate, h1, hbc]
    · have h2 : ∀ m ∈ n :: ns, 2 ≤ m := by
        intro m hm
        have hn1 := h n (List.mem_cons_self _ _)
        rcases List.mem_cons.mp hm with e | e
        · omega
        · have := hn m e
          omega
      exact ⟨0, (n :: ns).length, by simpa using flags_after _ h2⟩

theorem flags_of_sorted (l : List Nat) (hs : l.Pairwise (fun a b => a ≤ b)) :
    ∃ a b c, l.map (fun n => decide (n = 1))
      = List.replicate a false ++ List.replicate b true ++ List.replicate c false := by
  induction l with
  | nil => exact ⟨0, 0, 0, rfl⟩
  | cons n ns ih =>
    obtain ⟨hn, hns⟩ := List.pairwise_cons.mp hs
    by_cases h0 : n = 0
    · obtain ⟨a, b, c, habc⟩ := ih hns
      refine ⟨a + 1, b, c, ?_⟩
      simp [List.replicate, h0, habc]
    · have h1 : ∀ m ∈ n :: ns, 1 ≤ m := by
        intro m hm
        rcases List.mem_cons.mp hm with e | e
        · omega
        · have := hn m e
          omega
      obtain ⟨b, c, hbc⟩ := flags_from_ready _ hs h1
      exact ⟨0, b, c, by simpa using hbc⟩

open main in
theorem isReady_eq_class (st : ProcState) :
    st.isReady = decide (st.readinessClass = 1) := by
  unfold ProcState.readinessClass
  cases st.isReady
  · by_cases h : st.pc.rank ≤ 1 <;> simp [h]
  · simp


open main in
theorem initialState_ready :
    (initialState.isReady = true →
        initialState.pc = Pc.Listening ∨ ∃ n, initialState.pc = Pc.Stopped n)
      ∧ (initialState.pc = Pc.Listening → initialState.isReady = true) := by
  constructor
  · intro h
    cases h
  · intro h
    cases h

open main in
theorem enter_listening (lib : GoLib) (env : Env) (st : ProcState) (ev : Event)
    (h : (step lib env st ev).pc = Pc.Listening) :
    st.pc = Pc.Listening
      ∨ (st.pc = Pc.Starting ∧ ev = Event.start none
        ∧ ∃ addr, (step lib env st ev).actions
            = st.actions ++ [Action.listen addr, Action.serve, Action.storeReady true]) := by
  unfold step at h ⊢
  split at h <;> simp_all
  rename_i listenErr
  unfold startup at h ⊢
  split at h
  · simp at h
  · split at h
    · simp at h
    · simp at h
    · split at h
      · simp at h
      · simp

open main in
open http in
/-- C17: in every state that the process reaches and in which it has not
ended, the readiness handler answers 200 exactly when `main` waits for the
termination signal (the Listening state) and 503 otherwise: it answers 200
exactly when the flag `isReady` is true, and the flag is true exactly in that
state, which is entered when the listener has been started and `hs.Serve`
launched, and is left for the drain, with the flag false, when the termination
signal is received. -/
theorem readiness_iff_listening (lib : GoLib) (env : Env) (evs : List Event)
    (st : ProcState) (hst : st ∈ trace lib env initialState evs)
    (halive : ∀ n, st.pc ≠ Pc.Stopped n) :
    (healthMux st.isReady "/health/readiness"
        = some (readinessHandler st.isReady newResponseWriter))
      ∧ ((readinessHandler st.isReady newResponseWriter).status = some StatusOK ↔
        st.isReady = true)
      ∧ ((readinessHandler st.isReady newResponseWriter).status = some StatusOK ↔
        st.pc = Pc.Listening)
      ∧ ((readinessHandler st.isReady newResponseWriter).status
          = some StatusServiceUnavailable ↔ st.pc ≠ Pc.Listening)
      ∧ (st.isReady = true ↔ st.pc = Pc.Listening)
      ∧ (∀ ev, (step lib env st ev).pc = Pc.Listening →
        st.pc = Pc.Listening
          ∨ (st.pc = Pc.Starting ∧ ev = Event.start none
            ∧ ∃ addr, (step lib env st ev).actions
                = st.actions
                  ++ [Action.listen addr, Action.serve, Action.storeReady true]))
      ∧ (st.pc = Pc.Listening →
        (step lib env st Event.signal).pc = Pc.Draining
          ∧ (step lib env st Event.signal).isReady = false) := by
  have hinv := ((trace_pairwise lib env
    (fun st => (st.isReady = true → st.pc = Pc.Listening ∨ ∃ n, st.pc = Pc.Stopped n)
      ∧ (st.pc = Pc.Listening → st.isReady = true))
    (fun _ => 0)
    (fun st ev h => step_ready lib env st ev h)
    (fun _ _ _ => le_refl _) evs initialState initialState_ready).2 st hst).1
  have hiff : st.isReady = true ↔ st.pc = Pc.Listening := by
    constructor
    · intro h
      rcases hinv.1 h with h' | ⟨n, h'⟩
      · exact h'
      · exact absurd h' (halive n)
    · exact hinv.2
  have h200 : (readinessHandler st.isReady newResponseWriter).status = some StatusOK ↔
      st.isReady = true := by
    cases st.isReady <;> decide
  have h503 : (readinessHandler st.isReady newResponseWriter).status
      = some StatusServiceUnavailable ↔ ¬ st.isReady = true := by
    cases st.isReady <;> decide
  refine ⟨by simp [healthMux], h200, h200.trans hiff, h503.trans (not_congr hiff), hiff,
    fun ev h => enter_listening lib env st ev h, ?_⟩
  intro hpc
  simp [step, hpc]

open main in
open http in
/-- Witness of C17: the http configuration of the tests, after the start with a
listener and no event since. -/
theorem readiness_iff_listening_witness :
    (readinessHandler (step exampleLib validEnv initialState (Event.start none)).isReady
        newResponseWriter).status = some StatusOK
      ∧ (step exampleLib validEnv
          (step exampleLib validEnv initialState (Event.start none)) Event.signal).isReady
        = false := by
  have h := readiness_iff_listening exampleLib validEnv [Event.start none]
    (step exampleLib validEnv initialState (Event.start none)) (by decide)
    (fun n hn => by
      have hpc : (step exampleLib validEnv initialState (Event.start none)).pc
          = Pc.Listening := by decide
      rw [hpc] at hn
      cases hn)
  exact ⟨h.2.2.1.mpr (by decide), (h.2.2.2.2.2.2 (by decide)).2⟩

open main in
open http in
/-- C18: for every value of the readiness flag and every place of the process,
the liveness endpoint answers 200 with the body "OK\n". -/
theorem liveness_always_ok (st : ProcState) :
    healthMux st.isReady "/health/liveness" = some (livenessHandler newResponseWriter)
      ∧ (livenessHandler newResponseWriter).status = some StatusOK
      ∧ (livenessHandler newResponseWriter).status = some 200
      ∧ (livenessHandler newResponseWriter).body = "OK\n" := by
  refine ⟨by simp [healthMux], by decide, by decide, by decide⟩

open main in
/-- C19: in every run of `main` the places follow the order Starting,
Listening, Draining, ShuttingDown, Stopped without a step back, and the values
of the readiness flag along the run are a stretch of false, then a stretch of
true, then a stretch of false (each possibly empty): the flag goes from false to
true at most once, from true to false at most once, and once false after having
been true it is never true again. -/
theorem lifecycle_monotonic (lib : GoLib) (env : Env) (evs : List Event) :
    (trace lib env initialState evs).Pairwise (fun s t => s.pc.rank ≤ t.pc.rank)
      ∧ ∃ a b c, (trace lib env initialState evs).map (fun s => s.isReady)
          = List.replicate a false ++ List.replicate b true ++ List.replicate c false := by
  constructor
  · exact (trace_pairwise lib env (fun _ => True) (fun s => s.pc.rank)
      (fun _ _ _ => trivial) (fun st ev _ => step_rank lib env st ev) evs initialState
      trivial).1
  · have hpair := (trace_pairwise lib env
      (fun st => (st.isReady = true → st.pc = Pc.Listening ∨ ∃ n, st.pc = Pc.Stopped n)
        ∧ (st.pc = Pc.Listening → st.isReady = true))
      (fun s => s.readinessClass)
      (fun st ev h => step_ready lib env st ev h)
      (fun st ev h => step_readinessClass lib env st ev h) evs initialState
      initialState_ready).1
    have hsorted : ((trace lib env initialState evs).map
        (fun s => s.readinessClass)).Pairwise (fun a b => a ≤ b) :=
      List.pairwise_map.mpr hpair
    obtain ⟨a, b, c, habc⟩ := flags_of_sorted _ hsorted
    refine ⟨a, b, c, ?_⟩
    rw [← habc, List.map_map]
    apply List.map_congr_left
    intro s _
    exact isReady_eq_class s

open main in
/-- Witness of C19: a run of the http configuration of the tests through the
start, the signal, the drain delay and a shutdown that succeeds. -/
theorem lifecycle_monotonic_witness :
    (trace exampleLib validEnv initialState
        [Event.start none, Event.signal, Event.elapsed,
          Event.shutdownReturned none]).map (fun s => s.isReady)
      = [false, true, false, false, false] := by
  decide

open main in
/-- C20: the code at the failing input. With no variable set, `InitConfig`
fails, `main` prints the error and returns: no server is started, and the
process ends with exit status 0; the same holds for every environment on which
`InitConfig` fails. -/
theorem configError_exit_status :
    step exampleLib emptyEnv initialState (Event.start none)
        = { pc := Pc.Stopped 0
            isReady := false
            actions :=
              [Action.printf
                "Error initializing config: VMANOMALY_ENDPOINT is required\n"] }
      ∧ (∀ (lib : GoLib) (env : Env) (err : String) (listenErr : Option String),
          InitConfig lib env = .error err →
          step lib env initialState (Event.start listenErr)
            = { pc := Pc.Stopped 0
                isReady := false
                actions := [Action.printf ("Error initializing config: " ++ err ++ "\n")] }) := by
  refine ⟨by decide, ?_⟩
  intro lib env err listenErr h
  simp [step, startup, initialState, h]

/-! ### The registered tools -/

theorem find_filter_ne (l : List ServerTool) (name other : String) (h : name ≠ other) :
    (l.filter (fun t => t.Tool.Name != other)).find? (fun t => t.Tool.Name == name)
      = l.find? (fun t => t.Tool.Name == name) := by
  induction l with
  | nil => rfl
  | cons t ts ih =>
    by_cases hn : t.Tool.Name = name
    · have hne : t.Tool.Name ≠ other := by rw [hn]; exact h
      simp [List.filter_cons, hn, h]
    · by_cases ho : t.Tool.Name = other
      · simp [List.filter_cons, ho, hn, ih, Ne.symm h]
      · simp [List.filter_cons, ho, hn, ih]

theorem find_filter_eq (l : List ServerTool) (name : String) :
    (l.filter (fun t => t.Tool.Name != name)).find? (fun t => t.Tool.Name == name) = none := by
  induction l with
  | nil => rfl
  | cons t ts ih =>
    by_cases hn : t.Tool.Name = name
    · simp [List.filter_cons, hn, ih]
    · simp [List.filter_cons, hn, ih]

/-- After `AddTool`, a call to the name of the added tool reaches its handler,
and any other name is looked up as before. -/
theorem CallTool_AddTool (s : MCPServer) (tool : Tool) (handler : ToolHandlerFunc)
    (name : String) :
    (s.AddTool tool handler).CallTool name
      = if name = tool.Name then .ok handler else s.CallTool name := by
  unfold MCPServer.CallTool MCPServer.AddTool
  by_cases h : name = tool.Name
  · subst h
    simp only [List.find?_append, find_filter_eq]
    simp
  · have h' : ¬ tool.Name = name := fun e => h e.symm
    simp only [List.find?_append, find_filter_ne _ name tool.Name h]
    simp [h, h']

/-- C21, as amended: on every server, `RegisterTools` registers a named tool
for each of health, build info, model listing, model schema, model validation,
full-config validation, alert-rule generation and compatibility check, each
with the handler of that operation; the tools for detection-task creation, task
status, task listing, task cancellation and detection limits are registered by
`RegisterTaskTools`, the tool for the ad-hoc query by `RegisterQueryTools`; and
the tools that the registration functions of the package register, all
together, are sixteen, none of them for the generation of a config YAML. -/
theorem registered_tool_names (s : MCPServer) :
    (RegisterTools s).CallTool "vmanomaly_health_check"
        = .ok ToolHandlerFunc.handleHealthCheck
      ∧ (RegisterTools s).CallTool "vmanomaly_get_buildinfo"
        = .ok ToolHandlerFunc.handleGetBuildinfo
      ∧ (RegisterTools s).CallTool "vmanomaly_list_models"
        = .ok ToolHandlerFunc.handleListModels
      ∧ (RegisterTools s).CallTool "vmanomaly_get_model_schema"
        = .ok ToolHandlerFunc.handleGetModelSchema
      ∧ (RegisterTools s).CallTool "vmanomaly_validate_model_config"
        = .ok ToolHandlerFunc.handleValidateModelConfig
      ∧ (RegisterTools s).CallTool "vmanomaly_validate_config"
        = .ok ToolHandlerFunc.handleValidateConfig
      ∧ (RegisterTools s).CallTool "vmanomaly_generate_alert_rule"
        = .ok ToolHandlerFunc.handleGenerateAlertRule
      ∧ (RegisterTools s).CallTool "vmanomaly_check_compatibility"
        = .ok ToolHandlerFunc.handleCheckCompatibility
      ∧ (RegisterTaskTools s).CallTool "vmanomaly_create_detection_task"
        = .ok ToolHandlerFunc.handleCreateDetectionTask
      ∧ (RegisterTaskTools s).CallTool "vmanomaly_get_task_status"
        = .ok ToolHandlerFunc.handleGetTaskStatus
      ∧ (RegisterTaskTools s).CallTool "vmanomaly_list_tasks"
        = .ok ToolHandlerFunc.handleListTasks
      ∧ (RegisterTaskTools s).CallTool "vmanomaly_cancel_task"
        = .ok ToolHandlerFunc.handleCancelTask
      ∧ (RegisterTaskTools s).CallTool "vmanomaly_get_detection_limits"
        = .ok ToolHandlerFunc.handleGetDetectionLimits
      ∧ (RegisterQueryTools s).CallTool "vmanomaly_query_metrics"
        = .ok ToolHandlerFunc.handleQueryMetrics
      ∧ (RegisterQueryTools (RegisterTaskTools (RegisterTools (NewMCPServer [])))).tools.map
          (fun t => t.Tool.Name)
        = ["vmanomaly_health_check", "vmanomaly_list_models", "vmanomaly_get_model_schema",
            "vmanomaly_validate_model_config", "vmanomaly_validate_config",
            "vmanomaly_get_buildinfo", "vmanomaly_get_metrics",
            "vmanomaly_check_compatibility", "vmanomaly_generate_alert_rule",
            "vmanomaly_search_docs", "vmanomaly_create_detection_task",
            "vmanomaly_get_task_status", "vmanomaly_list_tasks", "vmanomaly_cancel_task",
            "vmanomaly_get_detection_limits", "vmanomaly_query_metrics"] := by
  refine ⟨?_, ?_, ?_, ?_, ?_, ?_, ?_, ?_, ?_, ?_, ?_, ?_, ?_, ?_, by decide⟩
  all_goals
    simp [RegisterTools, RegisterModelTools, RegisterConfigTools, RegisterInfoTools,
      RegisterCompatibilityTools, RegisterAlertTools, RegisterDocsTool, RegisterTaskTools,
      RegisterQueryTools, CallTool_AddTool]

/-- C21 as stated fails: the tools that `RegisterTools` registers on the new
server are the ten listed, and a call to the name of a task tool or of the query
tool finds no tool; `RegisterTools` calls neither `RegisterTaskTools` nor
`RegisterQueryTools`. -/
theorem task_and_query_tools_not_registered :
    (RegisterTools (NewMCPServer [])).tools.map (fun t => t.Tool.Name)
        = ["vmanomaly_health_check", "vmanomaly_list_models", "vmanomaly_get_model_schema",
            "vmanomaly_validate_model_config", "vmanomaly_validate_config",
            "vmanomaly_get_buildinfo", "vmanomaly_get_metrics",
            "vmanomaly_check_compatibility", "vmanomaly_generate_alert_rule",
            "vmanomaly_search_docs"]
      ∧ (RegisterTools (NewMCPServer [])).CallTool "vmanomaly_create_detection_task"
        = .error "tool 'vmanomaly_create_detection_task' not found"
      ∧ (RegisterTools (NewMCPServer [])).CallTool "vmanomaly_get_task_status"
        = .error "tool 'vmanomaly_get_task_status' not found"
      ∧ (RegisterTools (NewMCPServer [])).CallTool "vmanomaly_list_tasks"
        = .error "tool 'vmanomaly_list_tasks' not found"
      ∧ (RegisterTools (NewMCPServer [])).CallTool "vmanomaly_cancel_task"
        = .error "tool 'vmanomaly_cancel_task' not found"
      ∧ (RegisterTools (NewMCPServer [])).CallTool "vmanomaly_get_detection_limits"
        = .error "tool 'vmanomaly_get_detection_limits' not found"
      ∧ (RegisterTools (NewMCPServer [])).CallTool "vmanomaly_query_metrics"
        = .error "tool 'vmanomaly_query_metrics' not found" := by
  decide

/-! ### The outcome of a call to the backend -/

/-- C22: for every decoding of an expected shape, that is for every client
method, and every backend response: with the status in [200,299] and a body
that decodes, the method returns the decoded value and no error; with the
status outside [200,299] it returns the error `HTTPStatusFailure` with the
status code and the body of the response; with the status in [200,299] and a
body that does not decode it returns an error, `DecodeFailure` with the body and
the decoding error. -/
theorem classify_backend_response {α : Type} (decode : String → Except String α)
    (resp : BackendResponse) :
    (200 ≤ resp.StatusCode ∧ resp.StatusCode ≤ 299 →
        ∀ value, decode resp.Body = .ok value →
          classifyOutcome decode (SendOutcome.response resp) = .ok value)
      ∧ (¬ (200 ≤ resp.StatusCode ∧ resp.StatusCode ≤ 299) →
        classifyOutcome decode (SendOutcome.response resp)
          = .error (UpstreamError.HTTPStatusFailure resp.StatusCode resp.Body))
      ∧ (200 ≤ resp.StatusCode ∧ resp.StatusCode ≤ 299 →
        ∀ decodeError, decode resp.Body = .error decodeError →
          classifyOutcome decode (SendOutcome.response resp)
            = .error (UpstreamError.DecodeFailure resp.Body decodeError)) := by
  refine ⟨?_, ?_, ?_⟩
  · intro hstatus value hdecode
    simp [classifyOutcome, hstatus, hdecode]
  · intro hstatus
    simp only [classifyOutcome, hstatus, if_false]
  · intro hstatus decodeError hdecode
    simp [classifyOutcome, hstatus, hdecode]

/-! ### The order of the shutdown -/

open main in
/-- From the wait for the termination signal on, the actions of `main` are a
beginning of the shutdown sequence, as far as the place of `main` tells; `seen`
are the events so far. -/
theorem shutdown_invariant (lib : GoLib) (env : Env) (log : List Action)
    (evs : List Event) (st : ProcState) (seen : List Event)
    (hst : (st.pc = Pc.Listening ∧ st.actions = log)
      ∨ (st.pc = Pc.Stopped 1
        ∧ (st.actions = log
          ∨ st.actions = log ++ [Action.stopSignals, Action.storeReady false,
              Action.sleep readinessDrainDelay]))
      ∨ (st.pc = Pc.Draining
        ∧ st.actions = log ++ [Action.stopSignals, Action.storeReady false,
            Action.sleep readinessDrainDelay])
      ∨ (st.pc = Pc.ShuttingDown
        ∧ st.actions = log ++ [Action.stopSignals, Action.storeReady false,
            Action.sleep readinessDrainDelay, Action.shutdown shutdownPeriod])
      ∨ (st.pc = Pc.Stopped 0
        ∧ st.actions = log ++ [Action.stopSignals, Action.storeReady false,
            Action.sleep readinessDrainDelay, Action.shutdown shutdownPeriod,
            Action.stopOngoingGracefully]
        ∧ Event.shutdownReturned none ∈ seen)
      ∨ ((st.pc = Pc.HardCutoff ∨ st.pc = Pc.Stopped 0)
        ∧ st.actions = log ++ [Action.stopSignals, Action.storeReady false,
            Action.sleep readinessDrainDelay, Action.shutdown shutdownPeriod,
            Action.stopOngoingGracefully, Action.sleep shutdownHardPeriod]
        ∧ ∃ err, Event.shutdownReturned (some err) ∈ seen)) :
    ((evs.foldl (step lib env) st).pc = Pc.Listening
        ∧ (evs.foldl (step lib env) st).actions = log)
      ∨ ((evs.foldl (step lib env) st).pc = Pc.Stopped 1
        ∧ ((evs.foldl (step lib env) st).actions = log
          ∨ (evs.foldl (step lib env) st).actions
            = log ++ [Action.stopSignals, Action.storeReady false,
              Action.sleep readinessDrainDelay]))
      ∨ ((evs.foldl (step lib env) st).pc = Pc.Draining
        ∧ (evs.foldl (step lib env) st).actions
          = log ++ [Action.stopSignals, Action.storeReady false,
            Action.sleep readinessDrainDelay])
      ∨ ((evs.foldl (step lib env) st).pc = Pc.ShuttingDown
        ∧ (evs.foldl (step lib env) st).actions
          = log ++ [Action.stopSignals, Action.storeReady false,
            Action.sleep readinessDrainDelay, Action.shutdown shutdownPeriod])
      ∨ ((evs.foldl (step lib env) st).pc = Pc.Stopped 0
        ∧ (evs.foldl (step lib env) st).actions
          = log ++ [Action.stopSignals, Action.storeReady false,
            Action.sleep readinessDrainDelay, Action.shutdown shutdownPeriod,
            Action.stopOngoingGracefully]
        ∧ Event.shutdownReturned none ∈ seen ++ evs)
      ∨ (((evs.foldl (step lib env) st).pc = Pc.HardCutoff
          ∨ (evs.foldl (step lib env) st).pc = Pc.Stopped 0)
        ∧ (evs.foldl (step lib env) st).actions
          = log ++ [Action.stopSignals, Action.storeReady false,
            Action.sleep readinessDrainDelay, Action.shutdown shutdownPeriod,
            Action.stopOngoingGracefully, Action.sleep shutdownHardPeriod]
        ∧ ∃ err, Event.shutdownReturned (some err) ∈ seen ++ evs) := by
  induction evs generalizing st seen with
  | nil => simpa using hst
  | cons ev evs ih =>
    have hnext := ih (step lib env st ev) (seen ++ [ev]) ?_
    · simpa [List.foldl_cons, List.append_assoc] using hnext
    · rcases hst with ⟨hpc, hact⟩ | ⟨hpc, hact⟩ | ⟨hpc, hact⟩ | ⟨hpc, hact⟩
          | ⟨hpc, hact, hev⟩ | ⟨hpc, hact, hev⟩
      · cases ev <;> simp [step, hpc, hact]
      · cases ev <;> simp [step, hpc, hact]
      · cases ev <;> simp [step, hpc, hact]
      · cases ev with
        | shutdownReturned err => cases err <;> simp [step, hpc, hact]
        | _ => simp [step, hpc, hact]
      · cases ev <;> simp [step, hpc, hact, hev]
      · obtain ⟨err, herr⟩ := hev
        rcases hpc with hpc | hpc
        · cases ev <;> simp [step, hpc, hact] <;>
            first
              | exact ⟨err, herr⟩
              | exact ⟨err, Or.inl herr⟩
        · cases ev <;> simp [step, hpc, hact] <;>
            first
              | exact ⟨err, herr⟩
              | exact ⟨err, Or.inl herr⟩

open main in
/-- C23: from the wait for the termination signal, whatever events follow, what
`main` does is a beginning of one sequence, in this order: the release of the
signal handler and the store of false into the readiness flag, the sleep of the
drain delay (3s), the call of `hs.Shutdown` with a timeout of 15s, the
cancellation of the base context of the requests in flight, and, only when
`hs.Shutdown` returned an error, the sleep of the hard cutoff (3s, less than
15s). The beginning is as long as the place of `main` tells, so that no step is
left out or moved; `main` ends with status 0 after the whole sequence, without
the last sleep exactly when `hs.Shutdown` returned no error; the only other end
is the exit with status 1 on a failure of `hs.Serve` before the shutdown. The
signal, the end of the drain delay and the return of `hs.Shutdown` (followed by
the end of the hard cutoff after an error) lead to the end with status 0. -/
theorem shutdown_steps_in_order (lib : GoLib) (env : Env) (st final : ProcState)
    (evs : List Event) (hpc : st.pc = Pc.Listening)
    (hfinal : final = evs.foldl (step lib env) st) :
    ((final.pc = Pc.Listening ∧ final.actions = st.actions)
        ∨ (final.pc = Pc.Stopped 1
          ∧ (final.actions = st.actions
            ∨ final.actions = st.actions ++ [Action.stopSignals, Action.storeReady false,
                Action.sleep readinessDrainDelay]))
        ∨ (final.pc = Pc.Draining
          ∧ final.actions = st.actions ++ [Action.stopSignals, Action.storeReady false,
              Action.sleep readinessDrainDelay])
        ∨ (final.pc = Pc.ShuttingDown
          ∧ final.actions = st.actions ++ [Action.stopSignals, Action.storeReady false,
              Action.sleep readinessDrainDelay, Action.shutdown shutdownPeriod])
        ∨ (final.pc = Pc.Stopped 0
          ∧ final.actions = st.actions ++ [Action.stopSignals, Action.storeReady false,
              Action.sleep readinessDrainDelay, Action.shutdown shutdownPeriod,
              Action.stopOngoingGracefully]
          ∧ Event.shutdownReturned none ∈ evs)
        ∨ ((final.pc = Pc.HardCutoff ∨ final.pc = Pc.Stopped 0)
          ∧ final.actions = st.actions ++ [Action.stopSignals, Action.storeReady false,
              Action.sleep readinessDrainDelay, Action.shutdown shutdownPeriod,
              Action.stopOngoingGracefully, Action.sleep shutdownHardPeriod]
          ∧ ∃ err, Event.shutdownReturned (some err) ∈ evs))
      ∧ ([Event.signal, Event.elapsed, Event.shutdownReturned none].foldl (step lib env) st).pc
        = Pc.Stopped 0
      ∧ (∀ err, ([Event.signal, Event.elapsed, Event.shutdownReturned (some err),
          Event.elapsed].foldl (step lib env) st).pc = Pc.Stopped 0)
      ∧ readinessDrainDelay = 3 * time.Second
      ∧ shutdownPeriod = 15 * time.Second
      ∧ shutdownHardPeriod = 3 * time.Second
      ∧ shutdownHardPeriod < shutdownPeriod := by
  refine ⟨?_, ?_, ?_, rfl, rfl, rfl, by decide⟩
  · have h := shutdown_invariant lib env st.actions evs st [] (Or.inl ⟨hpc, rfl⟩)
    rw [← hfinal] at h
    simpa using h
  · simp [step, hpc]
  · intro err
    simp [step, hpc]

open main in
/-- Witness of C23: the http configuration of the tests, started with a
listener, then the signal, the end of the drain delay, a shutdown that returns
an error and the end of the hard cutoff. -/
theorem shutdown_steps_in_order_witness :
    (step exampleLib validEnv initialState (Event.start none)).pc = Pc.Listening
      ∧ ([Event.signal, Event.elapsed, Event.shutdownReturned (some "context deadline exceeded"),
          Event.elapsed].foldl (step exampleLib validEnv)
            (step exampleLib validEnv initialState (Event.start none))).pc = Pc.Stopped 0
      ∧ ([Event.signal, Event.elapsed, Event.shutdownReturned (some "context deadline exceeded"),
          Event.elapsed].foldl (step exampleLib validEnv)
            (step exampleLib validEnv initialState (Event.start none))).actions
        = [Action.listen "localhost:9090", Action.serve, Action.storeReady true,
            Action.stopSignals, Action.storeReady false, Action.sleep 3000000000,
            Action.shutdown 15000000000, Action.stopOngoingGracefully,
            Action.sleep 3000000000] :=
  ⟨by decide,
    (shutdown_steps_in_order exampleLib validEnv
      (step exampleLib validEnv initialState (Event.start none)) _
      [Event.signal, Event.elapsed, Event.shutdownReturned (some "context deadline exceeded"),
        Event.elapsed] (by decide) rfl).2.2.1 "context deadline exceeded",
    by decide⟩

/-! ### The capacity percentage -/

theorem wrapInt64_of_range (x : Int) (h1 : -(2 ^ 63) ≤ x) (h2 : x < 2 ^ 63) :
    wrapInt64 x = x := by
  unfold wrapInt64
  rw [Int.emod_eq_of_lt (by omega) (by omega)]
  omega

/-- C24, as amended: the capacity percentage is 0 when `max_concurrent` is not
positive, and otherwise the truncating quotient by `max_concurrent`, which is
then not zero, of the `int` product `running * 100`; for
0 <= running <= max_concurrent with `running * 100` within the range of `int`
(below 2^63) it is the floor of 100 * running / max_concurrent and lies between
0 and 100. -/
theorem capacityPct_truncating_quotient (limits : AnomalyDetectionLimitsResponse) :
    (limits.MaxConcurrent > 0 →
        limits.MaxConcurrent ≠ 0
          ∧ capacityPct limits
            = Int.tdiv (wrapInt64 (limits.Running * 100)) limits.MaxConcurrent)
      ∧ (limits.MaxConcurrent ≤ 0 → capacityPct limits = 0)
      ∧ (0 ≤ limits.Running → limits.Running ≤ limits.MaxConcurrent →
          limits.Running * 100 < 2 ^ 63 →
          capacityPct limits = (100 * limits.Running) / limits.MaxConcurrent
            ∧ capacityPct limits = ⌊(100 * limits.Running : ℚ) / limits.MaxConcurrent⌋
            ∧ 0 ≤ capacityPct limits ∧ capacityPct limits ≤ 100) := by
  refine ⟨?_, ?_, ?_⟩
  · intro h
    exact ⟨by omega, by simp [capacityPct, h]⟩
  · intro h
    have h' : ¬ limits.MaxConcurrent > 0 := by omega
    simp [capacityPct, h']
  · intro h0 hle hlt
    by_cases hm : limits.MaxConcurrent > 0
    · have hw : wrapInt64 (limits.Running * 100) = limits.Running * 100 :=
        wrapInt64_of_range _ (by omega) hlt
      have hnn : 0 ≤ limits.Running * 100 := by omega
      have hval : capacityPct limits = (100 * limits.Running) / limits.MaxConcurrent := by
        simp only [capacityPct, hm, if_true, hw]
        rw [Int.tdiv_eq_ediv hnn (by omega), mul_comm]
      refine ⟨hval, ?_, ?_, ?_⟩
      · rw [hval]
        have hfl := Rat.floor_intCast_div_natCast (100 * limits.Running)
          limits.MaxConcurrent.toNat
        have hcast : (limits.MaxConcurrent.toNat : ℤ) = limits.MaxConcurrent :=
          Int.toNat_of_nonneg (by omega)
        have hcastq : ((limits.MaxConcurrent.toNat : ℕ) : ℚ) = (limits.MaxConcurrent : ℚ) := by
          have hq := congrArg (Int.cast : ℤ → ℚ) hcast
          rw [Int.cast_natCast] at hq
          exact hq
        rw [hcast, hcastq] at hfl
        rw [← hfl]
        push_cast
        rfl
      · rw [hval]
        exact Int.ediv_nonneg (by omega) (by omega)
      · rw [hval]
        apply Int.ediv_le_of_le_mul hm
        nlinarith
    · have hr : limits.Running = 0 := by omega
      have hm0 : limits.MaxConcurrent = 0 := by omega
      simp [capacityPct, hm, hr, hm0]

/-- Witness of C24 as amended: 2 running tasks of at most 5 give 40, and no
limit gives 0. -/
theorem capacityPct_truncating_quotient_witness :
    capacityPct { MaxConcurrent := 5, Running := 2, Available := 3 } = 100 * 2 / 5
      ∧ capacityPct { MaxConcurrent := 5, Running := 2, Available := 3 } = 40
      ∧ capacityPct { MaxConcurrent := 0, Running := 2, Available := 0 } = 0 :=
  ⟨((capacityPct_truncating_quotient { MaxConcurrent := 5, Running := 2, Available := 3 }).2.2
      (by decide) (by decide) (by decide)).1,
    by decide,
    (capacityPct_truncating_quotient { MaxConcurrent := 0, Running := 2, Available := 0 }).2.1
      (by decide)⟩

/-- C24 as stated fails: with 10^17 running tasks of at most 10^17, so that
0 <= running <= max_concurrent, the product `running * 100` exceeds the range
of `int` and wraps, and the capacity percentage is -84: not the floor of
100 * running / max_concurrent, which is 100, and not between 0 and 100. -/
theorem capacityPct_wraps_on_overflow :
    (0 : Int) ≤ 100000000000000000
      ∧ (100000000000000000 : Int) ≤ 100000000000000000
      ∧ capacityPct
          { MaxConcurrent := 100000000000000000, Running := 100000000000000000,
            Available := 0 } = -84
      ∧ ¬ (0 ≤ capacityPct
          { MaxConcurrent := 100000000000000000, Running := 100000000000000000,
            Available := 0 })
      ∧ (100 * 100000000000000000 : Int) / 100000000000000000 = 100 := by
  decide

/-! ### The configuration that InitConfig returns -/

/-- The log level of a configuration that `InitConfig` returns is one of the
four levels. -/
theorem InitConfig_logLevel (lib : GoLib) (env : Env) (c : Config)
    (h : InitConfig lib env = .ok c) :
    c.logLevel = "debug" ∨ c.logLevel = "info" ∨ c.logLevel = "warn"
      ∨ c.logLevel = "error" := by
  have hlevel := (InitConfig_ok_fields lib env c h).2.2.2.2.2.2.1
  have hnot : ¬ (lib.ToLower (env "MCP_LOG_LEVEL") ≠ ""
      ∧ lib.ToLower (env "MCP_LOG_LEVEL") ≠ "debug"
      ∧ lib.ToLower (env "MCP_LOG_LEVEL") ≠ "info"
      ∧ lib.ToLower (env "MCP_LOG_LEVEL") ≠ "warn"
      ∧ lib.ToLower (env "MCP_LOG_LEVEL") ≠ "error") := by
    intro hbad
    have herr := (InitConfig_fails_iff lib env).mpr
      (Or.inr (Or.inr (Or.inr (Or.inr hbad))))
    obtain ⟨err, herr⟩ := herr
    rw [h] at herr
    exact Except.noConfusion herr
  by_cases h1 : lib.ToLower (env "MCP_LOG_LEVEL") = ""
  · right; left
    rw [hlevel, if_pos h1]
  · rw [hlevel, if_neg h1]
    by_cases h2 : lib.ToLower (env "MCP_LOG_LEVEL") = "debug"
    · exact Or.inl h2
    · by_cases h3 : lib.ToLower (env "MCP_LOG_LEVEL") = "info"
      · exact Or.inr (Or.inl h3)
      · by_cases h4 : lib.ToLower (env "MCP_LOG_LEVEL") = "warn"
        · exact Or.inr (Or.inr (Or.inl h4))
        · by_cases h5 : lib.ToLower (env "MCP_LOG_LEVEL") = "error"
          · exact Or.inr (Or.inr (Or.inr h5))
          · exact absurd ⟨h1, h2, h3, h4, h5⟩ hnot

/-- The heartbeat interval of a configuration that `InitConfig` returns is not
negative. -/
theorem InitConfig_heartbeat_nonneg (lib : GoLib) (env : Env) (c : Config)
    (h : InitConfig lib env = .ok c) : 0 ≤ c.heartbeatInterval := by
  have hhb := (InitConfig_ok_fields lib env c h).2.2.2.2.1
  have hok := heartbeatInterval_ok lib env c.heartbeatInterval hhb
  by_cases hempty : env "MCP_HEARTBEAT_INTERVAL" = ""
  · rw [hok.1 hempty]
    decide
  · exact (hok.2 hempty).2

/-- C25: for every environment on which `InitConfig` succeeds, the server mode
of the configuration is "stdio" or "http", exactly one of `IsStdio` and `IsHTTP`
is true, the log level is one of debug, info, warn, error, and the heartbeat
interval is not negative; so the mode selection of `main` takes neither its
default branch ("Unknown server mode") nor the sse branch, and the start of
`main` either serves stdio or goes on to `net.Listen`. -/
theorem InitConfig_result_valid (lib : GoLib) (env : Env) (c : Config)
    (h : InitConfig lib env = .ok c) :
    (c.ServerMode = "stdio" ∨ c.ServerMode = "http")
      ∧ (c.IsStdio = true ∧ c.IsHTTP = false ∨ c.IsStdio = false ∧ c.IsHTTP = true)
      ∧ (c.LogLevel = "debug" ∨ c.LogLevel = "info" ∨ c.LogLevel = "warn"
        ∨ c.LogLevel = "error")
      ∧ 0 ≤ c.HeartbeatInterval
      ∧ main.modeBranch c ≠ main.ModeBranch.unknownMode
      ∧ main.modeBranch c ≠ main.ModeBranch.sse
      ∧ (∀ listenErr st,
          (main.startup lib env listenErr st).pc = main.Pc.ServingStdio
            ∨ main.Action.listen c.ListenAddr
              ∈ (main.startup lib env listenErr st).actions) := by
  have hmode := InitConfig_serverMode lib env c h
  refine ⟨hmode, ?_, InitConfig_logLevel lib env c h, InitConfig_heartbeat_nonneg lib env c h,
    ?_, ?_, ?_⟩
  · rcases hmode with hm | hm
    · left
      simp [Config.IsStdio, Config.IsHTTP, hm]
    · right
      simp [Config.IsStdio, Config.IsHTTP, hm]
  · rcases hmode with hm | hm
    · rw [(modeBranch_of_serverMode c).1 hm]
      decide
    · rw [(modeBranch_of_serverMode c).2 hm]
      decide
  · rcases hmode with hm | hm
    · rw [(modeBranch_of_serverMode c).1 hm]
      decide
    · rw [(modeBranch_of_serverMode c).2 hm]
      decide
  · intro listenErr st
    unfold main.startup
    rw [h]
    rcases hmode with hm | hm
    · left
      simp [(modeBranch_of_serverMode c).1 hm]
    · right
      cases listenErr <;> simp [(modeBranch_of_serverMode c).2 hm]

/-- Witness of C25: the environment of the test `Valid configuration`. -/
theorem InitConfig_result_valid_witness :
    InitConfig main.exampleLib main.validEnv = .ok main.validConfig
      ∧ main.validConfig.IsStdio = false ∧ main.validConfig.IsHTTP = true
      ∧ main.modeBranch main.validConfig ≠ main.ModeBranch.unknownMode :=
  have h : InitConfig main.exampleLib main.validEnv = .ok main.validConfig := by decide
  ⟨h, by decide, by decide,
    (InitConfig_result_valid main.exampleLib main.validEnv main.validConfig h).2.2.2.2.1⟩

/-! ### The round trip of the custom headers -/

theorem intercalate_go_data (sep acc : String) (l : List String) :
    (String.intercalate.go acc sep l).data
      = acc.data ++ (l.map (fun x => sep.data ++ x.data)).flatten := by
  induction l generalizing acc with
  | nil => simp [String.intercalate.go]
  | cons x xs ih =>
    simp [String.intercalate.go, ih, String.data_append, List.append_assoc]

theorem splitChars_of_no_sep (sep : Char) (a : List Char) (h : sep ∉ a) :
    strings.splitChars sep a = [a] := by
  induction a with
  | nil => rfl
  | cons c cs ih =>
    have hc : ¬ c = sep := fun e => h (by simp [e])
    have hcs : sep ∉ cs := fun e => h (List.mem_cons_of_mem _ e)
    simp [strings.splitChars, hc, ih hcs]

theorem splitChars_append_sep (sep : Char) (a tail : List Char) (h : sep ∉ a) :
    strings.splitChars sep (a ++ sep :: tail) = a :: strings.splitChars sep tail := by
  induction a with
  | nil => simp [strings.splitChars]
  | cons c cs ih =>
    have hc : ¬ c = sep := fun e => h (by simp [e])
    have hcs : sep ∉ cs := fun e => h (List.mem_cons_of_mem _ e)
    simp [strings.splitChars, hc, ih hcs]

theorem splitChars_joined (sep : Char) (rest : List (List Char)) (a : List Char)
    (ha : sep ∉ a) (hrest : ∀ r ∈ rest, sep ∉ r) :
    strings.splitChars sep (a ++ (rest.map (fun r => sep :: r)).flatten) = a :: rest := by
  induction rest generalizing a with
  | nil => simpa using splitChars_of_no_sep sep a ha
  | cons r rs ih =>
    have hr : sep ∉ r := hrest r (List.mem_cons_self _ _)
    have hrs : ∀ x ∈ rs, sep ∉ x := fun x hx => hrest x (List.mem_cons_of_mem _ hx)
    simp only [List.map_cons, List.flatten_cons, List.cons_append]
    rw [splitChars_append_sep sep a _ ha, ih r hr hrs]

theorem trimChars_id (p : Char → Bool) (l : List Char)
    (hhead : ∀ c, l.head? = some c → p c = false)
    (hlast : ∀ c, l.getLast? = some c → p c = false) :
    strings.trimChars p l = l := by
  unfold strings.trimChars
  have hd : l.dropWhile p = l := by
    cases l with
    | nil => rfl
    | cons c cs => simp [List.dropWhile, hhead c rfl]
  rw [hd]
  apply List.rdropWhile_eq_self_iff.mpr
  intro hl
  have := hlast (l.getLast hl) (List.getLast?_eq_getLast _ hl)
  simp [this]

theorem headerEntry_data (kv : String × String) :
    (headerEntry kv).data = kv.1.data ++ '=' :: kv.2.data := by
  simp [headerEntry, String.data_append]

theorem headerEntrySpec_entry (kv : String × String)
    (hk : plainText kv.1) (hv : plainText kv.2) (heq : '=' ∉ kv.1.data) :
    headerEntrySpec (headerEntry kv) = some kv := by
  obtain ⟨hk0, hk1, hk2, _⟩ := hk
  obtain ⟨hv0, hv1, hv2, _⟩ := hv
  unfold headerEntrySpec
  rw [headerEntry_data, cutChars_append '=' _ _ heq]
  have hkt : strings.TrimSpace (String.mk kv.1.data) = kv.1 := by
    unfold strings.TrimSpace
    simp only [trimChars_id _ _ hk1 hk2]
  have hvt : strings.TrimSpace (String.mk kv.2.data) = kv.2 := by
    unfold strings.TrimSpace
    simp only [trimChars_id _ _ hv1 hv2]
  simp only [hkt, hvt, hk0, hv0, ne_eq, not_false_eq_true, and_self, if_true]

theorem mapSet_fresh {β : Type} (m : List (String × β)) (k : String) (v : β)
    (h : k ∉ m.map Prod.fst) : mapSet m k v = (k, v) :: m := by
  unfold mapSet
  congr 1
  apply List.filter_eq_self.mpr
  intro e he
  have : e.1 ≠ k := fun hek => h (hek ▸ List.mem_map_of_mem Prod.fst he)
  simpa using this

theorem foldl_headerEntries (headers : List (String × String)) (m : List (String × String))
    (hvalid : ∀ kv ∈ headers, plainText kv.1 ∧ plainText kv.2 ∧ '=' ∉ kv.1.data)
    (hnodup : (headers.map Prod.fst).Nodup)
    (hfresh : ∀ kv ∈ headers, kv.1 ∉ m.map Prod.fst) :
    (headers.map headerEntry).foldl parseCustomHeaders_header m = headers.reverse ++ m := by
  induction headers generalizing m with
  | nil => rfl
  | cons kv rest ih =>
    obtain ⟨hk, hv, heq⟩ := hvalid kv (List.mem_cons_self _ _)
    rw [List.map_cons, List.nodup_cons] at hnodup
    simp only [List.map_cons, List.foldl_cons]
    rw [parseCustomHeaders_step, headerEntrySpec_entry kv hk hv heq]
    simp only [Option.elim]
    rw [mapSet_fresh m kv.1 kv.2 (hfresh kv (List.mem_cons_self _ _))]
    rw [ih ((kv.1, kv.2) :: m) (fun x hx => hvalid x (List.mem_cons_of_mem _ hx)) hnodup.2]
    · simp
    · intro x hx hmem
      rcases List.mem_cons.mp hmem with h | h
      · exact hnodup.1 (List.mem_map.mpr ⟨x, hx, h⟩)
      · exact hfresh x (List.mem_cons_of_mem _ hx) h

theorem lookup_reverse_nodup {β : Type} (l : List (String × β)) (k : String)
    (h : (l.map Prod.fst).Nodup) : l.reverse.lookup k = l.lookup k := by
  induction l with
  | nil => rfl
  | cons p ps ih =>
    obtain ⟨pk, pv⟩ := p
    rw [List.map_cons, List.nodup_cons] at h
    rw [List.reverse_cons, lookup_append_single, ih h.2]
    by_cases hk : k = pk
    · subst hk
      have hnone : ps.lookup k = none := by
        rw [List.lookup_eq_none_iff]
        intro p hp
        have hne : k ≠ p.1 := fun hpk => h.1 (List.mem_map.mpr ⟨p, hp, hpk.symm⟩)
        simpa using hne
      simp [hnone, List.lookup]
    · have hk' : (k == pk) = false := by simpa using hk
      simp only [List.lookup, hk', hk, if_false]
      cases ps.lookup k <;> rfl

theorem parseCustomHeaders_joinHeaders (headers : List (String × String))
    (hvalid : ∀ kv ∈ headers, plainText kv.1 ∧ plainText kv.2 ∧ '=' ∉ kv.1.data)
    (hnodup : (headers.map Prod.fst).Nodup) :
    parseCustomHeaders (joinHeaders headers) = headers.reverse := by
  cases headers with
  | nil => exact parseCustomHeaders_empty
  | cons kv rest =>
    have hdata : (joinHeaders (kv :: rest)).data
        = (headerEntry kv).data
          ++ ((rest.map headerEntry).map (fun x => ',' :: x.data)).flatten := by
      unfold joinHeaders
      simp only [List.map_cons, String.intercalate]
      rw [intercalate_go_data]
      rfl
    have hcomma : ∀ x ∈ kv :: rest, ',' ∉ (headerEntry x).data := by
      intro x hx
      obtain ⟨hk, hv, _⟩ := hvalid x hx
      rw [headerEntry_data]
      intro hmem
      rcases List.mem_append.mp hmem with h | h
      · exact hk.2.2.2 h
      · rcases List.mem_cons.mp h with h | h
        · exact absurd h (by decide)
        · exact hv.2.2.2 h
    have hne : joinHeaders (kv :: rest) ≠ "" := by
      intro h
      have hd := congrArg String.data h
      rw [hdata, headerEntry_data] at hd
      simp at hd
    have hsplit : strings.Split (joinHeaders (kv :: rest)) ','
        = (kv :: rest).map headerEntry := by
      unfold strings.Split
      rw [hdata]
      have hmap : ((rest.map headerEntry).map (fun x => ',' :: x.data))
          = ((rest.map headerEntry).map String.data).map (fun r => ',' :: r) := by
        simp [List.map_map]
      rw [hmap, splitChars_joined ',' _ _ (hcomma kv (List.mem_cons_self _ _))]
      · simp [List.map_map]
      · intro r hr
        obtain ⟨e, he, hre⟩ := List.mem_map.mp hr
        obtain ⟨x, hx, hxe⟩ := List.mem_map.mp he
        rw [← hre, ← hxe]
        exact hcomma x (List.mem_cons_of_mem _ hx)
    unfold parseCustomHeaders
    simp only [hne, if_false]
    rw [hsplit, foldl_headerEntries (kv :: rest) [] hvalid hnodup (by simp)]
    simp

/-- In a list of pairs with distinct keys, a pair of the list is what the lookup
of its key gives. -/
theorem lookup_of_mem_nodup {β : Type} (l : List (String × β)) (k : String) (v : β)
    (hn : (l.map Prod.fst).Nodup) (h : (k, v) ∈ l) : l.lookup k = some v := by
  induction l with
  | nil => cases h
  | cons p ps ih =>
    obtain ⟨pk, pv⟩ := p
    rw [List.map_cons, List.nodup_cons] at hn
    rcases List.mem_cons.mp h with h | h
    · cases h
      simp [List.lookup]
    · have hk : k ≠ pk := fun e => hn.1 (List.mem_map.mpr ⟨(k, v), h, e⟩)
      have hk' : (k == pk) = false := by simpa using hk
      simp only [List.lookup, hk']
      exact ih hn.2 h

/-- Two lists of pairs with distinct keys that are permutations of each other
give the same lookups. -/
theorem lookup_perm_nodup {β : Type} (l₁ l₂ : List (String × β)) (k : String)
    (hperm : l₁.Perm l₂) (hn : (l₁.map Prod.fst).Nodup) : l₁.lookup k = l₂.lookup k := by
  have hn₂ : (l₂.map Prod.fst).Nodup := ((hperm.map Prod.fst).nodup_iff).mp hn
  cases h₁ : l₁.lookup k with
  | some v =>
    exact (lookup_of_mem_nodup l₂ k v hn₂ (hperm.mem_iff.mp (lookup_mem l₁ k v h₁))).symm
  | none =>
    cases h₂ : l₂.lookup k with
    | none => rfl
    | some v =>
      have := lookup_of_mem_nodup l₁ k v hn (hperm.mem_iff.mpr (lookup_mem l₂ k v h₂))
      rw [h₁] at this
      cases this

/-- Along a permutation of a list of headers that are plain and have distinct
names, the headers stay plain and the names distinct. -/
theorem headers_perm_valid (headers other : List (String × String))
    (hperm : other.Perm headers)
    (hvalid : ∀ kv ∈ headers, plainText kv.1 ∧ plainText kv.2 ∧ '=' ∉ kv.1.data)
    (hnodup : (headers.map Prod.fst).Nodup) :
    (∀ kv ∈ other, plainText kv.1 ∧ plainText kv.2 ∧ '=' ∉ kv.1.data)
      ∧ (other.map Prod.fst).Nodup :=
  ⟨fun kv hkv => hvalid kv (hperm.mem_iff.mp hkv),
    ((hperm.map Prod.fst).nodup_iff).mpr hnodup⟩

/-- C26: for every finite map of headers, given as the list of its pairs with
distinct names, whose names and values are non-empty, have no white space at
their start or end and contain no comma, and whose names contain no `=`, the map
that `parseCustomHeaders` returns on the header string (the texts `key=value`
joined with commas) holds under every key what the given map holds, and its
pairs are those of the given map; the same holds when the pairs are written in
any other order. -/
theorem customHeaders_round_trip (headers : List (String × String))
    (hnodup : (headers.map Prod.fst).Nodup)
    (hvalid : ∀ kv ∈ headers, plainText kv.1 ∧ plainText kv.2 ∧ '=' ∉ kv.1.data) :
    (∀ key, (parseCustomHeaders (joinHeaders headers)).lookup key = headers.lookup key)
      ∧ (parseCustomHeaders (joinHeaders headers)).Perm headers
      ∧ (∀ other : List (String × String), other.Perm headers →
          (parseCustomHeaders (joinHeaders other)).Perm headers
            ∧ ∀ key, (parseCustomHeaders (joinHeaders other)).lookup key
                = (parseCustomHeaders (joinHeaders headers)).lookup key) := by
  have hkey : ∀ (l : List (String × String)),
      (∀ kv ∈ l, plainText kv.1 ∧ plainText kv.2 ∧ '=' ∉ kv.1.data) →
      (l.map Prod.fst).Nodup →
      ∀ key, (parseCustomHeaders (joinHeaders l)).lookup key = l.lookup key := by
    intro l hl hn key
    rw [parseCustomHeaders_joinHeaders l hl hn, lookup_reverse_nodup l key hn]
  refine ⟨hkey headers hvalid hnodup, ?_, ?_⟩
  · rw [parseCustomHeaders_joinHeaders headers hvalid hnodup]
    exact List.reverse_perm headers
  · intro other hperm
    obtain ⟨hvalid', hnodup'⟩ := headers_perm_valid headers other hperm hvalid hnodup
    refine ⟨?_, ?_⟩
    · rw [parseCustomHeaders_joinHeaders other hvalid' hnodup']
      exact (List.reverse_perm other).trans hperm
    · intro key
      rw [hkey other hvalid' hnodup' key, hkey headers hvalid hnodup key]
      exact lookup_perm_nodup other headers key hperm hnodup'

/-- Witness of C26: two headers, the value of the second with an `=` in it. -/
theorem customHeaders_round_trip_witness :
    joinHeaders [("X-Custom", "value"), ("Authorization", "Basic dXNlcg==")]
        = "X-Custom=value,Authorization=Basic dXNlcg=="
      ∧ (parseCustomHeaders "X-Custom=value,Authorization=Basic dXNlcg==").Perm
        [("X-Custom", "value"), ("Authorization", "Basic dXNlcg==")] := by
  have hjoin : joinHeaders [("X-Custom", "value"), ("Authorization", "Basic dXNlcg==")]
      = "X-Custom=value,Authorization=Basic dXNlcg==" := by decide
  have h := (customHeaders_round_trip
    [("X-Custom", "value"), ("Authorization", "Basic dXNlcg==")] (by decide)
    (by decide)).2.1
  rw [hjoin] at h
  exact ⟨hjoin, h⟩

/-! ### The threshold and the inference window of a task request -/

/-- C27: for every argument set, the anomaly threshold of the request that
`handleCreateDetectionTask` hands to the client is strictly positive: an argument
that is zero or negative is replaced by 1.0 and a positive one is kept, so the
request never carries a threshold of 0; and `start_infer_s` and `end_infer_s`
are present in the request exactly when the argument is strictly positive, with
the value of the argument. -/
theorem anomalyThreshold_positive (env : Env) (args : CreateDetectionTaskArgs) :
    0 < (handleCreateDetectionTask_taskReq env args).AnomalyThreshold
      ∧ (handleCreateDetectionTask_taskReq env args).AnomalyThreshold ≠ 0
      ∧ (args.AnomalyThreshold ≤ 0 →
        (handleCreateDetectionTask_taskReq env args).AnomalyThreshold = 1)
      ∧ (0 < args.AnomalyThreshold →
        (handleCreateDetectionTask_taskReq env args).AnomalyThreshold = args.AnomalyThreshold)
      ∧ ((handleCreateDetectionTask_taskReq env args).StartInferS
          = if 0 < args.StartInferS then some args.StartInferS else none)
      ∧ ((handleCreateDetectionTask_taskReq env args).EndInferS
          = if 0 < args.EndInferS then some args.EndInferS else none)
      ∧ ((handleCreateDetectionTask_taskReq env args).StartInferS.isSome = true
          ↔ 0 < args.StartInferS)
      ∧ ((handleCreateDetectionTask_taskReq env args).EndInferS.isSome = true
          ↔ 0 < args.EndInferS) := by
  have hthr := taskReq_AnomalyThreshold env args
  have hstart : (handleCreateDetectionTask_taskReq env args).StartInferS
      = if 0 < args.StartInferS then some args.StartInferS else none := by
    simp only [handleCreateDetectionTask_taskReq,
      apply_ite AnomalyDetectionTaskRequest.StartInferS, ite_self, gt_iff_lt]
  have hend : (handleCreateDetectionTask_taskReq env args).EndInferS
      = if 0 < args.EndInferS then some args.EndInferS else none := by
    simp only [handleCreateDetectionTask_taskReq,
      apply_ite AnomalyDetectionTaskRequest.EndInferS, ite_self, gt_iff_lt]
  have hpos : 0 < (handleCreateDetectionTask_taskReq env args).AnomalyThreshold := by
    rw [hthr]
    split_ifs with hp
    · exact hp
    · norm_num
  refine ⟨hpos, ne_of_gt hpos, ?_, ?_, hstart, hend, ?_, ?_⟩
  · intro hle
    rw [hthr, if_neg (not_lt.mpr hle)]
  · intro hp
    rw [hthr, if_pos hp]
  · rw [hstart]
    split_ifs with hp <;> simp [hp]
  · rw [hend]
    split_ifs with hp <;> simp [hp]

/-! ### The parts of the compatibility summary -/

theorem intercalate_single (sep a : String) : String.intercalate sep [a] = a := rfl

theorem intercalate_pair (sep a b : String) :
    String.intercalate sep [a, b] = a ++ sep ++ b := rfl

/-- C28: for every compatibility response with the status "incompatible", the
summary is the line of the status followed by a part for the actions and a part
for the reason. With `drop_everything` false, the part for the actions is empty
when `models_to_purge` is empty and `purge_reader_data` is false, and otherwise
it is "Required actions: " followed by "purge models: " with the models in their
order joined by ", " (when there are models) and by "purge reader data" (when
`purge_reader_data` is true), the two joined by "; ", and closed by ". ". With
`drop_everything` true the part for the actions is the instruction to drop all
persisted state, whatever the models and the flag are. The part for the reason
is "Reason: " followed by the reason when there is one, and empty otherwise. -/
theorem incompatible_summary_parts (r : CheckCompatibilityResponse)
    (hstatus : r.Status = "incompatible") :
    (r.DropEverything = false →
        ∃ actionsPart reasonPart : String,
          buildCompatibilitySummary r
            = "State is INCOMPATIBLE with runtime " ++ r.RuntimeVersion ++ ". "
              ++ actionsPart ++ reasonPart
          ∧ (r.ModelsToPurge = [] ∧ r.PurgeReaderData = false → actionsPart = "")
          ∧ (r.ModelsToPurge ≠ [] ∧ r.PurgeReaderData = false →
            actionsPart = "Required actions: purge models: "
              ++ String.intercalate ", " r.ModelsToPurge ++ ". ")
          ∧ (r.ModelsToPurge = [] ∧ r.PurgeReaderData = true →
            actionsPart = "Required actions: purge reader data. ")
          ∧ (r.ModelsToPurge ≠ [] ∧ r.PurgeReaderData = true →
            actionsPart = "Required actions: purge models: "
              ++ String.intercalate ", " r.ModelsToPurge ++ "; purge reader data. ")
          ∧ (∀ reason, r.Reason = some reason → reasonPart = "Reason: " ++ reason)
          ∧ (r.Reason = none → reasonPart = ""))
      ∧ (r.DropEverything = true →
        ∃ reasonPart : String,
          buildCompatibilitySummary r
            = "State is INCOMPATIBLE with runtime " ++ r.RuntimeVersion ++ ". "
              ++ "CRITICAL: All persisted state must be dropped before upgrade. "
              ++ reasonPart
          ∧ (∀ reason, r.Reason = some reason → reasonPart = "Reason: " ++ reason)
          ∧ (r.Reason = none → reasonPart = "")) := by
  constructor
  · intro hdrop
    refine ⟨if r.ModelsToPurge = [] then
        (if r.PurgeReaderData then "Required actions: purge reader data. " else "")
      else (if r.PurgeReaderData then "Required actions: purge models: "
              ++ String.intercalate ", " r.ModelsToPurge ++ "; purge reader data. "
            else "Required actions: purge models: "
              ++ String.intercalate ", " r.ModelsToPurge ++ ". "),
      match r.Reason with
      | some reason => "Reason: " ++ reason
      | none => "", ?_, ?_, ?_, ?_, ?_, ?_, ?_⟩
    · unfold buildCompatibilitySummary
      by_cases hm : r.ModelsToPurge = []
      · cases hp : r.PurgeReaderData <;> cases hr : r.Reason <;>
          simp [hstatus, hdrop, hm, hp, hr, intercalate_single, intercalate_pair,
            String.append_assoc]
      · have hlen : 0 < r.ModelsToPurge.length := List.length_pos.mpr hm
        have hlit : ∀ x : String, "Required actions: " ++ ("purge models: " ++ x)
            = "Required actions: purge models: " ++ x := fun x => by
          rw [← String.append_assoc]
          rfl
        cases hp : r.PurgeReaderData <;> cases hr : r.Reason <;>
          simp [hstatus, hdrop, hm, hlen, hp, hr, intercalate_single, intercalate_pair,
            String.append_assoc, hlit]
    · rintro ⟨hm, hp⟩
      simp [hm, hp]
    · rintro ⟨hm, hp⟩
      simp [hm, hp]
    · rintro ⟨hm, hp⟩
      simp [hm, hp]
    · rintro ⟨hm, hp⟩
      simp [hm, hp]
    · intro reason hr
      simp [hr]
    · intro hr
      simp [hr]
  · intro hdrop
    refine ⟨match r.Reason with
      | some reason => "Reason: " ++ reason
      | none => "", ?_, ?_, ?_⟩
    · unfold buildCompatibilitySummary
      cases hr : r.Reason <;> simp [hstatus, hdrop, hr, String.append_assoc]
    · intro reason hr
      simp [hr]
    · intro hr
      simp [hr]

/-- Witness of C28: two models to purge and the reader data, with a reason. -/
theorem incompatible_summary_parts_witness :
    buildCompatibilitySummary
        { Summary := ""
          Status := "incompatible"
          RuntimeVersion := "1.28.0"
          StoredVersion := some "1.26.0"
          HasState := true
          IsCompatible := false
          DropEverything := false
          ModelsToPurge := ["zscore", "prophet"]
          PurgeReaderData := true
          Reason := some "model format changed" }
      = "State is INCOMPATIBLE with runtime 1.28.0. Required actions: purge models: "
        ++ "zscore, prophet; purge reader data. Reason: model format changed" := by
  obtain ⟨actionsPart, reasonPart, hsum, _, _, _, hboth, hreason, _⟩ :=
    (incompatible_summary_parts
      { Summary := ""
        Status := "incompatible"
        RuntimeVersion := "1.28.0"
        StoredVersion := some "1.26.0"
        HasState := true
        IsCompatible := false
        DropEverything := false
        ModelsToPurge := ["zscore", "prophet"]
        PurgeReaderData := true
        Reason := some "model format changed" } rfl).1 rfl
  rw [hsum, hboth ⟨by decide, rfl⟩, hreason "model format changed" rfl]
  decide

/-! ### truncateResponse -/

theorem asciiBytes_length (s : String) : (asciiBytes s).length = s.length := by
  unfold asciiBytes
  rw [List.length_map]
  rfl

theorem truncationMsg_length (limit contentLen : Int) :
    (truncateResponse_truncationMsg limit contentLen).length
      = 202 + (fmtInt limit).length + (fmtInt contentLen).length := by
  unfold truncateResponse_truncationMsg
  rw [asciiBytes_length]
  simp only [String.length_append]
  have h1 : "\n\n...[Response truncated]\n\n".length = 27 := by decide
  have h2 : "Response exceeded ".length = 18 := by decide
  have h3 : " character limit (was ".length = 22 := by decide
  have h4 : " characters). ".length = 14 := by decide
  have h5 : "To see more results:\n".length = 21 := by decide
  have h6 : "- Use filters to narrow results\n".length = 32 := by decide
  have h7 : "- Increase character_limit parameter\n".length = 37 := by decide
  have h8 : "- Request specific items by ID\n".length = 31 := by decide
  rw [h1, h2, h3, h4, h5, h6, h7, h8]
  omega

theorem fmtInt_length_le (n : Nat) (h : n < 2 ^ 63) : (fmtInt (n : Int)).length ≤ 19 := by
  have h10 : n < 10 ^ 19 := lt_trans h (by norm_num)
  exact Nat.repr_length n 19 (by norm_num) h10

theorem truncateResponse_unchanged (content : List UInt8) (limit : Int)
    (h : limit ≤ 0 ∨ (content.length : Int) ≤ limit) :
    truncateResponse content limit = .ok content := by
  unfold truncateResponse
  by_cases h0 : limit ≤ 0
  · simp [h0]
  · rcases h with h | h
    · exact absurd h h0
    · simp [h0, h]

theorem truncateResponse_room (content : List UInt8) (limit : Int)
    (hpos : 0 < limit) (hlong : limit < content.length)
    (hroom : 100 ≤ limit - (truncateResponse_truncationMsg limit content.length).length) :
    truncateResponse content limit
      = .ok (content.take
            (limit - (truncateResponse_truncationMsg limit content.length).length).toNat
          ++ truncateResponse_truncationMsg limit content.length)
      ∧ ((content.take
            (limit - (truncateResponse_truncationMsg limit content.length).length).toNat
          ++ truncateResponse_truncationMsg limit content.length).length : Int) = limit := by
  constructor
  · unfold truncateResponse sliceTo
    have h0 : ¬ limit ≤ 0 := by omega
    have h1 : ¬ (content.length : Int) ≤ limit := by omega
    have h2 : ¬ limit - (truncateResponse_truncationMsg limit content.length).length < 100 := by
      omega
    have h3 : 0 ≤ limit - (truncateResponse_truncationMsg limit content.length).length
        ∧ limit - (truncateResponse_truncationMsg limit content.length).length
          ≤ content.length := by
      constructor <;> omega
    simp only [h0, h1, h2, h3, if_false, if_true, and_self]
  · rw [List.length_append, List.length_take]
    have hmin : min (limit - (truncateResponse_truncationMsg limit content.length).length).toNat
        content.length
        = (limit - (truncateResponse_truncationMsg limit content.length).length).toNat := by
      apply Nat.min_eq_left
      omega
    rw [hmin]
    omega

theorem truncateResponse_no_room (content : List UInt8) (limit : Int)
    (hpos : 0 < limit) (hlong : limit < content.length)
    (hroom : limit - (truncateResponse_truncationMsg limit content.length).length < 100)
    (hlen : 100 ≤ content.length) :
    truncateResponse content limit
      = .ok (content.take 100 ++ truncateResponse_truncationMsg limit content.length)
      ∧ limit < ((content.take 100
          ++ truncateResponse_truncationMsg limit content.length).length : Int) := by
  constructor
  · unfold truncateResponse sliceTo
    have h0 : ¬ limit ≤ 0 := by omega
    have h1 : ¬ (content.length : Int) ≤ limit := by omega
    have h3 : (0 : Int) ≤ 100 ∧ (100 : Int) ≤ content.length := by
      constructor <;> omega
    simp only [h0, h1, hroom, h3, if_false, if_true, and_self]
    rfl
  · rw [List.length_append, List.length_take, Nat.min_eq_left hlen]
    omega

theorem truncateResponse_error_iff (content : List UInt8) (limit : Int) :
    (∃ err, truncateResponse content limit = .error err)
      ↔ 0 < limit ∧ limit < content.length ∧ content.length < 100 := by
  constructor
  · rintro ⟨err, herr⟩
    by_cases h : limit ≤ 0 ∨ (content.length : Int) ≤ limit
    · rw [truncateResponse_unchanged content limit h] at herr
      cases herr
    · have hpos : 0 < limit := by omega
      have hlong : limit < content.length := by omega
      refine ⟨hpos, hlong, ?_⟩
      by_contra hlen
      by_cases hroom :
          100 ≤ limit - (truncateResponse_truncationMsg limit content.length).length
      · rw [(truncateResponse_room content limit hpos hlong hroom).1] at herr
        cases herr
      · rw [(truncateResponse_no_room content limit hpos hlong (by omega) (by omega)).1] at herr
        cases herr
  · rintro ⟨hpos, hlong, hlen⟩
    unfold truncateResponse sliceTo
    have h0 : ¬ limit ≤ 0 := by omega
    have h1 : ¬ (content.length : Int) ≤ limit := by omega
    have hroom :
        limit - (truncateResponse_truncationMsg limit content.length).length < 100 := by omega
    have h3 : ¬ ((0 : Int) ≤ 100 ∧ (100 : Int) ≤ content.length) := by omega
    simp only [h0, h1, hroom, h3, if_false, if_true]
    exact ⟨_, rfl⟩

theorem truncateResponse_default (content : List UInt8)
    (hint : content.length < 2 ^ 63) (hlong : CHARACTER_LIMIT < content.length) :
    ∃ out, truncateResponse content CHARACTER_LIMIT = .ok out
      ∧ (out.length : Int) = CHARACTER_LIMIT := by
  have hmsg := truncationMsg_length CHARACTER_LIMIT content.length
  have hdig := fmtInt_length_le content.length hint
  have hlim : (fmtInt CHARACTER_LIMIT).length = 5 := by decide
  have hroom : 100 ≤ CHARACTER_LIMIT
      - (truncateResponse_truncationMsg CHARACTER_LIMIT content.length).length := by
    rw [hmsg, hlim]
    unfold CHARACTER_LIMIT
    omega
  have h := truncateResponse_room content CHARACTER_LIMIT (by decide) hlong hroom
  exact ⟨_, h.1, h.2⟩

/-- C29, as amended: `truncateResponse` returns the content unchanged when the
limit is not positive or the content is not longer than the limit. For a content
longer than a positive limit that leaves room for at least 100 bytes of content
beside the truncation message, the result is the first
limit - len(truncationMsg) bytes of the content followed by the message, and its
length is exactly the limit; this is so at the default `CHARACTER_LIMIT` of
25000 for every content whose length is an `int`. For a limit that leaves less
room and a content of at least 100 bytes, the result is the first 100 bytes of
the content followed by the message, and it is longer than the limit. -/
theorem truncateResponse_result (content : List UInt8) (limit : Int) :
    (limit ≤ 0 ∨ (content.length : Int) ≤ limit →
        truncateResponse content limit = .ok content)
      ∧ (0 < limit → limit < content.length →
        100 ≤ limit - (truncateResponse_truncationMsg limit content.length).length →
        truncateResponse content limit
            = .ok (content.take
                (limit - (truncateResponse_truncationMsg limit content.length).length).toNat
              ++ truncateResponse_truncationMsg limit content.length)
          ∧ ((content.take
                (limit - (truncateResponse_truncationMsg limit content.length).length).toNat
              ++ truncateResponse_truncationMsg limit content.length).length : Int) = limit)
      ∧ (0 < limit → limit < content.length →
        limit - (truncateResponse_truncationMsg limit content.length).length < 100 →
        100 ≤ content.length →
        truncateResponse content limit
            = .ok (content.take 100 ++ truncateResponse_truncationMsg limit content.length)
          ∧ limit < ((content.take 100
              ++ truncateResponse_truncationMsg limit content.length).length : Int))
      ∧ (content.length < 2 ^ 63 → CHARACTER_LIMIT < content.length →
        ∃ out, truncateResponse content CHARACTER_LIMIT = .ok out
          ∧ (out.length : Int) = CHARACTER_LIMIT) :=
  ⟨truncateResponse_unchanged content limit,
    truncateResponse_room content limit,
    truncateResponse_no_room content limit,
    truncateResponse_default content⟩

/-- Witness of C29 as amended: 400 bytes with the limit 350 are cut to 350
bytes, and 40 bytes with the limit 50 are returned as they are. -/
theorem truncateResponse_result_witness :
    (∃ out, truncateResponse (List.replicate 400 97) 350 = .ok out ∧ (out.length : Int) = 350)
      ∧ truncateResponse (List.replicate 40 97) 50 = .ok (List.replicate 40 97) :=
  ⟨⟨_, (truncateResponse_result (List.replicate 400 97) 350).2.1 (by decide) (by decide)
      (by decide)⟩,
    (truncateResponse_result (List.replicate 40 97) 50).1 (Or.inr (by decide))⟩

/-- C29 as stated fails: 200 bytes with the limit 150 give the first 100 bytes
followed by the truncation message, 308 bytes in all, more than the limit. -/
theorem truncateResponse_exceeds_small_limit :
    truncateResponse (List.replicate 200 97) 150
        = .ok (List.replicate 100 97 ++ truncateResponse_truncationMsg 150 200)
      ∧ (List.replicate 100 (97 : UInt8) ++ truncateResponse_truncationMsg 150 200).length
        = 308
      ∧ ¬ (308 ≤ 150) := by
  decide

/-- C30: the code at the failing input. With 50 bytes of content and the limit
10, the slice `content[:100]` is out of range and the function fails at run
time; it fails so exactly when the limit is positive and the content is longer
than the limit and shorter than 100 bytes. -/
theorem truncateResponse_slice_out_of_range :
    truncateResponse (List.replicate 50 97) 10
        = .error "runtime error: slice bounds out of range [:100] with length 50"
      ∧ (∀ (content : List UInt8) (limit : Int),
          (∃ err, truncateResponse content limit = .error err)
            ↔ 0 < limit ∧ limit < content.length ∧ content.length < 100) :=
  ⟨by decide, truncateResponse_error_iff⟩

end Vmanomaly
